import Mathlib

/-!
# L-SMASH Works, AviUtl input plugin: `libavsmash_input.c`

A shallow embedding of the seek-and-decode core of `src/AviUtl/libavsmash_input.c`
and the properties of it that the specification states.

Conventions of the embedding.

* C integers are natural numbers; where the source computes in `uint32_t` or
  `uint64_t` and the computation can wrap, the wrap is written out
  (`sub32`, `sub64`, `% U32`, `% U64`).
* The demuxer (L-SMASH) and the decoder (libavcodec) are external.  They are
  parameters of the embedding: `Container` collects the answers of the demuxer
  for the video track, `Decoder σ` is a decoder with an abstract state `σ`,
  `AudioTrack` is the audio side.
* The handle is a record that is passed in and returned.
* Behaviour the C standard leaves undefined (a division by zero, a read
  outside an allocation) is the outcome `Outcome.undefined`.
-/

namespace LSmashWorks

/-! ## Machine arithmetic -/

/-- Number of values of a `uint32_t`. -/
def U32 : Nat := 2 ^ 32

/-- Number of values of a `uint64_t`. -/
def U64 : Nat := 2 ^ 64

/-- The constant `INT32_MAX`. -/
def INT32_MAX : Nat := 2 ^ 31 - 1

/-- Subtraction of two `uint32_t` values, wrapping as in C. -/
def sub32 (a b : Nat) : Nat := (a % U32 + U32 - b % U32) % U32

/-- Subtraction of two `uint64_t` values, wrapping as in C. -/
def sub64 (a b : Nat) : Nat := (a % U64 + U64 - b % U64) % U64

/-- Result of a C function on the handle: either it returns a code and leaves
the handle in a new state, or its behaviour is undefined. -/
inductive Outcome (α : Type) where
  | ret : Int → α → Outcome α
  | undefined : Outcome α

/-! ## Timeline builder -/

/-- Loop of `get_gcd`, entered with `b ≠ 0`. -/
def get_gcd_loop (a b : Nat) (_hb : 0 < b) : Nat :=
  if h : a % b = 0 then b else get_gcd_loop b (a % b) (Nat.pos_of_ne_zero h)
termination_by b
decreasing_by exact Nat.mod_lt _ _hb

/-- Embedding of `get_gcd` (lines 140-152). -/
def get_gcd (a b : Nat) : Nat :=
  if h : b = 0 then a else get_gcd_loop a b (Nat.pos_of_ne_zero h)

/-- Embedding of `reduce_fraction` (lines 154-160): the reduced pair and the
returned divisor.  Dividing by a zero `reduce` is undefined (`none`). -/
def reduce_fraction (a b : Nat) : Option (Nat × Nat × Nat) :=
  let reduce := get_gcd a b
  if reduce = 0 then none else some (a / reduce, b / reduce, reduce)

/-- One entry of `lsmash_media_ts_list_t`. -/
structure Timestamp where
  dts : Nat
  cts : Nat
deriving DecidableEq, Repr

/-- Record written by
`lsmash_get_closest_random_accessible_point_detail_from_media_timeline`. -/
structure RapDetail where
  rap : Nat
  /-- True when `rap_type` is `ISOM_SAMPLE_RANDOM_ACCESS_TYPE_POST_ROLL` or
  `ISOM_SAMPLE_RANDOM_ACCESS_TYPE_PRE_ROLL`. -/
  roll : Bool
  leadings : Nat
  distance : Nat
deriving DecidableEq, Repr

/-- Answers of the demuxer for the video track, of the allocators and of the
scaler. -/
structure Container where
  /-- Value of `lsmash_get_media_timescale`. -/
  media_timescale : Nat
  /-- Value of `lsmash_get_media_duration`. -/
  media_duration : Nat
  /-- Table of `lsmash_get_media_timestamps`; `none` when the call fails. -/
  media_timestamps : Option (List Timestamp)
  /-- Value of `lsmash_get_max_sample_delay`; `none` when the call fails. -/
  max_sample_delay : List Timestamp → Option Nat
  /-- Effect of `lsmash_sort_timestamps_composition_order` on the table. -/
  sort_composition_order : List Timestamp → List Timestamp
  /-- Whether `malloc_zero` succeeds. -/
  malloc_ok : Bool
  /-- Value of `lsmash_get_closest_random_accessible_point_from_media_timeline`;
  `none` when the call fails. -/
  closest_rap : Nat → Option Nat
  /-- Record of the detailed lookup; `none` when the call fails. -/
  rap_detail : Nat → Option RapDetail
  /-- Values left in `rap_type`, `number_of_leadings` and `distance`, which
  the source declares without initialiser, when the detailed lookup fails. -/
  rap_unset : Nat → RapDetail
  /-- Number of samples of the media timeline. -/
  sample_count : Nat
  /-- Whether the sample with this number can be fetched. -/
  sample_present : Nat → Bool
  /-- Whether the sample's `random_access_type` differs from `NONE`. -/
  sample_sync : Nat → Bool
  /-- Value of `lsmash_get_max_sample_size_in_media_timeline`. -/
  max_sample_size : Nat
  /-- Whether `av_mallocz` succeeds. -/
  av_mallocz_ok : Bool
  /-- Whether `sws_getCachedContext` returns a context. -/
  sws_ok : Bool

/-- The type `decode_status_t`. -/
inductive decode_status_t where
  | DECODE_REQUIRE_INITIAL
  | DECODE_INITIALIZING
  | DECODE_INITIALIZED
deriving DecidableEq, Repr

/-- The constant `SEEK_MODE_NORMAL`. -/
def SEEK_MODE_NORMAL : Nat := 0

/-- The constant `SEEK_MODE_UNSAFE`. -/
def SEEK_MODE_UNSAFE : Nat := 1

/-- The constant `SEEK_MODE_AGGRESSIVE`. -/
def SEEK_MODE_AGGRESSIVE : Nat := 2

/-- One call of `seek_video`, as recorded in the handle's log. -/
structure SeekCall where
  composition_sample_number : Nat
  rap_number : Nat
  error_ignorance : Bool
  /-- Value the call returned. -/
  result : Nat
deriving DecidableEq, Repr

/-- The video fields of `lsmash_handler_t` and `libavsmash_handler_t`, with
the decoder context `video_ctx` as an abstract state.  The three logs record
what the functions did to the decoder; no function reads them. -/
structure VideoHandler (σ : Type) where
  video_sample_count : Nat
  framerate_num : Nat
  framerate_den : Nat
  video_ctx : σ
  last_video_sample_number : Nat
  last_rap_number : Nat
  delay_count : Nat
  decode_status : decode_status_t
  order_converter : Option (List Nat)
  keyframe_list : Option (List Nat)
  seek_mode : Nat
  /-- Field `skip_frame` of the decoder context: true for `AVDISCARD_NONREF`,
  false for `AVDISCARD_DEFAULT`. -/
  skip_nonref : Bool
  /-- Log: sample numbers handed to `avcodec_decode_video2`, oldest first. -/
  fed : List Nat
  /-- Log: calls of `seek_video`, oldest first. -/
  seeks : List SeekCall
  /-- Log: number of calls of `flush_buffers` on the video context. -/
  flushes : Nat
  /-- Log: number of empty packets handed to `avcodec_decode_video2`. -/
  drained : Nat

/-- Read of `ts_list.timestamp[i].cts`. -/
def cts_at (ts : List Timestamp) (i : Nat) : Nat := (ts.getD i ⟨0, 0⟩).cts

/-- The loop of lines 216-227, with `k` iterations left and loop variable `i`.
The state is `(composition_timebase, largest_cts, second_largest_cts)`; the
result is `none` when the loop returns on a duplicated CTS. -/
def cts_loop (ts : List Timestamp) : Nat → Nat → Nat × Nat × Nat → Option (Nat × Nat × Nat)
  | 0, _, st => some st
  | k + 1, i, (composition_timebase, largest_cts, _) =>
    if cts_at ts i = cts_at ts (i - 1) then none
    else cts_loop ts k (i + 1)
      (get_gcd composition_timebase (sub64 (cts_at ts i) (cts_at ts (i - 1))),
       cts_at ts i, largest_cts)

/-- Lines 206-210: the table of `order_converter`, entry 0 left zero by
`malloc_zero`, entry `i + 1` the `dts` of the sorted entry `i` stored in a
`uint32_t`. -/
def build_order_converter (sorted : List Timestamp) (sample_count : Nat) : List Nat :=
  0 :: (List.range sample_count).map (fun i => (sorted.getD i ⟨0, 0⟩).dts % U32)

/-- Lines 206-207: `ts_list.timestamp[i].dts = i + 1`. -/
def number_dts (ts : List Timestamp) : List Timestamp :=
  ts.enum.map (fun p => { p.2 with dts := p.1 + 1 })

/-- Line 231 with the quotient evaluated exactly:
`(n * (timescale / duration)) * timebase + 0.5`, truncated to an integer. -/
def average_framerate_num (n timescale duration timebase : Nat) : Nat :=
  (2 * (n * timescale * timebase) + duration) / (2 * duration)

/-- Lines 212-233: the framerate from the (sorted) timestamp table. -/
def calculate_framerate {σ : Type} (media_timescale : Nat) (ts : List Timestamp)
    (h : VideoHandler σ) : Outcome (VideoHandler σ) :=
  if ts.length < 2 then .undefined
  else
    match cts_loop ts (ts.length - 2) 2
        (sub64 (cts_at ts 1) (cts_at ts 0), cts_at ts 1, cts_at ts 0) with
    | none => .ret 0 h
    | some (composition_timebase, largest_cts, second_largest_cts) =>
      match reduce_fraction media_timescale composition_timebase with
      | none => .undefined
      | some (media_timescale, composition_timebase, reduce) =>
        let composition_duration :=
          ((sub64 largest_cts (cts_at ts 0) + sub64 largest_cts second_largest_cts) % U64) / reduce
        if composition_duration = 0 then .undefined
        else .ret 0 { h with
          framerate_num :=
            average_framerate_num h.video_sample_count media_timescale composition_duration
              composition_timebase
          framerate_den := composition_timebase }

/-- Embedding of `setup_timestamp_info` (lines 162-234). -/
def setup_timestamp_info {σ : Type} (c : Container) (h : VideoHandler σ) :
    Outcome (VideoHandler σ) :=
  let media_timescale := c.media_timescale
  if h.video_sample_count = 1 then
    let media_duration := if c.media_duration = 0 then INT32_MAX else c.media_duration
    match reduce_fraction media_timescale media_duration with
    | none => .undefined
    | some (media_timescale, media_duration, _) =>
      .ret 0 { h with framerate_num := media_timescale, framerate_den := media_duration }
  else
    match c.media_timestamps with
    | none => .ret (-1) h
    | some ts =>
      if ts.length ≠ h.video_sample_count then .ret (-1) h
      else
        match c.max_sample_delay ts with
        | none => .ret (-1) h
        | some composition_sample_delay =>
          if composition_sample_delay ≠ 0 then
            if c.malloc_ok then
              let sorted := c.sort_composition_order (number_dts ts)
              calculate_framerate media_timescale sorted
                { h with order_converter := some (build_order_converter sorted ts.length) }
            else .ret (-1) h
          else calculate_framerate media_timescale ts h

/-! ## Keyframe list -/

/-- Embedding of `get_decoding_sample_number` (lines 371-376).  A number past
the end of the table reads as 0. -/
def get_decoding_sample_number {σ : Type} (hp : VideoHandler σ)
    (composition_sample_number : Nat) : Nat :=
  match hp.order_converter with
  | some t => t.getD composition_sample_number 0
  | none => composition_sample_number

/-- One iteration of the loop of `create_keyframe_list` (lines 385-390). -/
def keyframe_step {σ : Type} (c : Container) (hp : VideoHandler σ) (list : List Nat)
    (composition_sample_number : Nat) : List Nat :=
  let decoding_sample_number := get_decoding_sample_number hp composition_sample_number
  match c.closest_rap decoding_sample_number with
  | none => list
  | some rap_number =>
    if decoding_sample_number = rap_number then list.set composition_sample_number 1 else list

/-- Embedding of `create_keyframe_list` (lines 378-393): the list has
`video_sample_count + 1` zeroed entries (the sum computed in `uint32_t`), and
the loop visits the composition numbers `1 .. video_sample_count`. -/
def create_keyframe_list {σ : Type} (c : Container) (hp : VideoHandler σ)
    (video_sample_count : Nat) : Int × VideoHandler σ :=
  if c.malloc_ok then
    let zeroed := List.replicate ((video_sample_count + 1) % U32) 0
    let list := (List.range' 1 video_sample_count).foldl (keyframe_step c hp) zeroed
    (0, { hp with keyframe_list := some list })
  else (-1, { hp with keyframe_list := none })

/-- Embedding of `is_keyframe` (lines 830-834): the entry `sample_number + 1`
of the keyframe list; `none` when that entry lies outside the list (or there
is no list), where the C read is undefined. -/
def is_keyframe {σ : Type} (hp : VideoHandler σ) (sample_number : Nat) : Option Nat :=
  match hp.keyframe_list with
  | some list => list.get? (sample_number + 1)
  | none => none

/-! ## Random-access resolver -/

/-- Result of `find_random_accessible_point`: the returned `roll_recovery`,
the value stored through `rap_number`, and the handle. -/
structure RapResult (σ : Type) where
  roll_recovery : Bool
  rap_number : Nat
  hp : VideoHandler σ

/-- Embedding of `find_random_accessible_point` (lines 538-554). -/
def find_random_accessible_point {σ : Type} (c : Container) (hp : VideoHandler σ)
    (composition_sample_number decoding_sample_number : Nat) : RapResult σ :=
  let decoding_sample_number :=
    if decoding_sample_number = 0 then get_decoding_sample_number hp composition_sample_number
    else decoding_sample_number
  let detail : RapDetail :=
    match c.rap_detail decoding_sample_number with
    | some r => r
    | none => { c.rap_unset decoding_sample_number with rap := 1 }
  let roll_recovery := detail.roll
  let is_leading :=
    decide (detail.leadings ≠ 0) &&
      decide (sub32 decoding_sample_number detail.rap ≤ detail.leadings)
  let rap_number :=
    if (roll_recovery || is_leading) && decide (detail.rap > detail.distance)
    then detail.rap - detail.distance else detail.rap
  { roll_recovery := roll_recovery, rap_number := rap_number,
    hp := { hp with last_rap_number := rap_number } }

/-! ## Video decode engine -/

/-- What one call of `avcodec_decode_video2` does. -/
structure DecodeResult (σ : Type) where
  /-- The call returned a negative value. -/
  error : Bool
  /-- The picture when `got_picture` is set. -/
  picture : Option Nat
  /-- The decoder context after the call. -/
  ctx : σ

/-- The video decoder (libavcodec) and the colorspace converter. -/
structure Decoder (σ : Type) where
  /-- The value of `DECODER_DELAY( ctx )`. -/
  delay : σ → Nat
  /-- Decoding the packet of a sample, given the `skip_frame` setting. -/
  decode : σ → Bool → Nat → DecodeResult σ
  /-- Decoding the empty packet. -/
  drain : σ → DecodeResult σ
  /-- Closing and reopening the context, as `flush_buffers` does. -/
  reopen : σ → σ
  /-- Value returned by `convert_colorspace` for a picture. -/
  convert : Nat → Nat

/-- Whether `get_sample` (lines 508-520) finds the sample on the video track:
the number lies in the timeline and the sample can be fetched. -/
def get_sample (c : Container) (sample_number : Nat) : Bool :=
  decide (1 ≤ sample_number) && decide (sample_number ≤ c.sample_count) &&
    c.sample_present sample_number

/-- Result of `decode_video_sample`: the return value, the picture left in
`picture` when `got_picture` is set, and the handle. -/
structure DecodeStep (σ : Type) where
  ret : Int
  picture : Option Nat
  hp : VideoHandler σ

/-- Embedding of `decode_video_sample` (lines 522-536).  The argument
`picture` is the state of `got_picture` before the call. -/
def decode_video_sample {σ : Type} (c : Container) (d : Decoder σ) (hp : VideoHandler σ)
    (picture : Option Nat) (sample_number : Nat) : DecodeStep σ :=
  if get_sample c sample_number then
    let hp := if c.sample_sync sample_number then { hp with last_rap_number := sample_number }
      else hp
    let r := d.decode hp.video_ctx hp.skip_nonref sample_number
    let hp := { hp with video_ctx := r.ctx, fed := hp.fed ++ [sample_number] }
    if r.error then { ret := -1, picture := r.picture, hp := hp }
    else { ret := 0, picture := r.picture, hp := hp }
  else { ret := 1, picture := picture, hp := hp }

/-- Embedding of `flush_buffers` (lines 556-564) on the video context. -/
def flush_buffers {σ : Type} (d : Decoder σ) (hp : VideoHandler σ) : VideoHandler σ :=
  { hp with video_ctx := d.reopen hp.video_ctx, flushes := hp.flushes + 1 }

/-- State of the loop of `seek_video` when it is left: whether it returned 0
on a decode error, the loop variable, and the handle. -/
structure SeekLoop (σ : Type) where
  failed : Bool
  i : Nat
  hp : VideoHandler σ

/-- Lines 578-579: `skip_frame` goes back to `AVDISCARD_DEFAULT` when
`i + DECODER_DELAY( ctx )` reaches the composition number. -/
def skip_frame_default_at {σ : Type} (d : Decoder σ) (composition_sample_number i : Nat)
    (hp : VideoHandler σ) : VideoHandler σ :=
  if i + d.delay hp.video_ctx = composition_sample_number then { hp with skip_nonref := false }
  else hp

/-- Lines 569-573: the start of `seek_video`, before its loop. -/
def seek_video_start {σ : Type} (d : Decoder σ) (hp : VideoHandler σ)
    (composition_sample_number rap_number : Nat) : VideoHandler σ :=
  let hp := flush_buffers d hp
  let hp := { hp with delay_count := 0, decode_status := .DECODE_REQUIRE_INITIAL }
  if rap_number + d.delay hp.video_ctx < composition_sample_number
  then { hp with skip_nonref := true } else hp

/-- The loop of `seek_video` (lines 576-588), entered with loop variable `i`. -/
def seek_video_loop {σ : Type} (c : Container) (d : Decoder σ)
    (composition_sample_number : Nat) (error_ignorance : Bool) (i : Nat)
    (hp : VideoHandler σ) : SeekLoop σ :=
  if i < composition_sample_number + d.delay hp.video_ctx then
    let hp1 := skip_frame_default_at d composition_sample_number i hp
    let r := decode_video_sample c d hp1 none i
    if r.ret = -1 ∧ error_ignorance = false then { failed := true, i := i, hp := r.hp }
    else if hr : r.ret = 1 then { failed := false, i := i, hp := r.hp }
    else seek_video_loop c d composition_sample_number error_ignorance (i + 1) r.hp
  else { failed := false, i := i, hp := hp }
termination_by c.sample_count + 1 - i
decreasing_by
  have hs : get_sample c i = true := by
    by_contra hg
    exact hr (by simp [r, decode_video_sample, hg])
  simp only [get_sample, Bool.and_eq_true, decide_eq_true_eq] at hs
  omega

/-- Embedding of `seek_video` (lines 566-593): the returned number and the
handle.  The call is appended to the log `seeks`. -/
def seek_video {σ : Type} (c : Container) (d : Decoder σ) (hp : VideoHandler σ)
    (composition_sample_number rap_number : Nat) (error_ignorance : Bool) :
    Nat × VideoHandler σ :=
  let hp := seek_video_start d hp composition_sample_number rap_number
  let l := seek_video_loop c d composition_sample_number error_ignorance rap_number hp
  if l.failed then
    (0, { l.hp with seeks := l.hp.seeks ++
      [⟨composition_sample_number, rap_number, error_ignorance, 0⟩] })
  else
    (l.i, { l.hp with
      skip_nonref := false
      delay_count := d.delay l.hp.video_ctx
      seeks := l.hp.seeks ++ [⟨composition_sample_number, rap_number, error_ignorance, l.i⟩] })

/-- Lines 613-614 and 635-636: `if( !got_picture ) ++ hp->delay_count`. -/
def count_delay {σ : Type} (picture : Option Nat) (hp : VideoHandler σ) : VideoHandler σ :=
  if picture.isNone then { hp with delay_count := hp.delay_count + 1 } else hp

/-- Lines 597-603: the step of `get_picture` while the status is
`DECODE_INITIALIZING`. -/
def settle_delay {σ : Type} (d : Decoder σ) (hp : VideoHandler σ) : VideoHandler σ :=
  if hp.decode_status = .DECODE_INITIALIZING then
    if hp.delay_count > d.delay hp.video_ctx then { hp with delay_count := hp.delay_count - 1 }
    else { hp with decode_status := .DECODE_INITIALIZED }
  else hp

/-- Lines 638-639: `DECODE_REQUIRE_INITIAL` becomes `DECODE_INITIALIZING`. -/
def leave_require_initial {σ : Type} (hp : VideoHandler σ) : VideoHandler σ :=
  if hp.decode_status = .DECODE_REQUIRE_INITIAL
  then { hp with decode_status := .DECODE_INITIALIZING } else hp

/-- State of a loop of `get_picture` when it is left: whether the function
returned -1 from inside the loop, the variables `current` and `got_picture`
(with the picture), and the handle. -/
structure PictureLoop (σ : Type) where
  failed : Bool
  current : Nat
  picture : Option Nat
  hp : VideoHandler σ

/-- The first loop of `get_picture` (lines 605-619). -/
def get_picture_loop {σ : Type} (c : Container) (d : Decoder σ) (goal : Nat) (current : Nat)
    (picture : Option Nat) (hp : VideoHandler σ) : PictureLoop σ :=
  let r := decode_video_sample c d hp picture current
  if r.ret = -1 then { failed := true, current := current, picture := r.picture, hp := r.hp }
  else if r.ret = 1 then
    { failed := false, current := current, picture := r.picture, hp := r.hp }
  else
    let hp1 := count_delay r.picture r.hp
    if hp1.delay_count > d.delay hp1.video_ctx ∧ hp1.decode_status = .DECODE_INITIALIZED then
      { failed := false, current := current + 1, picture := r.picture, hp := hp1 }
    else if current + 1 ≤ goal then get_picture_loop c d goal (current + 1) r.picture hp1
    else { failed := false, current := current + 1, picture := r.picture, hp := hp1 }
termination_by goal + 1 - current
decreasing_by omega

/-- The handle after the empty packet went through `avcodec_decode_video2`
(lines 624-629). -/
def after_empty_packet {σ : Type} (d : Decoder σ) (hp : VideoHandler σ) : VideoHandler σ :=
  { hp with video_ctx := (d.drain hp.video_ctx).ctx, drained := hp.drained + 1 }

/-- The second loop of `get_picture` (lines 622-637), which hands empty
packets to the decoder. -/
def flush_last_frames {σ : Type} (d : Decoder σ) (goal : Nat) (current : Nat)
    (hp : VideoHandler σ) : PictureLoop σ :=
  let r := d.drain hp.video_ctx
  let hp0 := after_empty_packet d hp
  if r.error then { failed := true, current := current, picture := r.picture, hp := hp0 }
  else
    let hp1 := count_delay r.picture hp0
    if current + 1 ≤ goal then flush_last_frames d goal (current + 1) hp1
    else { failed := false, current := current + 1, picture := r.picture, hp := hp1 }
termination_by goal + 1 - current
decreasing_by omega

/-- Lines 620-637: the second loop runs when `current` is past the sample
count, the first loop left no picture and the decoder has a delay. -/
def flush_at_end {σ : Type} (d : Decoder σ) (goal video_sample_count : Nat)
    (l : PictureLoop σ) : PictureLoop σ :=
  if l.current > video_sample_count ∧ l.picture.isNone ∧ d.delay l.hp.video_ctx ≠ 0 then
    flush_last_frames d goal l.current l.hp
  else l

/-- Result of `get_picture`: the return value, the picture it leaves in
`picture` when it returns 0, and the handle. -/
structure PictureResult (σ : Type) where
  ret : Int
  picture : Option Nat
  hp : VideoHandler σ

/-- Embedding of `get_picture` (lines 595-641). -/
def get_picture {σ : Type} (c : Container) (d : Decoder σ) (hp : VideoHandler σ)
    (current goal video_sample_count : Nat) : PictureResult σ :=
  let hp := settle_delay d hp
  let l := get_picture_loop c d goal current none hp
  if l.failed then { ret := -1, picture := none, hp := l.hp }
  else
    let l := flush_at_end d goal video_sample_count l
    if l.failed then { ret := -1, picture := none, hp := l.hp }
    else
      let hp := leave_require_initial l.hp
      match l.picture with
      | some p => { ret := 0, picture := some p, hp := hp }
      | none => { ret := -1, picture := none, hp := hp }

/-- The constant `MAX_ERROR_COUNT` of `read_video`. -/
def MAX_ERROR_COUNT : Nat := 3

/-- Result of `read_video`: the return value (what `convert_colorspace`
returns, or 0 on the path through `video_fail`), the picture handed to the
converter, the handle, and the values of the local variables `seek_mode` and
`error_count` when the function returns. -/
structure ReadVideo (σ : Type) where
  ret : Nat
  picture : Option Nat
  hp : VideoHandler σ
  seek_mode : Nat
  error_count : Nat

/-- The condition of the loop of `read_video` (line 666): the attempt fails
at once when `start_number` is 0, and otherwise is the call of `get_picture`
with goal `sample_number + hp->delay_count`. -/
def read_video_attempt {σ : Type} (c : Container) (d : Decoder σ)
    (sample_number start_number : Nat) (hp : VideoHandler σ) : PictureResult σ :=
  if start_number = 0 then { ret := -1, picture := none, hp := hp }
  else get_picture c d hp start_number (sample_number + hp.delay_count) hp.video_sample_count

/-- The loop of `read_video` with what follows it (lines 666-690), entered
with the local variables `error_count`, `seek_mode`, `roll_recovery`,
`rap_number` and `start_number`. -/
def read_video_loop {σ : Type} (c : Container) (d : Decoder σ) (sample_number : Nat)
    (error_count seek_mode : Nat) (roll_recovery : Bool) (rap_number start_number : Nat)
    (hp : VideoHandler σ) : ReadVideo σ :=
  let g := read_video_attempt c d sample_number start_number hp
  if g.ret = 0 then
    { ret := d.convert (g.picture.getD 0), picture := g.picture,
      hp := { g.hp with last_video_sample_number := sample_number },
      seek_mode := seek_mode, error_count := error_count }
  else if hm : seek_mode = SEEK_MODE_AGGRESSIVE then
    { ret := 0, picture := none, hp := g.hp, seek_mode := seek_mode, error_count := error_count }
  else if he : error_count + 1 > MAX_ERROR_COUNT ∨ rap_number ≤ 1 then
    if seek_mode = SEEK_MODE_UNSAFE then
      { ret := 0, picture := none, hp := g.hp, seek_mode := seek_mode,
        error_count := error_count + 1 }
    else
      let s := seek_video c d g.hp sample_number rap_number
        (roll_recovery || decide (SEEK_MODE_AGGRESSIVE ≠ SEEK_MODE_NORMAL))
      read_video_loop c d sample_number (error_count + 1) SEEK_MODE_AGGRESSIVE roll_recovery
        rap_number s.1 s.2
  else
    let f := find_random_accessible_point c g.hp sample_number (rap_number - 1)
    let s := seek_video c d f.hp sample_number f.rap_number
      (f.roll_recovery || decide (seek_mode ≠ SEEK_MODE_NORMAL))
    read_video_loop c d sample_number (error_count + 1) seek_mode f.roll_recovery
      f.rap_number s.1 s.2
termination_by
  if seek_mode = SEEK_MODE_AGGRESSIVE then 0 else MAX_ERROR_COUNT + 1 - error_count + 1
decreasing_by
  · simp [hm]
  · simp only [hm, if_false]
    simp only [MAX_ERROR_COUNT] at he ⊢
    omega

/-- Embedding of `read_video` (lines 643-692); `sample_number` is the 0-based
frame number the host passes. -/
def read_video {σ : Type} (c : Container) (d : Decoder σ) (hp : VideoHandler σ)
    (sample_number : Nat) : ReadVideo σ :=
  let sample_number := sample_number + 1
  let seek_mode := hp.seek_mode
  if sample_number = hp.last_video_sample_number + 1 then
    read_video_loop c d sample_number 0 seek_mode false hp.last_rap_number
      (sample_number + hp.delay_count) hp
  else
    let f := find_random_accessible_point c hp sample_number 0
    let s := seek_video c d f.hp sample_number f.rap_number
      (f.roll_recovery || decide (seek_mode ≠ SEEK_MODE_NORMAL))
    read_video_loop c d sample_number 0 seek_mode f.roll_recovery f.rap_number s.1 s.2

/-- Embedding of `prepare_video_decoding` (lines 395-451) up to the output
header, which the engine does not read.  `has_video_ctx` tells whether
`hp->video_ctx` is set. -/
def prepare_video_decoding {σ : Type} (c : Container) (has_video_ctx : Bool)
    (hp : VideoHandler σ) : Int × VideoHandler σ :=
  if !has_video_ctx then (0, hp)
  else if c.max_sample_size = 0 then (-1, hp)
  else if !c.av_mallocz_ok then (-1, hp)
  else
    let k := create_keyframe_list c hp hp.video_sample_count
    if k.1 ≠ 0 then (-1, k.2)
    else
      let hp := { k.2 with last_video_sample_number := 1 }
      if !c.sws_ok then (-1, hp) else (0, hp)

/-! ## Audio read engine -/

/-- Answers of the demuxer and of the decoder for the audio track.  The
decoder is a function of the frame number. -/
structure AudioTrack where
  /-- Value of `lsmash_get_sample_delta_from_media_timeline`; `none` when the
  call fails. -/
  sample_delta : Nat → Option Nat
  /-- Field `pre_roll.distance` of
  `lsmash_get_sample_property_from_media_timeline`; `none` when the call fails. -/
  pre_roll_distance : Nat → Option Nat
  /-- Number of samples of the media timeline. -/
  sample_count : Nat
  /-- Whether the sample with this number can be fetched. -/
  sample_present : Nat → Bool
  /-- The calls of `avcodec_decode_audio3` that consume the packet of a frame,
  in order: each one fails (`none`) or fills the output buffer with a chunk
  of bytes. -/
  decode : Nat → List (Option (List Nat))

/-- The audio fields of `lsmash_handler_t` and `libavsmash_handler_t`.
`block_align` is `audio_format.Format.nBlockAlign`; `flushes` is a log of the
calls of `flush_buffers` on the audio context, which no function reads. -/
structure AudioHandler where
  audio_pcm_sample_count : Nat
  block_align : Nat
  audio_output_buffer : List Nat
  audio_frame_count : Nat
  audio_frame_length : Nat
  next_audio_pcm_sample_number : Nat
  last_audio_frame_number : Nat
  last_remainder_size : Nat
  priming_samples : Nat
  flushes : Nat

/-- Reading `n` bytes of a buffer from offset `off`; the buffer is zeroed
where nothing was written. -/
def buf_read (buffer : List Nat) (off n : Nat) : List Nat :=
  (List.range n).map (fun k => buffer.getD (off + k) 0)

/-- Writing bytes at the head of a buffer. -/
def buf_write (buffer data : List Nat) : List Nat :=
  data ++ buffer.drop data.length

/-- Whether `get_sample` (lines 508-520) finds the sample on the audio track. -/
def get_audio_sample (a : AudioTrack) (sample_number : Nat) : Bool :=
  decide (1 ≤ sample_number) && decide (sample_number ≤ a.sample_count) &&
    a.sample_present sample_number

/-- Embedding of `get_frame_length` (lines 694-707): the length stored through
`frame_length`, or `none` when the function returns -1. -/
def get_frame_length (a : AudioTrack) (hp : AudioHandler) (frame_number : Nat) : Option Nat :=
  if hp.audio_frame_length = 0 then a.sample_delta frame_number
  else some hp.audio_frame_length

/-- The loop of `get_priming_samples` (lines 720-725) with `k` iterations
left, loop variable `i` and the sum `min_priming_samples`. -/
def priming_loop (a : AudioTrack) (hp : AudioHandler) (frame_number : Nat) :
    Nat → Nat → Nat → Nat
  | 0, _, min_priming_samples => min_priming_samples
  | k + 1, i, min_priming_samples =>
    match get_frame_length a hp ((frame_number + i) % U32) with
    | none => min_priming_samples
    | some frame_length =>
      priming_loop a hp frame_number k (i + 1) ((min_priming_samples + frame_length) % U32)

/-- Embedding of `get_priming_samples` (lines 709-727). -/
def get_priming_samples (a : AudioTrack) (hp : AudioHandler) (frame_number frame_length : Nat) :
    Nat :=
  match a.pre_roll_distance frame_number with
  | none => 0
  | some distance =>
    if distance = 0 then 0
    else max hp.priming_samples (priming_loop a hp frame_number (distance - 1) 1 frame_length)

/-- The frame walk of the seek path (lines 766-774): the variables
`frame_number`, `next_frame_pos` and `frame_length` when the loop is left. -/
def frame_walk (a : AudioTrack) (hp : AudioHandler) (start : Nat)
    (frame_number next_frame_pos frame_length : Nat) : Nat × Nat × Nat :=
  match get_frame_length a hp frame_number with
  | none => (frame_number, next_frame_pos, frame_length)
  | some frame_length =>
    let next_frame_pos := (next_frame_pos + frame_length) % U64
    if start < next_frame_pos then (frame_number, next_frame_pos, frame_length)
    else if frame_number + 1 ≤ hp.audio_frame_count then
      frame_walk a hp start (frame_number + 1) next_frame_pos frame_length
    else (frame_number + 1, next_frame_pos, frame_length)
termination_by hp.audio_frame_count + 1 - frame_number
decreasing_by omega

/-- Line 776: `(priming_samples + start + frame_length - next_frame_pos) *
block_align`, the sum in `uint32_t`, the rest in `uint64_t`. -/
def seek_data_offset (priming_samples start frame_length next_frame_pos block_align : Nat) : Nat :=
  (sub64 ((priming_samples + start + frame_length) % U32) next_frame_pos * block_align) % U64

/-- Lines 763-776: the frame and the data offset the seek path starts from. -/
def audio_seek_position (a : AudioTrack) (hp : AudioHandler) (start : Nat) : Nat × Nat :=
  let w := frame_walk a hp start 1 0 0
  let priming_samples := get_priming_samples a hp w.1 w.2.2
  (w.1, seek_data_offset priming_samples start w.2.2 w.2.1 hp.block_align)

/-- The local variables of `read_audio` during the decode loop; `out` is what
has been written through `buf`. -/
structure AudioState where
  data_offset : Nat
  copy_size : Nat
  output_length : Nat
  wanted_length : Nat
  out : List Nat
  hp : AudioHandler

/-- Lines 787-809: one successful call of `avcodec_decode_audio3` fills the
output buffer with `chunk`; the part of it behind `data_offset` is copied out,
as far as it is wanted. -/
def consume_chunk (chunk : List Nat) (st : AudioState) : AudioState :=
  let buffer := buf_write st.hp.audio_output_buffer chunk
  let hp := { st.hp with audio_output_buffer := buffer }
  let output_buffer_size := chunk.length
  let block_align := hp.block_align
  if output_buffer_size > st.data_offset then
    let copy_size := min (output_buffer_size - st.data_offset) (st.wanted_length * block_align)
    let copied_length := copy_size / block_align
    { data_offset := 0
      copy_size := copy_size
      output_length := st.output_length + copied_length
      wanted_length := st.wanted_length - copied_length
      out := st.out ++ buf_read buffer st.data_offset copy_size
      hp := hp }
  else
    { st with copy_size := 0, data_offset := st.data_offset - output_buffer_size, hp := hp }

/-- Line 814: `hp->last_remainder_size = output_buffer_size - copy_size`. -/
def save_remainder (output_buffer_size : Nat) (st : AudioState) : AudioState :=
  { st with hp := { st.hp with last_remainder_size := output_buffer_size - st.copy_size } }

/-- The inner loop of `read_audio` (lines 784-817) over the decode calls of
one packet.  The flag tells that the loop left through `goto audio_out`. -/
def decode_packet : List (Option (List Nat)) → AudioState → Bool × AudioState
  | [], st => (false, st)
  | none :: _, st => (true, st)
  | some chunk :: rest, st =>
    let st1 := consume_chunk chunk st
    if st1.wanted_length = 0 then (true, save_remainder chunk.length st1)
    else decode_packet rest st1

/-- The outer loop of `read_audio` (lines 778-819): the variable
`frame_number` and the other locals when the loop is left. -/
def audio_decode_loop (a : AudioTrack) (frame_number : Nat) (st : AudioState) :
    Nat × AudioState :=
  let st0 := { st with copy_size := 0 }
  if hs : get_audio_sample a frame_number = true then
    let r := decode_packet (a.decode frame_number) st0
    if r.1 then (frame_number, r.2) else audio_decode_loop a (frame_number + 1) r.2
  else (frame_number, st0)
termination_by a.sample_count + 1 - frame_number
decreasing_by
  simp only [get_audio_sample, Bool.and_eq_true, decide_eq_true_eq] at hs
  omega

/-- Result of `read_audio`: the returned `output_length`, the bytes written
through `buf`, and the handle. -/
structure AudioRead where
  output_length : Nat
  out : List Nat
  hp : AudioHandler

/-- The label `audio_out` of `read_audio` (lines 820-827). -/
def audio_out (start frame_number : Nat) (st : AudioState) : AudioRead :=
  let moved := buf_write st.hp.audio_output_buffer
    (buf_read st.hp.audio_output_buffer st.copy_size st.hp.last_remainder_size)
  let hp :=
    if st.hp.last_remainder_size ≠ 0 ∧ st.copy_size ≠ 0 then
      { st.hp with audio_output_buffer := moved }
    else st.hp
  { output_length := st.output_length
    out := st.out
    hp := { hp with
      next_audio_pcm_sample_number := (start + st.output_length) % U32
      last_audio_frame_number := frame_number } }

/-- Lines 740-752: the saved remainder is copied out first, as far as it is
wanted. -/
def take_remainder (hp : AudioHandler) (wanted_length : Nat) : AudioState :=
  if hp.last_remainder_size ≠ 0 then
    let copy_size := min hp.last_remainder_size (wanted_length * hp.block_align)
    let copied_length := copy_size / hp.block_align
    { data_offset := 0
      copy_size := copy_size
      output_length := copied_length
      wanted_length := wanted_length - copied_length
      out := buf_read hp.audio_output_buffer 0 copy_size
      hp := { hp with last_remainder_size := hp.last_remainder_size - copy_size } }
  else
    { data_offset := 0, copy_size := 0, output_length := 0, wanted_length := wanted_length,
      out := [], hp := hp }

/-- The branch of `read_audio` taken when `start` equals
`next_audio_pcm_sample_number` (lines 739-755), with the rest of the function. -/
def read_audio_continue (a : AudioTrack) (hp : AudioHandler) (start wanted_length : Nat) :
    AudioRead :=
  let frame_number := hp.last_audio_frame_number
  let st := take_remainder hp wanted_length
  if hp.last_remainder_size ≠ 0 ∧ st.wanted_length = 0 then audio_out start frame_number st
  else
    let r := audio_decode_loop a (frame_number + 1) st
    audio_out start r.1 r.2

/-- Lines 759-762: the seek flushes the decoder and resets the three fields. -/
def reset_for_seek (hp : AudioHandler) : AudioHandler :=
  { hp with
    flushes := hp.flushes + 1
    last_remainder_size := 0
    next_audio_pcm_sample_number := 0
    last_audio_frame_number := 0 }

/-- The branch of `read_audio` that seeks (lines 757-777), with the rest of
the function. -/
def read_audio_seek (a : AudioTrack) (hp : AudioHandler) (start wanted_length : Nat) :
    AudioRead :=
  let hp := reset_for_seek hp
  let p := audio_seek_position a hp start
  let r := audio_decode_loop a p.1
    { data_offset := p.2, copy_size := 0, output_length := 0, wanted_length := wanted_length,
      out := [], hp := hp }
  audio_out start r.1 r.2

/-- Embedding of `read_audio` (lines 729-828).  The comparison of the `int`
`start` with the `uint32_t` field is made in `uint32_t`. -/
def read_audio (a : AudioTrack) (hp : AudioHandler) (start wanted_length : Nat) : AudioRead :=
  if start % U32 = hp.next_audio_pcm_sample_number then read_audio_continue a hp start wanted_length
  else read_audio_seek a hp start wanted_length

/-- Number of bytes that the decode calls of one packet put into the output
buffer, all calls taken together. -/
def decoded_bytes : List (Option (List Nat)) → Nat
  | [] => 0
  | none :: rest => decoded_bytes rest
  | some chunk :: rest => chunk.length + decoded_bytes rest

/-- The bytes that the decode calls of one packet put into the output buffer
before the first call that fails, and whether a call fails. -/
def packet_bytes : List (Option (List Nat)) → List Nat × Bool
  | [] => ([], false)
  | none :: _ => ([], true)
  | some chunk :: rest => (chunk ++ (packet_bytes rest).1, (packet_bytes rest).2)

/-- The decoded bytes of the track from frame `frame_number` on, over at most
`frames` frames: the packets are decoded one after the other until a sample
cannot be fetched or a decode call fails. -/
def decoded_stream (a : AudioTrack) : Nat → Nat → List Nat
  | _, 0 => []
  | frame_number, frames + 1 =>
    if get_audio_sample a frame_number then
      if (packet_bytes (a.decode frame_number)).2 then (packet_bytes (a.decode frame_number)).1
      else (packet_bytes (a.decode frame_number)).1 ++ decoded_stream a (frame_number + 1) frames
    else []

/-! ## Audio track binding -/

/-- The fields of `lsmash_media_parameters_t` that `get_first_track_of_type`
reads. -/
structure MediaParameters where
  handler_type : Nat
  roll_grouping : Bool

/-- The fields of `lsmash_edit_t` that `get_first_track_of_type` reads:
`duration` is a `uint64_t`, `start_time` an `int64_t`. -/
structure Edit where
  duration : Nat
  start_time : Int

/-- Answers of L-SMASH, libavformat and libavcodec about the opened file. -/
structure Movie where
  /-- Value of `lsmash_get_track_ID` for a track number; 0 when it fails. -/
  track_ID : Nat → Nat
  /-- Result of `lsmash_get_media_parameters` for a track ID; `none` when the
  call fails. -/
  media_parameters : Nat → Option MediaParameters
  /-- Whether `lsmash_construct_timeline` succeeds for a track ID. -/
  construct_timeline_ok : Nat → Bool
  /-- Value of `lsmash_get_sample_count_in_media_timeline`. -/
  sample_count_in_media_timeline : Nat → Nat
  /-- Value of `lsmash_get_media_duration`. -/
  media_duration : Nat → Nat
  /-- Value of `lsmash_count_explicit_timeline_map`. -/
  explicit_timeline_map_count : Nat → Nat
  /-- Result of `lsmash_get_explicit_timeline_map` for a track ID and an edit
  number; `none` when the call fails. -/
  explicit_timeline_map : Nat → Nat → Option Edit
  /-- Whether libavformat has a stream of the wanted type. -/
  stream_found : Bool
  /-- Whether `avcodec_find_decoder` finds the decoder. -/
  codec_found : Bool
  /-- Whether `avcodec_open2` succeeds. -/
  avcodec_open2_ok : Bool

/-- The loop over the tracks (lines 245-257), entered at track number `i`
with `remaining` tracks left: the ID and the media parameters of the first
track of the wanted type, or `none` when the function returns -1 from the loop
or finds no such track. -/
def track_loop (m : Movie) (type : Nat) : Nat → Nat → Option (Nat × MediaParameters)
  | _, 0 => none
  | i, remaining + 1 =>
    let track_ID := m.track_ID i
    if track_ID = 0 then none
    else
      match m.media_parameters track_ID with
      | none => none
      | some media_param =>
        if media_param.handler_type = type then some (track_ID, media_param)
        else track_loop m type (i + 1) remaining

/-- The loop over the explicit edits (lines 289-302), entered at
`edit_number` with `remaining` edits left: the value of `hp->priming_samples`
when the loop is left.  The assignment of the `int64_t` start time to the
`uint32_t` field keeps its low 32 bits.  The edit count is taken to be below
`2 ^ 32 - 1`, so that `edit_number` does not wrap. -/
def edit_loop (m : Movie) (track_ID priming_samples : Nat) : Nat → Nat → Nat
  | _, 0 => priming_samples
  | edit_number, remaining + 1 =>
    match m.explicit_timeline_map track_ID edit_number with
    | none => priming_samples
    | some edit =>
      if edit.duration = 0 then priming_samples
      else if edit.start_time ≥ 0 then (edit.start_time % (U32 : Int)).toNat
      else edit_loop m track_ID priming_samples (edit_number + 1) remaining

/-- Result of `get_first_track_of_type` for the audio track: the return value,
the field `audio_track_ID`, and the handle. -/
structure AudioBinding where
  ret : Int
  audio_track_ID : Nat
  hp : AudioHandler

/-- Embedding of `get_first_track_of_type` (lines 236-332) called with a
`type` other than `ISOM_MEDIA_HANDLER_TYPE_VIDEO_TRACK`, as
`get_first_audio_track` does.  `audio_track_ID` is the value of the field
before the call.  The width of `h->audio_pcm_sample_count` is declared outside
this file; the media duration is stored as it is. -/
def get_first_track_of_type (m : Movie) (type number_of_tracks audio_track_ID : Nat)
    (hp : AudioHandler) : AudioBinding :=
  match track_loop m type 1 number_of_tracks with
  | none => { ret := -1, audio_track_ID := audio_track_ID, hp := hp }
  | some (track_ID, media_param) =>
    if !m.construct_timeline_ok track_ID then
      { ret := -1, audio_track_ID := audio_track_ID, hp := hp }
    else
      let hp := { hp with
        audio_frame_count := m.sample_count_in_media_timeline track_ID
        audio_pcm_sample_count := m.media_duration track_ID }
      let hp :=
        if media_param.roll_grouping then
          { hp with priming_samples :=
              edit_loop m track_ID hp.priming_samples 1 (m.explicit_timeline_map_count track_ID) }
        else hp
      if !m.stream_found then { ret := -1, audio_track_ID := track_ID, hp := hp }
      else if !m.codec_found then { ret := -1, audio_track_ID := track_ID, hp := hp }
      else if !m.avcodec_open2_ok then { ret := -1, audio_track_ID := track_ID, hp := hp }
      else { ret := 0, audio_track_ID := track_ID, hp := hp }

/-! ## Frame of the video engine -/

/-- The fields of the handle that decoding a sample does not write. -/
def same_track {σ : Type} (a b : VideoHandler σ) : Prop :=
  b.video_sample_count = a.video_sample_count ∧ b.framerate_num = a.framerate_num ∧
  b.framerate_den = a.framerate_den ∧
  b.last_video_sample_number = a.last_video_sample_number ∧
  b.order_converter = a.order_converter ∧ b.keyframe_list = a.keyframe_list ∧
  b.seek_mode = a.seek_mode ∧ b.seeks = a.seeks ∧ b.flushes = a.flushes

/-! ## Concrete tracks

Small inputs on which the definitions are evaluated. -/

/-- A handle as `malloc_zero` leaves it, with the given sample count and seek
mode. -/
def zeroed_handler (video_sample_count seek_mode : Nat) : VideoHandler Unit :=
  { video_sample_count := video_sample_count, framerate_num := 0, framerate_den := 0,
    video_ctx := (), last_video_sample_number := 0, last_rap_number := 0, delay_count := 0,
    decode_status := .DECODE_REQUIRE_INITIAL, order_converter := none, keyframe_list := none,
    seek_mode := seek_mode, skip_nonref := false, fed := [], seeks := [], flushes := 0,
    drained := 0 }

/-- A video track of three samples at CTS 0, 1, 2 in a timescale of 30, with
only the first sample a sync sample, no composition delay and a sort that
leaves the table as it is. -/
def ipp_container : Container :=
  { media_timescale := 30, media_duration := 3,
    media_timestamps := some [⟨0, 0⟩, ⟨1, 1⟩, ⟨2, 2⟩],
    max_sample_delay := fun _ => some 0, sort_composition_order := fun l => l,
    malloc_ok := true, closest_rap := fun _ => some 1,
    rap_detail := fun _ => some ⟨1, false, 0, 0⟩, rap_unset := fun _ => ⟨0, false, 0, 0⟩,
    sample_count := 3, sample_present := fun _ => true, sample_sync := fun n => n == 1,
    max_sample_size := 100, av_mallocz_ok := true, sws_ok := true }

/-- A decoder without delay that answers every packet with the picture of
that sample, and a converter that returns 100 plus the picture number. -/
def simple_decoder : Decoder Unit :=
  { delay := fun _ => 0, decode := fun _ _ n => ⟨false, some n, ()⟩,
    drain := fun _ => ⟨false, none, ()⟩, reopen := fun _ => (), convert := fun p => p + 100 }

/-- The decoder `simple_decoder`, except that decoding sample 1 reports an
error. -/
def failing_decoder : Decoder Unit :=
  { simple_decoder with decode := fun _ _ n => ⟨n == 1, some n, ()⟩ }

/-- A decoder that can only decode after it has seen sample 1, the sync
sample: its state tells whether it has, and reopening it forgets. -/
def sync_first_decoder : Decoder Bool :=
  { delay := fun _ => 0,
    decode := fun seen _ n =>
      if n == 1 then ⟨false, some 1, true⟩
      else if seen then ⟨false, some n, true⟩ else ⟨true, none, false⟩,
    drain := fun seen => ⟨false, none, seen⟩, reopen := fun _ => false,
    convert := fun p => p + 100 }

/-- The handle `zeroed_handler` for the decoder `sync_first_decoder`. -/
def zeroed_sync_handler (video_sample_count seek_mode : Nat) : VideoHandler Bool :=
  { video_sample_count := video_sample_count, framerate_num := 0, framerate_den := 0,
    video_ctx := false, last_video_sample_number := 0, last_rap_number := 0, delay_count := 0,
    decode_status := .DECODE_REQUIRE_INITIAL, order_converter := none, keyframe_list := none,
    seek_mode := seek_mode, skip_nonref := false, fed := [], seeks := [], flushes := 0,
    drained := 0 }

/-- A decoder with a delay of one packet: it holds the last sample it was
given and answers each packet with the picture of the sample before. -/
def delayed_decoder : Decoder (Option Nat) :=
  { delay := fun _ => 1, decode := fun held _ n => ⟨false, held, some n⟩,
    drain := fun held => ⟨false, held, none⟩, reopen := fun _ => none,
    convert := fun p => p + 100 }

/-- The handle `zeroed_handler` for the decoder `delayed_decoder`. -/
def zeroed_delayed_handler (video_sample_count seek_mode : Nat) : VideoHandler (Option Nat) :=
  { video_sample_count := video_sample_count, framerate_num := 0, framerate_den := 0,
    video_ctx := none, last_video_sample_number := 0, last_rap_number := 0, delay_count := 0,
    decode_status := .DECODE_REQUIRE_INITIAL, order_converter := none, keyframe_list := none,
    seek_mode := seek_mode, skip_nonref := false, fed := [], seeks := [], flushes := 0,
    drained := 0 }

/-- The decoder `simple_decoder`, except that the packet of sample 3 is
consumed without an error and without a picture. -/
def mute_third_decoder : Decoder Unit :=
  { simple_decoder with decode := fun _ _ n => ⟨false, if n == 3 then none else some n, ()⟩ }

/-- A file whose only track has ID 1 and the handler type 7, with the given
roll grouping and explicit edits; edit numbers start at 1. -/
def one_track_movie (roll_grouping : Bool) (edits : List Edit) : Movie :=
  { track_ID := fun i => if i = 1 then 1 else 0,
    media_parameters := fun _ => some ⟨7, roll_grouping⟩,
    construct_timeline_ok := fun _ => true,
    sample_count_in_media_timeline := fun _ => 3,
    media_duration := fun _ => 3072,
    explicit_timeline_map_count := fun _ => edits.length,
    explicit_timeline_map := fun _ n => if n = 0 then none else edits.get? (n - 1),
    stream_found := true, codec_found := true, avcodec_open2_ok := true }

/-- An audio handle as `malloc_zero` leaves it. -/
def zeroed_audio_handler : AudioHandler :=
  { audio_pcm_sample_count := 0, block_align := 0, audio_output_buffer := [],
    audio_frame_count := 0, audio_frame_length := 0, next_audio_pcm_sample_number := 0,
    last_audio_frame_number := 0, last_remainder_size := 0, priming_samples := 0,
    flushes := 0 }

/-- The track `ipp_container` with the given timestamp table, timescale,
composition delay and sort. -/
def container_with (timescale : Nat) (ts : List Timestamp) (delay : Nat)
    (sort : List Timestamp → List Timestamp) : Container :=
  { ipp_container with
    media_timescale := timescale
    media_timestamps := some ts
    max_sample_delay := fun _ => some delay
    sort_composition_order := sort
    sample_count := ts.length }

/-- A video track of four samples in decoding order I P B B (composition
times 1, 4, 2, 3), with composition delay 2 and an insertion sort by
composition time. -/
def ibbp_container : Container :=
  container_with 30 [⟨0, 1⟩, ⟨1, 4⟩, ⟨2, 2⟩, ⟨3, 3⟩] 2
    (List.insertionSort (fun a b => a.cts ≤ b.cts))

/-- A video track of twenty samples where every detailed lookup answers with
the sync sample 10, which has two leading samples and lies five samples after
the previous random access point. -/
def leading_container : Container :=
  { ipp_container with
    rap_detail := fun _ => some ⟨10, false, 2, 5⟩
    sample_count := 20 }

/-- An audio track of three frames; frame `n` decodes in one call to the four
bytes `10 n, 10 n + 1, 10 n + 2, 10 n + 3`; the samples carry the given
pre-roll distance. -/
def four_byte_track (distance : Option Nat) : AudioTrack :=
  { sample_delta := fun _ => some 4, pre_roll_distance := fun _ => distance, sample_count := 3,
    sample_present := fun _ => true,
    decode := fun n => [some [10 * n, 10 * n + 1, 10 * n + 2, 10 * n + 3]] }

/-- The audio handle after `prepare_audio_decoding` for `four_byte_track`:
one byte per PCM sample, constant frame length 4, twelve PCM samples, and the
given number of priming samples. -/
def four_byte_handler (priming_samples : Nat) : AudioHandler :=
  { audio_pcm_sample_count := 12, block_align := 1, audio_output_buffer := [],
    audio_frame_count := 3, audio_frame_length := 4, next_audio_pcm_sample_number := 13,
    last_audio_frame_number := 0, last_remainder_size := 0, priming_samples := priming_samples,
    flushes := 0 }

/-- The audio handle of a track whose frames have the constant length 1024,
with 1024 priming samples from the edit list and four bytes per PCM sample. -/
def aac_handler : AudioHandler :=
  { audio_pcm_sample_count := 2048, block_align := 4, audio_output_buffer := [],
    audio_frame_count := 3, audio_frame_length := 1024, next_audio_pcm_sample_number := 2049,
    last_audio_frame_number := 0, last_remainder_size := 0, priming_samples := 1024,
    flushes := 0 }

/-- The audio handle of `four_byte_track` when the media duration is 10 PCM
samples, two less than the three frames decode to. -/
def short_pcm_handler : AudioHandler :=
  { four_byte_handler 0 with audio_pcm_sample_count := 10, next_audio_pcm_sample_number := 11 }

/-! ## Timeline builder: framerate -/

/-- The loop of `get_gcd` computes the greatest common divisor. -/
theorem get_gcd_loop_eq (a b : Nat) (hb : 0 < b) : get_gcd_loop a b hb = Nat.gcd a b := by
  induction b using Nat.strong_induction_on generalizing a with
  | _ b ih =>
    unfold get_gcd_loop
    split
    · rename_i h
      rw [Nat.gcd_comm, Nat.gcd_rec, h, Nat.gcd_zero_left]
    · rename_i h
      rw [ih (a % b) (Nat.mod_lt _ hb) b (Nat.pos_of_ne_zero h)]
      rw [Nat.gcd_comm a b, Nat.gcd_rec b a, Nat.gcd_comm]

/-- The function `get_gcd` computes the greatest common divisor. -/
theorem get_gcd_eq (a b : Nat) : get_gcd a b = Nat.gcd a b := by
  unfold get_gcd
  split
  · rename_i h; subst h; simp
  · exact get_gcd_loop_eq a b _

/-- When `reduce_fraction` is defined, it divides both numbers by their gcd and
leaves a coprime pair. -/
theorem reduce_fraction_some {a b p q r : Nat} (h : reduce_fraction a b = some (p, q, r)) :
    r = Nat.gcd a b ∧ 0 < r ∧ p = a / r ∧ q = b / r ∧ Nat.gcd p q = 1 := by
  unfold reduce_fraction at h
  simp only [get_gcd_eq] at h
  split at h
  · exact absurd h (by simp)
  · rename_i hr
    simp only [Option.some.injEq, Prod.mk.injEq] at h
    obtain ⟨hp, hq, hr'⟩ := h
    have hpos : 0 < Nat.gcd a b := Nat.pos_of_ne_zero hr
    refine ⟨hr'.symm, hr' ▸ hpos, ?_, ?_, ?_⟩
    · rw [← hp, ← hr']
    · rw [← hq, ← hr']
    · rw [← hp, ← hq]; exact Nat.coprime_div_gcd_div_gcd hpos

/-- What `calculate_framerate` leaves in the handle when it returns. -/
theorem calculate_framerate_ret {σ : Type} {T : Nat} {ts : List Timestamp}
    {h h' : VideoHandler σ} {code : Int} (hr : calculate_framerate T ts h = .ret code h') :
    code = 0 ∧ h'.order_converter = h.order_converter ∧
    ((cts_loop ts (ts.length - 2) 2
        (sub64 (cts_at ts 1) (cts_at ts 0), cts_at ts 1, cts_at ts 0) = none ∧ h' = h) ∨
     ∃ tb largest second, cts_loop ts (ts.length - 2) 2
        (sub64 (cts_at ts 1) (cts_at ts 0), cts_at ts 1, cts_at ts 0) = some (tb, largest, second) ∧
      0 < Nat.gcd T tb ∧
      h'.framerate_den = tb / Nat.gcd T tb ∧
      h'.framerate_num = average_framerate_num h.video_sample_count (T / Nat.gcd T tb)
        (((sub64 largest (cts_at ts 0) + sub64 largest second) % U64) / Nat.gcd T tb)
        (tb / Nat.gcd T tb) ∧
      Nat.gcd (T / Nat.gcd T tb) h'.framerate_den = 1) := by
  unfold calculate_framerate at hr
  split at hr
  · exact absurd hr (by simp)
  · split at hr
    · rename_i hl
      simp only [Outcome.ret.injEq] at hr
      exact ⟨hr.1.symm, by rw [← hr.2], Or.inl ⟨hl, hr.2.symm⟩⟩
    · rename_i tb largest second hl
      split at hr
      · exact absurd hr (by simp)
      · rename_i p q r hred
        obtain ⟨hr1, hr2, hp, hq, hco⟩ := reduce_fraction_some hred
        dsimp only at hr
        split at hr
        · exact absurd hr (by simp)
        · simp only [Outcome.ret.injEq] at hr
          obtain ⟨hc, hh⟩ := hr
          subst hh
          refine ⟨hc.symm, rfl, Or.inr ⟨tb, largest, second, hl, hr1 ▸ hr2, ?_, ?_, ?_⟩⟩
          · simp [hq, hr1]
          · simp [hq, hp, hr1]
          · simp only; rw [← hr1, ← hp]; exact hco

/-- The table `setup_timestamp_info` computes the framerate from: the table of
the demuxer, sorted when there is a composition delay. -/
theorem setup_timestamp_info_multi {σ : Type} {c : Container} {h h' : VideoHandler σ}
    {code : Int} (hn : h.video_sample_count ≠ 1)
    (hr : setup_timestamp_info c h = .ret code h') :
    code = -1 ∧ h' = h ∨
    ∃ ts0 delay g, c.media_timestamps = some ts0 ∧ ts0.length = h.video_sample_count ∧
      c.max_sample_delay ts0 = some delay ∧
      g.video_sample_count = h.video_sample_count ∧
      g.framerate_num = h.framerate_num ∧ g.framerate_den = h.framerate_den ∧
      (delay = 0 → g = h) ∧
      (delay ≠ 0 → c.malloc_ok = true ∧ g.order_converter = some (build_order_converter
        (c.sort_composition_order (number_dts ts0)) ts0.length)) ∧
      calculate_framerate c.media_timescale
        (if delay ≠ 0 then c.sort_composition_order (number_dts ts0) else ts0) g
        = .ret code h' := by
  unfold setup_timestamp_info at hr
  simp only [hn, if_false] at hr
  split at hr
  · simp only [Outcome.ret.injEq] at hr; exact Or.inl ⟨hr.1.symm, hr.2.symm⟩
  · rename_i ts0 hts
    split at hr
    · simp only [Outcome.ret.injEq] at hr; exact Or.inl ⟨hr.1.symm, hr.2.symm⟩
    · rename_i hlen
      split at hr
      · simp only [Outcome.ret.injEq] at hr; exact Or.inl ⟨hr.1.symm, hr.2.symm⟩
      · rename_i delay hdel
        split at hr
        · rename_i hd0
          split at hr
          · rename_i hm
            refine Or.inr ⟨ts0, delay,
              { h with order_converter := some (build_order_converter
                  (c.sort_composition_order (number_dts ts0)) ts0.length) },
              hts, not_not.mp hlen, hdel, rfl, rfl, rfl, fun h0 => absurd h0 hd0,
              fun _ => ⟨hm, rfl⟩, ?_⟩
            simp only [ne_eq, hd0, not_false_eq_true, if_true]; exact hr
          · simp only [Outcome.ret.injEq] at hr; exact Or.inl ⟨hr.1.symm, hr.2.symm⟩
        · rename_i hd0
          refine Or.inr ⟨ts0, delay, h, hts, not_not.mp hlen, hdel, rfl, rfl, rfl, fun _ => rfl,
            fun hd => absurd hd hd0, ?_⟩
          simp only [hd0, if_false]; exact hr

/-- C8, as amended.  In the single-sample branch the framerate is in lowest
terms.  In the multi-sample branch, when the framerate is set, `framerate_den`
is the composition timebase divided by its gcd with the media timescale and
`framerate_num` is the rounded average of line 231; the denominator is coprime
to the reduced media timescale, and nothing reduces the numerator against it. -/
theorem setup_timestamp_info_framerate_terms {σ : Type} (c : Container)
    (h h' : VideoHandler σ) (code : Int) (hr : setup_timestamp_info c h = .ret code h') :
    (h.video_sample_count = 1 → code = 0 ∧ Nat.gcd h'.framerate_num h'.framerate_den = 1) ∧
    (h.video_sample_count ≠ 1 → code = 0 →
      (h'.framerate_num = h.framerate_num ∧ h'.framerate_den = h.framerate_den) ∨
      ∃ ts0 delay ts tb largest second,
        c.media_timestamps = some ts0 ∧ c.max_sample_delay ts0 = some delay ∧
        ts = (if delay ≠ 0 then c.sort_composition_order (number_dts ts0) else ts0) ∧
        cts_loop ts (ts.length - 2) 2 (sub64 (cts_at ts 1) (cts_at ts 0), cts_at ts 1, cts_at ts 0)
          = some (tb, largest, second) ∧
        h'.framerate_den = tb / Nat.gcd c.media_timescale tb ∧
        h'.framerate_num = average_framerate_num h.video_sample_count
          (c.media_timescale / Nat.gcd c.media_timescale tb)
          (((sub64 largest (cts_at ts 0) + sub64 largest second) % U64)
            / Nat.gcd c.media_timescale tb)
          (tb / Nat.gcd c.media_timescale tb) ∧
        Nat.gcd (c.media_timescale / Nat.gcd c.media_timescale tb) h'.framerate_den = 1) := by
  constructor
  · intro h1
    unfold setup_timestamp_info at hr
    simp only [h1, if_true] at hr
    split at hr
    · exact absurd hr (by simp)
    · rename_i p q r hred
      obtain ⟨_, _, _, _, hco⟩ := reduce_fraction_some hred
      simp only [Outcome.ret.injEq] at hr
      obtain ⟨hc, hh⟩ := hr
      subst hh
      exact ⟨hc.symm, hco⟩
  · intro h1 hc0
    rcases setup_timestamp_info_multi h1 hr with
      ⟨hc, _⟩ | ⟨ts0, delay, g, hts, hlen, hdel, hgn, hnum, hden, _, _, hcf⟩
    · rw [hc0] at hc; exact absurd hc (by decide)
    · obtain ⟨_, _, hcase⟩ := calculate_framerate_ret hcf
      rcases hcase with ⟨_, heq⟩ | ⟨tb, largest, second, hloop, _, hd, hnm, hco⟩
      · left; rw [heq]; exact ⟨hnum, hden⟩
      · right
        exact ⟨ts0, delay, _, tb, largest, second, hts, hdel, rfl, hloop, hd, by rw [hnm, hgn], hco⟩

/-- Witness of `setup_timestamp_info_framerate_terms`: a single sample with
timescale 30 and duration 3 gives the framerate 10/1. -/
theorem setup_timestamp_info_framerate_terms_witness :
    setup_timestamp_info ipp_container (zeroed_handler 1 0)
      = .ret 0 { zeroed_handler 1 0 with framerate_num := 10, framerate_den := 1 } ∧
    Nat.gcd 10 1 = 1 :=
  have e : setup_timestamp_info ipp_container (zeroed_handler 1 0)
      = .ret 0 { zeroed_handler 1 0 with framerate_num := 10, framerate_den := 1 } := by
    simp [setup_timestamp_info, ipp_container, zeroed_handler, reduce_fraction, get_gcd_eq]
  ⟨e, ((setup_timestamp_info_framerate_terms ipp_container (zeroed_handler 1 0) _ 0 e).1 rfl).2⟩

/-- C8, counterexample.  Three samples at CTS 0, 33, 99 in a timescale of 1000:
`setup_timestamp_info` sets the framerate 600/33, whose gcd is 3. -/
theorem framerate_not_in_lowest_terms :
    setup_timestamp_info (container_with 1000 [⟨0, 0⟩, ⟨1, 33⟩, ⟨2, 99⟩] 0 id) (zeroed_handler 3 0)
      = .ret 0 { zeroed_handler 3 0 with framerate_num := 600, framerate_den := 33 } ∧
    Nat.gcd 600 33 = 3 := by
  constructor
  · simp [setup_timestamp_info, container_with, ipp_container, zeroed_handler, calculate_framerate,
      cts_loop, cts_at, reduce_fraction, get_gcd_eq, sub64, U64, average_framerate_num]
  · decide

/-! ## Timeline builder: order map -/

/-- The numbers `number_dts` writes are 1, 2, ... in table order. -/
theorem number_dts_map_dts (ts : List Timestamp) :
    (number_dts ts).map (fun x => x.dts) = (List.range ts.length).map (fun i => i + 1) := by
  unfold number_dts
  rw [List.map_map, ← List.enum_map_fst ts, List.map_map]
  rfl

/-- The function `number_dts` keeps the length of the table. -/
theorem number_dts_length (ts : List Timestamp) : (number_dts ts).length = ts.length := by
  simp [number_dts]

/-- With a table of the right length, the entries 1.. of `order_converter` are
the `dts` of the sorted table. -/
theorem build_order_converter_eq (sorted : List Timestamp) (n : Nat) (hl : sorted.length = n) :
    build_order_converter sorted n = 0 :: sorted.map (fun x => x.dts % U32) := by
  unfold build_order_converter
  congr 1
  apply List.ext_getElem
  · simp [hl]
  · intro i h1 h2
    simp only [List.length_map, List.length_range] at h1
    have hi : i < sorted.length := by omega
    simp [List.getElem?_eq_getElem hi]

/-- When the sort permutes the table, the entries 1.. of `order_converter` are a
permutation of `1, ..., n`. -/
theorem order_converter_perm (sort : List Timestamp → List Timestamp) (ts : List Timestamp)
    (hu : ts.length < U32) (hperm : (sort (number_dts ts)).Perm (number_dts ts)) :
    ∃ l, build_order_converter (sort (number_dts ts)) ts.length = 0 :: l ∧
      l.Perm ((List.range ts.length).map (fun i => i + 1)) := by
  have hl : (sort (number_dts ts)).length = ts.length := by
    rw [hperm.length_eq, number_dts_length]
  refine ⟨_, build_order_converter_eq _ _ hl, ?_⟩
  have h1 : ((sort (number_dts ts)).map (fun x => x.dts % U32)).Perm
      ((number_dts ts).map (fun x => x.dts % U32)) := hperm.map _
  have h2 : (number_dts ts).map (fun x => x.dts % U32)
      = (List.range ts.length).map (fun i => i + 1) := by
    have : (number_dts ts).map (fun x => x.dts % U32)
        = ((number_dts ts).map (fun x => x.dts)).map (fun k => k % U32) := by
      rw [List.map_map]; rfl
    rw [this, number_dts_map_dts, List.map_map]
    apply List.map_congr_left
    intro i hi
    have : i < ts.length := List.mem_range.mp hi
    exact Nat.mod_eq_of_lt (by simp only [Function.comp]; omega)
  rw [h2] at h1
  exact h1

/-- A list that is a permutation of `1, ..., n`, read as a map from positions
`1 .. n` (behind a head entry), is a bijection of `1 .. n`. -/
theorem perm_bijection (l : List Nat) (n : Nat)
    (hp : l.Perm ((List.range n).map (fun i => i + 1))) :
    (∀ c, 1 ≤ c → c ≤ n → 1 ≤ (0 :: l).getD c 0 ∧ (0 :: l).getD c 0 ≤ n) ∧
    (∀ d, 1 ≤ d → d ≤ n → ∃! c, 1 ≤ c ∧ c ≤ n ∧ (0 :: l).getD c 0 = d) := by
  have hlen : l.length = n := by rw [hp.length_eq]; simp
  have hnd : l.Nodup := by
    rw [hp.nodup_iff]
    exact (List.nodup_range n).map (fun a b h => by simpa using h)
  have hmem : ∀ x, x ∈ l ↔ 1 ≤ x ∧ x ≤ n := by
    intro x
    rw [hp.mem_iff, List.mem_map]
    constructor
    · rintro ⟨i, hi, rfl⟩
      have := List.mem_range.mp hi
      omega
    · rintro ⟨h1, h2⟩
      exact ⟨x - 1, List.mem_range.mpr (by omega), by omega⟩
  have hget : ∀ c, 1 ≤ c → c ≤ n →
      (0 :: l).getD c 0 = l.getD (c - 1) 0 ∧ l.getD (c - 1) 0 ∈ l := by
    intro c h1 h2
    obtain ⟨k, rfl⟩ : ∃ k, c = k + 1 := ⟨c - 1, by omega⟩
    have hk : k < l.length := by omega
    refine ⟨by rw [List.getD_cons_succ]; rfl, ?_⟩
    rw [Nat.add_sub_cancel, List.getD_eq_getElem _ _ hk]
    exact List.getElem_mem _
  constructor
  · intro c h1 h2
    rw [(hget c h1 h2).1]
    exact (hmem _).mp (hget c h1 h2).2
  · intro d h1 h2
    obtain ⟨i, hi, hid⟩ := List.mem_iff_getElem.mp ((hmem d).mpr ⟨h1, h2⟩)
    refine ⟨i + 1, ⟨by omega, by omega, ?_⟩, ?_⟩
    · rw [(hget (i + 1) (by omega) (by omega)).1, Nat.add_sub_cancel,
        List.getD_eq_getElem _ _ hi]
      exact hid
    · rintro c ⟨hc1, hc2, hcd⟩
      have hc : c - 1 < l.length := by omega
      rw [(hget c hc1 hc2).1, List.getD_eq_getElem _ _ hc] at hcd
      have := (@List.Nodup.getElem_inj_iff _ l hnd (c - 1) hc i hi).mp (hcd.trans hid.symm)
      omega

/-- C9.  When `setup_timestamp_info` builds the order map (more than one
sample, a non-zero composition delay) and the sort of the demuxer permutes the
timestamp table, the table it builds is a zero entry followed by a permutation
of `1, ..., sample_count`; and in the handle it returns with code 0, the table
of `order_converter` has `sample_count + 1` entries, entry 0 is the zero that
`malloc_zero` left, and `get_decoding_sample_number` maps `1 .. sample_count`
one-to-one onto `1 .. sample_count`. -/
theorem order_converter_bijection {σ : Type} (c : Container) (h : VideoHandler σ)
    (ts0 : List Timestamp) (delay : Nat)
    (hn : h.video_sample_count ≠ 1) (hu : h.video_sample_count < U32)
    (hts : c.media_timestamps = some ts0) (hlen : ts0.length = h.video_sample_count)
    (hdel : c.max_sample_delay ts0 = some delay) (hd : delay ≠ 0)
    (hperm : (c.sort_composition_order (number_dts ts0)).Perm (number_dts ts0)) :
    (∃ l, build_order_converter (c.sort_composition_order (number_dts ts0)) ts0.length = 0 :: l ∧
      l.Perm ((List.range h.video_sample_count).map (fun i => i + 1))) ∧
    (∀ h', setup_timestamp_info c h = .ret 0 h' →
      (∃ t, h'.order_converter = some t ∧ t.length = h.video_sample_count + 1 ∧
        t.getD 0 0 = 0) ∧
      (∀ k, 1 ≤ k → k ≤ h.video_sample_count →
        1 ≤ get_decoding_sample_number h' k ∧
          get_decoding_sample_number h' k ≤ h.video_sample_count) ∧
      (∀ n, 1 ≤ n → n ≤ h.video_sample_count →
        ∃! k, 1 ≤ k ∧ k ≤ h.video_sample_count ∧ get_decoding_sample_number h' k = n)) := by
  obtain ⟨l, hl, hp⟩ := order_converter_perm c.sort_composition_order ts0 (hlen ▸ hu) hperm
  rw [hlen] at hp
  refine ⟨⟨l, hl, hp⟩, ?_⟩
  intro h' hr
  rcases setup_timestamp_info_multi hn hr with
    ⟨hc, _⟩ | ⟨ts1, delay1, g, hts1, _, hdel1, _, _, _, _, hg, hcf⟩
  · exact absurd hc (by decide)
  · rw [hts] at hts1
    cases hts1
    rw [hdel] at hdel1
    cases hdel1
    obtain ⟨_, hoc, _⟩ := calculate_framerate_ret hcf
    have hoc' : h'.order_converter = some (0 :: l) := by rw [hoc, (hg hd).2, hl]
    have hb := perm_bijection l h.video_sample_count hp
    have hgd : ∀ k, get_decoding_sample_number h' k = (0 :: l).getD k 0 := by
      intro k; simp [get_decoding_sample_number, hoc']
    refine ⟨⟨0 :: l, hoc', ?_, rfl⟩, ?_, ?_⟩
    · rw [List.length_cons, hp.length_eq]; simp
    · intro k h1 h2; rw [hgd]; exact hb.1 k h1 h2
    · intro n h1 h2
      obtain ⟨k, hk, huniq⟩ := hb.2 n h1 h2
      exact ⟨k, by simpa only [hgd] using hk, fun y hy => huniq y (by simpa only [hgd] using hy)⟩

/-- Witness of `order_converter_bijection`: the track `ibbp_container`, four
samples in decoding order I P B B, where the order map is 1, 3, 4, 2. -/
theorem order_converter_bijection_witness :
    setup_timestamp_info ibbp_container (zeroed_handler 4 0)
      = .ret 0 { zeroed_handler 4 0 with
          framerate_num := 30, framerate_den := 1, order_converter := some [0, 1, 3, 4, 2] } ∧
    (∀ n, 1 ≤ n → n ≤ 4 → ∃! k, 1 ≤ k ∧ k ≤ 4 ∧
      get_decoding_sample_number
        ({ zeroed_handler 4 0 with
            framerate_num := 30, framerate_den := 1,
            order_converter := some [0, 1, 3, 4, 2] } : VideoHandler Unit) k = n) :=
  have e : setup_timestamp_info ibbp_container (zeroed_handler 4 0)
      = .ret 0 { zeroed_handler 4 0 with
          framerate_num := 30, framerate_den := 1, order_converter := some [0, 1, 3, 4, 2] } := by
    simp [setup_timestamp_info, ibbp_container, container_with, ipp_container,
      zeroed_handler, calculate_framerate, cts_loop, cts_at, reduce_fraction, get_gcd_eq,
      sub64, U64, U32, average_framerate_num, number_dts, build_order_converter,
      List.enum, List.enumFrom, List.range, List.range.loop]
  ⟨e, ((order_converter_bijection ibbp_container (zeroed_handler 4 0)
      [⟨0, 1⟩, ⟨1, 4⟩, ⟨2, 2⟩, ⟨3, 3⟩] 2 (by decide) (by decide) rfl rfl rfl (by decide)
      (List.perm_insertionSort _ _)).2 _ e).2.2⟩

/-! ## Timeline builder: duplicate CTS; keyframe list; resolver -/

/-- C10, failing input.  Two samples with the same CTS 5: the pair at positions
0 and 1 is not compared, the composition duration is 0 and the framerate
formula divides by it, so the behaviour is undefined.  With a third sample at
CTS 9 the framerate is computed (375/1) although the first pair is equal.  A
duplicate at positions 1 and 2 is detected: the function returns 0 and leaves
the handle as it was. -/
theorem duplicate_cts_first_pair_not_detected :
    setup_timestamp_info (container_with 1000 [⟨0, 5⟩, ⟨1, 5⟩] 0 id) (zeroed_handler 2 0)
      = .undefined ∧
    setup_timestamp_info (container_with 1000 [⟨0, 5⟩, ⟨1, 5⟩, ⟨2, 9⟩] 0 id) (zeroed_handler 3 0)
      = .ret 0 { zeroed_handler 3 0 with framerate_num := 375, framerate_den := 1 } ∧
    setup_timestamp_info (container_with 1000 [⟨0, 5⟩, ⟨1, 9⟩, ⟨2, 9⟩] 0 id) (zeroed_handler 3 0)
      = .ret 0 (zeroed_handler 3 0) := by
  refine ⟨?_, ?_, ?_⟩ <;>
  simp [setup_timestamp_info, container_with, ipp_container, zeroed_handler, calculate_framerate,
    cts_loop, cts_at, reduce_fraction, get_gcd_eq, sub64, U64, average_framerate_num]

/-- The loop of `create_keyframe_list` keeps the length of the list. -/
theorem keyframe_fold_length {σ : Type} (c : Container) (hp : VideoHandler σ) (ks : List Nat)
    (list : List Nat) : (ks.foldl (keyframe_step c hp) list).length = list.length := by
  induction ks generalizing list with
  | nil => rfl
  | cons k ks ih =>
    rw [List.foldl_cons, ih]
    unfold keyframe_step
    dsimp only
    split
    · rfl
    · split
      · exact List.length_set _ _ _
      · rfl

/-- C3, as amended.  The list made by `create_keyframe_list` has
`video_sample_count + 1` entries; for a frame index `i < video_sample_count`,
`is_keyframe` returns the stored entry `i + 1`; for `i ≥ video_sample_count`
the entry `i + 1` is outside the list and `is_keyframe` returns no value. -/
theorem is_keyframe_defined_below_sample_count {σ : Type} (c : Container)
    (hp : VideoHandler σ) (n i : Nat) (hm : c.malloc_ok = true) (hn : n + 1 < U32) :
    ∃ list, (create_keyframe_list c hp n).2.keyframe_list = some list ∧
      list.length = n + 1 ∧
      (i < n → is_keyframe (create_keyframe_list c hp n).2 i = some (list.getD (i + 1) 0)) ∧
      (n ≤ i → is_keyframe (create_keyframe_list c hp n).2 i = none) := by
  refine ⟨(List.range' 1 n).foldl (keyframe_step c hp) (List.replicate ((n + 1) % U32) 0), ?_, ?_,
    ?_, ?_⟩
  · simp [create_keyframe_list, hm]
  · rw [keyframe_fold_length, List.length_replicate, Nat.mod_eq_of_lt hn]
  · intro hi
    have hl : i + 1 < ((List.range' 1 n).foldl (keyframe_step c hp)
        (List.replicate ((n + 1) % U32) 0)).length := by
      rw [keyframe_fold_length, List.length_replicate, Nat.mod_eq_of_lt hn]; omega
    simp only [is_keyframe, create_keyframe_list, hm, if_true]
    rw [List.get?_eq_getElem?, List.getElem?_eq_getElem hl, List.getD_eq_getElem _ _ hl]
  · intro hi
    simp only [is_keyframe, create_keyframe_list, hm, if_true]
    rw [List.get?_eq_none]
    rw [keyframe_fold_length, List.length_replicate, Nat.mod_eq_of_lt hn]; omega

/-- Witness of `is_keyframe_defined_below_sample_count`: three samples, frame
index 0. -/
theorem is_keyframe_defined_below_sample_count_witness :
    ∃ list, (create_keyframe_list ipp_container (zeroed_handler 3 0) 3).2.keyframe_list
        = some list ∧
      list.length = 3 + 1 ∧
      (0 < 3 → is_keyframe (create_keyframe_list ipp_container (zeroed_handler 3 0) 3).2 0
        = some (list.getD (0 + 1) 0)) ∧
      (3 ≤ 0 → is_keyframe (create_keyframe_list ipp_container (zeroed_handler 3 0) 3).2 0
        = none) :=
  is_keyframe_defined_below_sample_count ipp_container (zeroed_handler 3 0) 3 0 rfl (by decide)

/-- C3, counterexample.  With three samples the keyframe list is `[0, 1, 0, 0]`;
`is_keyframe` at frame index 0 is 1, and at frame index 3, the sample count, it
reads entry 4, which the list does not have: the result is not 0. -/
theorem is_keyframe_at_sample_count_reads_outside :
    (create_keyframe_list ipp_container (zeroed_handler 3 0) 3).2.keyframe_list
      = some [0, 1, 0, 0] ∧
    is_keyframe (create_keyframe_list ipp_container (zeroed_handler 3 0) 3).2 0 = some 1 ∧
    is_keyframe (create_keyframe_list ipp_container (zeroed_handler 3 0) 3).2 3 = none ∧
    is_keyframe (create_keyframe_list ipp_container (zeroed_handler 3 0) 3).2 3 ≠ some 0 := by
  simp [is_keyframe, create_keyframe_list, keyframe_step, get_decoding_sample_number,
    ipp_container, zeroed_handler, U32, List.range', List.replicate]

/-- For a random access point at or before the sample, the wrapping difference
is the difference. -/
theorem sub32_eq_sub (d rap : Nat) (h : rap ≤ d) (hd : d < U32) : sub32 d rap = d - rap := by
  unfold sub32
  rw [Nat.mod_eq_of_lt hd, Nat.mod_eq_of_lt (lt_of_le_of_lt h hd)]
  have : d + U32 - rap = (d - rap) + U32 := by omega
  rw [this, Nat.add_mod_right, Nat.mod_eq_of_lt (by omega)]

/-- C4.  With `d` the lower bound when it is non-zero and the decoding number
of the target otherwise, and a lookup at `d` that succeeds with the record
`r`: the number stored through `rap_number`, which is also what
`last_rap_number` gets, is `rap - distance` when (the type is a roll type, or
there are leading samples and `d - rap`, computed in `uint32_t`, is at most
their number) and `rap > distance`, and `rap` otherwise; the return value is
true exactly for a roll type.  The `uint32_t` difference is the plain
difference whenever `rap ≤ d < 2 ^ 32`. -/
theorem find_random_accessible_point_anchor {σ : Type} (c : Container) (hp : VideoHandler σ)
    (target lower : Nat) (r : RapDetail)
    (hr : c.rap_detail (if lower = 0 then get_decoding_sample_number hp target else lower)
      = some r) :
    (find_random_accessible_point c hp target lower).rap_number
      = (if (r.roll = true ∨ (0 < r.leadings ∧
            sub32 (if lower = 0 then get_decoding_sample_number hp target else lower) r.rap
              ≤ r.leadings)) ∧ r.rap > r.distance
         then r.rap - r.distance else r.rap) ∧
    (find_random_accessible_point c hp target lower).hp.last_rap_number
      = (find_random_accessible_point c hp target lower).rap_number ∧
    ((find_random_accessible_point c hp target lower).roll_recovery = true ↔ r.roll = true) ∧
    (r.rap ≤ (if lower = 0 then get_decoding_sample_number hp target else lower) →
      (if lower = 0 then get_decoding_sample_number hp target else lower) < U32 →
      sub32 (if lower = 0 then get_decoding_sample_number hp target else lower) r.rap
        = (if lower = 0 then get_decoding_sample_number hp target else lower) - r.rap) := by
  refine ⟨?_, rfl, ?_, fun h1 h2 => sub32_eq_sub _ _ h1 h2⟩
  · simp only [find_random_accessible_point, hr]
    simp only [Bool.and_eq_true, Bool.or_eq_true, decide_eq_true_eq, Nat.pos_iff_ne_zero, ne_eq]
  · simp only [find_random_accessible_point, hr]

/-- Witness of `find_random_accessible_point_anchor`: target 12 with lower
bound 11 on `leading_container`; sample 11 is a leading sample of the sync
sample 10, and the anchor is 10 - 5. -/
theorem find_random_accessible_point_anchor_witness :
    leading_container.rap_detail
      (if 11 = 0 then get_decoding_sample_number (zeroed_handler 20 0) 12 else 11)
      = some ⟨10, false, 2, 5⟩ ∧
    (find_random_accessible_point leading_container (zeroed_handler 20 0) 12 11).rap_number = 5 :=
  ⟨rfl, (find_random_accessible_point_anchor leading_container (zeroed_handler 20 0) 12 11
    ⟨10, false, 2, 5⟩ rfl).1.trans (by decide)⟩

/-! ## Video engine: fields that decoding leaves alone -/

/-- The relation `same_track` is reflexive. -/
theorem same_track_refl {σ : Type} (a : VideoHandler σ) : same_track a a :=
  ⟨rfl, rfl, rfl, rfl, rfl, rfl, rfl, rfl, rfl⟩

/-- The relation `same_track` is transitive. -/
theorem same_track_trans {σ : Type} {a b c : VideoHandler σ} (h1 : same_track a b)
    (h2 : same_track b c) : same_track a c := by
  obtain ⟨a1, a2, a3, a4, a5, a6, a7, a8, a9⟩ := h1
  obtain ⟨b1, b2, b3, b4, b5, b6, b7, b8, b9⟩ := h2
  exact ⟨b1.trans a1, b2.trans a2, b3.trans a3, b4.trans a4, b5.trans a5, b6.trans a6,
    b7.trans a7, b8.trans a8, b9.trans a9⟩

/-- Decoding a sample writes none of the fields of `same_track`. -/
theorem decode_video_sample_same {σ : Type} (c : Container) (d : Decoder σ)
    (hp : VideoHandler σ) (picture : Option Nat) (n : Nat) :
    same_track hp (decode_video_sample c d hp picture n).hp := by
  unfold decode_video_sample
  split
  · dsimp only
    split <;> split <;> exact ⟨rfl, rfl, rfl, rfl, rfl, rfl, rfl, rfl, rfl⟩
  · exact same_track_refl _

/-- Counting a delayed picture writes none of the fields of `same_track`. -/
theorem count_delay_same {σ : Type} (picture : Option Nat) (hp : VideoHandler σ) :
    same_track hp (count_delay picture hp) := by
  unfold count_delay
  split <;> exact ⟨rfl, rfl, rfl, rfl, rfl, rfl, rfl, rfl, rfl⟩

/-- The step `settle_delay` writes none of the fields of `same_track`. -/
theorem settle_delay_same {σ : Type} (d : Decoder σ) (hp : VideoHandler σ) :
    same_track hp (settle_delay d hp) := by
  unfold settle_delay
  split
  · split <;> exact ⟨rfl, rfl, rfl, rfl, rfl, rfl, rfl, rfl, rfl⟩
  · exact same_track_refl _

/-- The step `leave_require_initial` writes none of the fields of `same_track`. -/
theorem leave_require_initial_same {σ : Type} (hp : VideoHandler σ) :
    same_track hp (leave_require_initial hp) := by
  unfold leave_require_initial
  split <;> exact ⟨rfl, rfl, rfl, rfl, rfl, rfl, rfl, rfl, rfl⟩

/-- The step `skip_frame_default_at` writes none of the fields of `same_track`. -/
theorem skip_frame_default_at_same {σ : Type} (d : Decoder σ) (n i : Nat)
    (hp : VideoHandler σ) : same_track hp (skip_frame_default_at d n i hp) := by
  unfold skip_frame_default_at
  split <;> exact ⟨rfl, rfl, rfl, rfl, rfl, rfl, rfl, rfl, rfl⟩

/-- The first loop of `get_picture` writes none of the fields of `same_track`. -/
theorem get_picture_loop_same {σ : Type} (c : Container) (d : Decoder σ) (goal current : Nat)
    (picture : Option Nat) (hp : VideoHandler σ) :
    same_track hp (get_picture_loop c d goal current picture hp).hp := by
  generalize hn : goal + 1 - current = n
  induction n using Nat.strong_induction_on generalizing current picture hp with
  | _ n ih =>
    have hd := decode_video_sample_same c d hp picture current
    have hc := count_delay_same (decode_video_sample c d hp picture current).picture
      (decode_video_sample c d hp picture current).hp
    rw [get_picture_loop]
    dsimp only
    split
    · exact hd
    · split
      · exact hd
      · split
        · exact same_track_trans hd hc
        · split
          · exact same_track_trans (same_track_trans hd hc)
              (ih (goal + 1 - (current + 1)) (by omega) _ _ _ rfl)
          · exact same_track_trans hd hc

/-- The second loop of `get_picture` writes none of the fields of `same_track`. -/
theorem flush_last_frames_same {σ : Type} (d : Decoder σ) (goal current : Nat)
    (hp : VideoHandler σ) :
    same_track hp (flush_last_frames d goal current hp).hp := by
  generalize hn : goal + 1 - current = n
  induction n using Nat.strong_induction_on generalizing current hp with
  | _ n ih =>
    have h0 : same_track hp (after_empty_packet d hp) :=
      ⟨rfl, rfl, rfl, rfl, rfl, rfl, rfl, rfl, rfl⟩
    have hc := count_delay_same (d.drain hp.video_ctx).picture (after_empty_packet d hp)
    rw [flush_last_frames]
    dsimp only
    split
    · exact h0
    · split
      · exact same_track_trans (same_track_trans h0 hc)
          (ih (goal + 1 - (current + 1)) (by omega) _ _ rfl)
      · exact same_track_trans h0 hc

/-- The step `flush_at_end` writes none of the fields of `same_track`. -/
theorem flush_at_end_same {σ : Type} (d : Decoder σ) (goal n : Nat) (l : PictureLoop σ) :
    same_track l.hp (flush_at_end d goal n l).hp := by
  unfold flush_at_end
  split
  · exact flush_last_frames_same _ _ _ _
  · exact same_track_refl _

/-- The function `get_picture` writes none of the fields of `same_track`. -/
theorem get_picture_same {σ : Type} (c : Container) (d : Decoder σ) (hp : VideoHandler σ)
    (current goal n : Nat) : same_track hp (get_picture c d hp current goal n).hp := by
  have h1 := settle_delay_same d hp
  have h2 := get_picture_loop_same c d goal current none (settle_delay d hp)
  have h12 := same_track_trans h1 h2
  have h3 := same_track_trans h12
    (flush_at_end_same d goal n (get_picture_loop c d goal current none (settle_delay d hp)))
  unfold get_picture
  dsimp only
  split
  · exact h12
  · split
    · exact h3
    · split
      · exact same_track_trans h3 (leave_require_initial_same _)
      · exact same_track_trans h3 (leave_require_initial_same _)

/-- The loop of `seek_video` writes none of the fields of `same_track`. -/
theorem seek_video_loop_same {σ : Type} (c : Container) (d : Decoder σ) (n : Nat)
    (ignore : Bool) (i : Nat) (hp : VideoHandler σ) :
    same_track hp (seek_video_loop c d n ignore i hp).hp := by
  generalize hn : c.sample_count + 1 - i = m
  induction m using Nat.strong_induction_on generalizing i hp with
  | _ m ih =>
    have hs := skip_frame_default_at_same d n i hp
    have hd := decode_video_sample_same c d (skip_frame_default_at d n i hp) none i
    rw [seek_video_loop]
    split
    · dsimp only
      split
      · exact same_track_trans hs hd
      · split
        · exact same_track_trans hs hd
        · rename_i hne
          have hg : get_sample c i = true := by
            by_contra hg
            exact hne (by simp [decode_video_sample, hg])
          simp only [get_sample, Bool.and_eq_true, decide_eq_true_eq] at hg
          exact same_track_trans (same_track_trans hs hd)
            (ih (c.sample_count + 1 - (i + 1)) (by omega) _ _ rfl)
    · exact same_track_refl _

/-- What `seek_video` does to the logs: one more flush, and one more entry in
the log of seeks, with the arguments of the call; the other fields of
`same_track` stay. -/
theorem seek_video_logs {σ : Type} (c : Container) (d : Decoder σ) (hp : VideoHandler σ)
    (n rap : Nat) (ignore : Bool) :
    (seek_video c d hp n rap ignore).2.seeks
      = hp.seeks ++ [⟨n, rap, ignore, (seek_video c d hp n rap ignore).1⟩] ∧
    (seek_video c d hp n rap ignore).2.flushes = hp.flushes + 1 ∧
    (seek_video c d hp n rap ignore).2.seek_mode = hp.seek_mode ∧
    (seek_video c d hp n rap ignore).2.video_sample_count = hp.video_sample_count ∧
    (seek_video c d hp n rap ignore).2.last_video_sample_number = hp.last_video_sample_number := by
  have h0 : (seek_video_start d hp n rap).seeks = hp.seeks ∧
      (seek_video_start d hp n rap).flushes = hp.flushes + 1 ∧
      (seek_video_start d hp n rap).seek_mode = hp.seek_mode ∧
      (seek_video_start d hp n rap).video_sample_count = hp.video_sample_count ∧
      (seek_video_start d hp n rap).last_video_sample_number = hp.last_video_sample_number := by
    unfold seek_video_start flush_buffers
    dsimp only
    split <;> exact ⟨rfl, rfl, rfl, rfl, rfl⟩
  obtain ⟨a1, _, _, a4, _, _, a7, a8, a9⟩ :=
    seek_video_loop_same c d n ignore rap (seek_video_start d hp n rap)
  unfold seek_video
  dsimp only
  split
  · exact ⟨by rw [a8, h0.1], by rw [a9, h0.2.1], by rw [a7, h0.2.2.1], by rw [a1, h0.2.2.2.1],
      by rw [a4, h0.2.2.2.2]⟩
  · exact ⟨by rw [a8, h0.1], by rw [a9, h0.2.1], by rw [a7, h0.2.2.1], by rw [a1, h0.2.2.2.1],
      by rw [a4, h0.2.2.2.2]⟩

/-! ## Video engine: first read and seek modes -/

/-- The attempt of `read_video` writes none of the fields of `same_track`. -/
theorem read_video_attempt_same {σ : Type} (c : Container) (d : Decoder σ) (n start : Nat)
    (hp : VideoHandler σ) : same_track hp (read_video_attempt c d n start hp).hp := by
  unfold read_video_attempt
  split
  · exact same_track_refl _
  · exact get_picture_same _ _ _ _ _ _

/-- The resolver writes only `last_rap_number`. -/
theorem find_random_accessible_point_same {σ : Type} (c : Container) (hp : VideoHandler σ)
    (n lower : Nat) : same_track hp (find_random_accessible_point c hp n lower).hp :=
  ⟨rfl, rfl, rfl, rfl, rfl, rfl, rfl, rfl, rfl⟩

/-- The loop of `read_video` entered with the local `seek_mode` equal to
`SEEK_MODE_UNSAFE`: the mode stays, every `seek_video` it logs has
`error_ignorance` set, and the function returns 0 unless the final
`error_count` is at most `MAX_ERROR_COUNT`. -/
theorem read_video_loop_unsafe {σ : Type} (c : Container) (d : Decoder σ) (n ec : Nat)
    (roll : Bool) (rap start : Nat) (hp : VideoHandler σ) (hec : ec ≤ MAX_ERROR_COUNT) :
    (read_video_loop c d n ec SEEK_MODE_UNSAFE roll rap start hp).seek_mode = SEEK_MODE_UNSAFE ∧
    (∃ new, (read_video_loop c d n ec SEEK_MODE_UNSAFE roll rap start hp).hp.seeks
        = hp.seeks ++ new ∧ ∀ s ∈ new, s.error_ignorance = true) ∧
    ((read_video_loop c d n ec SEEK_MODE_UNSAFE roll rap start hp).error_count > MAX_ERROR_COUNT →
      (read_video_loop c d n ec SEEK_MODE_UNSAFE roll rap start hp).ret = 0) := by
  generalize hm : MAX_ERROR_COUNT + 1 - ec = m
  induction m using Nat.strong_induction_on generalizing ec roll rap start hp with
  | _ m ih =>
    have hg := (read_video_attempt_same c d n start hp).2.2.2.2.2.2.2.1
    rw [read_video_loop]
    dsimp only
    split
    · exact ⟨rfl, ⟨[], by simpa using hg, by simp⟩, fun h => absurd hec (by dsimp only at h; omega)⟩
    · split
      · rename_i h; exact absurd h (by decide)
      · split
        · rw [if_pos rfl]
          exact ⟨rfl, ⟨[], by simpa using hg, by simp⟩, fun _ => rfl⟩
        · rename_i hex
          have hf := (find_random_accessible_point_same c (read_video_attempt c d n start hp).hp n
            (rap - 1)).2.2.2.2.2.2.2.1
          have hs := (seek_video_logs c d
            (find_random_accessible_point c (read_video_attempt c d n start hp).hp n (rap - 1)).hp n
            (find_random_accessible_point c (read_video_attempt c d n start hp).hp n
              (rap - 1)).rap_number
            ((find_random_accessible_point c (read_video_attempt c d n start hp).hp n
              (rap - 1)).roll_recovery || decide (SEEK_MODE_UNSAFE ≠ SEEK_MODE_NORMAL))).1
          have hec' : ec + 1 ≤ MAX_ERROR_COUNT := by
            simp only [not_or, not_lt, gt_iff_lt] at hex; omega
          obtain ⟨i1, ⟨new, i2, i3⟩, i4⟩ := ih (MAX_ERROR_COUNT + 1 - (ec + 1)) (by omega) (ec + 1)
            (find_random_accessible_point c (read_video_attempt c d n start hp).hp n
              (rap - 1)).roll_recovery
            (find_random_accessible_point c (read_video_attempt c d n start hp).hp n
              (rap - 1)).rap_number
            (seek_video c d
              (find_random_accessible_point c (read_video_attempt c d n start hp).hp n (rap - 1)).hp
              n (find_random_accessible_point c (read_video_attempt c d n start hp).hp n
                (rap - 1)).rap_number
              ((find_random_accessible_point c (read_video_attempt c d n start hp).hp n
                (rap - 1)).roll_recovery || decide (SEEK_MODE_UNSAFE ≠ SEEK_MODE_NORMAL))).1
            (seek_video c d
              (find_random_accessible_point c (read_video_attempt c d n start hp).hp n (rap - 1)).hp
              n (find_random_accessible_point c (read_video_attempt c d n start hp).hp n
                (rap - 1)).rap_number
              ((find_random_accessible_point c (read_video_attempt c d n start hp).hp n
                (rap - 1)).roll_recovery || decide (SEEK_MODE_UNSAFE ≠ SEEK_MODE_NORMAL))).2
            hec' rfl
          obtain ⟨e, he1, he2⟩ : ∃ e : SeekCall, _ = _ ++ [e] ∧ e.error_ignorance = true :=
            ⟨_, hs, by simp [SEEK_MODE_UNSAFE, SEEK_MODE_NORMAL]⟩
          refine ⟨i1, ⟨e :: new, ?_, ?_⟩, i4⟩
          · rw [i2, he1, hf, hg, List.append_assoc]; rfl
          · intro s hs'
            rcases List.mem_cons.mp hs' with rfl | h'
            · exact he2
            · exact i3 s h'

/-- C5, as amended.  Under the seek mode `SEEK_MODE_UNSAFE`, every
`seek_video` that `read_video` runs has `error_ignorance` set (whether or not
the anchor is a roll-recovery point), the local `seek_mode` is still
`SEEK_MODE_UNSAFE` when the function returns, and the function returns 0
once the retries are exhausted: whenever the final `error_count` exceeds
`MAX_ERROR_COUNT`, and, at every state of the loop, whenever the attempt
fails with `error_count + 1 > MAX_ERROR_COUNT` or `rap_number ≤ 1`; in that
case no further `seek_video` is run. -/
theorem unsafe_mode_ignores_errors_never_escalates {σ : Type} (c : Container) (d : Decoder σ)
    (hp : VideoHandler σ) (n : Nat) (hu : hp.seek_mode = SEEK_MODE_UNSAFE) :
    (read_video c d hp n).seek_mode = SEEK_MODE_UNSAFE ∧
    (∃ new, (read_video c d hp n).hp.seeks = hp.seeks ++ new ∧
      ∀ s ∈ new, s.error_ignorance = true) ∧
    ((read_video c d hp n).error_count > MAX_ERROR_COUNT → (read_video c d hp n).ret = 0) ∧
    (∀ (ec : Nat) (roll : Bool) (rap start : Nat) (h1 : VideoHandler σ),
      (read_video_attempt c d (n + 1) start h1).ret ≠ 0 →
      ec + 1 > MAX_ERROR_COUNT ∨ rap ≤ 1 →
      (read_video_loop c d (n + 1) ec SEEK_MODE_UNSAFE roll rap start h1).ret = 0 ∧
      (read_video_loop c d (n + 1) ec SEEK_MODE_UNSAFE roll rap start h1).seek_mode
        = SEEK_MODE_UNSAFE ∧
      (read_video_loop c d (n + 1) ec SEEK_MODE_UNSAFE roll rap start h1).hp.seeks
        = h1.seeks) := by
  have hlast : ∀ (ec : Nat) (roll : Bool) (rap start : Nat) (h1 : VideoHandler σ),
      (read_video_attempt c d (n + 1) start h1).ret ≠ 0 →
      ec + 1 > MAX_ERROR_COUNT ∨ rap ≤ 1 →
      (read_video_loop c d (n + 1) ec SEEK_MODE_UNSAFE roll rap start h1).ret = 0 ∧
      (read_video_loop c d (n + 1) ec SEEK_MODE_UNSAFE roll rap start h1).seek_mode
        = SEEK_MODE_UNSAFE ∧
      (read_video_loop c d (n + 1) ec SEEK_MODE_UNSAFE roll rap start h1).hp.seeks
        = h1.seeks := by
    intro ec roll rap start h1 hfail hex
    have hg := (read_video_attempt_same c d (n + 1) start h1).2.2.2.2.2.2.2.1
    rw [read_video_loop]
    dsimp only
    rw [if_neg hfail, dif_neg (show ¬ SEEK_MODE_UNSAFE = SEEK_MODE_AGGRESSIVE by decide),
      dif_pos hex, if_pos rfl]
    exact ⟨rfl, rfl, hg⟩
  unfold read_video
  dsimp only
  rw [hu]
  split
  · obtain ⟨a, b, e⟩ := read_video_loop_unsafe c d (n + 1) 0 false hp.last_rap_number
      (n + 1 + hp.delay_count) hp (by decide)
    exact ⟨a, b, e, hlast⟩
  · obtain ⟨a, ⟨new, b1, b2⟩, e⟩ := read_video_loop_unsafe c d (n + 1) 0
      (find_random_accessible_point c hp (n + 1) 0).roll_recovery
      (find_random_accessible_point c hp (n + 1) 0).rap_number
      (seek_video c d (find_random_accessible_point c hp (n + 1) 0).hp (n + 1)
        (find_random_accessible_point c hp (n + 1) 0).rap_number
        ((find_random_accessible_point c hp (n + 1) 0).roll_recovery ||
          decide (SEEK_MODE_UNSAFE ≠ SEEK_MODE_NORMAL))).1
      (seek_video c d (find_random_accessible_point c hp (n + 1) 0).hp (n + 1)
        (find_random_accessible_point c hp (n + 1) 0).rap_number
        ((find_random_accessible_point c hp (n + 1) 0).roll_recovery ||
          decide (SEEK_MODE_UNSAFE ≠ SEEK_MODE_NORMAL))).2 (by decide)
    have hs := (seek_video_logs c d (find_random_accessible_point c hp (n + 1) 0).hp (n + 1)
        (find_random_accessible_point c hp (n + 1) 0).rap_number
        ((find_random_accessible_point c hp (n + 1) 0).roll_recovery ||
          decide (SEEK_MODE_UNSAFE ≠ SEEK_MODE_NORMAL))).1
    obtain ⟨e0, he1, he2⟩ : ∃ e : SeekCall, _ = _ ++ [e] ∧ e.error_ignorance = true :=
      ⟨_, hs, by simp [SEEK_MODE_UNSAFE, SEEK_MODE_NORMAL]⟩
    refine ⟨a, ⟨e0 :: new, ?_, ?_⟩, e, hlast⟩
    · rw [b1, he1, List.append_assoc]; rfl
    · intro s hs'
      rcases List.mem_cons.mp hs' with rfl | h'
      · exact he2
      · exact b2 s h'

/-- Witness of `unsafe_mode_ignores_errors_never_escalates`: the track
`ipp_container` with the decoder that fails on sample 1, frame index 2. -/
theorem unsafe_mode_ignores_errors_never_escalates_witness :
    (read_video ipp_container failing_decoder
      (prepare_video_decoding ipp_container true (zeroed_handler 3 SEEK_MODE_UNSAFE)).2 2).seek_mode
      = SEEK_MODE_UNSAFE :=
  (unsafe_mode_ignores_errors_never_escalates ipp_container failing_decoder
    (prepare_video_decoding ipp_container true (zeroed_handler 3 SEEK_MODE_UNSAFE)).2 2
    (by simp [prepare_video_decoding, create_keyframe_list, ipp_container, zeroed_handler])).1

/-- C5, counterexample.  Seek mode `SEEK_MODE_UNSAFE`, three samples whose
random access point is the plain sync sample 1 (no roll recovery), and a
decoder that reports an error on sample 1.  Reading frame index 2 runs
`seek_video` from anchor 1 with `error_ignorance` set; the error on sample 1
does not make the seek return 0: it returns 3, samples 1, 2, 3 are decoded and
the read delivers picture 3. -/
theorem unsafe_mode_seeks_with_errors_ignored :
    (find_random_accessible_point ipp_container
      (prepare_video_decoding ipp_container true (zeroed_handler 3 SEEK_MODE_UNSAFE)).2
      3 0).roll_recovery = false ∧
    (failing_decoder.decode () false 1).error = true ∧
    (read_video ipp_container failing_decoder
      (prepare_video_decoding ipp_container true (zeroed_handler 3 SEEK_MODE_UNSAFE)).2 2).hp.seeks
      = [⟨3, 1, true, 3⟩] ∧
    (read_video ipp_container failing_decoder
      (prepare_video_decoding ipp_container true (zeroed_handler 3 SEEK_MODE_UNSAFE)).2 2).hp.fed
      = [1, 2, 3] ∧
    (read_video ipp_container failing_decoder
      (prepare_video_decoding ipp_container true (zeroed_handler 3 SEEK_MODE_UNSAFE)).2 2).ret
      = 103 := by
  simp [read_video, read_video_loop, read_video_attempt, get_picture, get_picture_loop,
    flush_at_end, settle_delay, leave_require_initial, count_delay, decode_video_sample,
    get_sample, prepare_video_decoding, create_keyframe_list, ipp_container, failing_decoder,
    simple_decoder, zeroed_handler, seek_video, seek_video_start, seek_video_loop,
    skip_frame_default_at, find_random_accessible_point, flush_buffers,
    get_decoding_sample_number, sub32, U32, SEEK_MODE_UNSAFE, SEEK_MODE_NORMAL,
    SEEK_MODE_AGGRESSIVE, MAX_ERROR_COUNT]

/-- C1, failing input.  After `prepare_video_decoding`, which leaves
`last_video_sample_number = 1` although no frame was served, the first
`read_video` for frame index 1 takes the fast path: no `seek_video` and no
`flush_buffers` is run, and sample 2 is the first one handed to the decoder.
The first read of frame index 0 or 2 takes the seek path.  With a decoder that
needs the sync sample 1 first, that first read of frame index 1 returns 0
(sample 2 fails, and the only retry seeks from anchor 0, where there is no
sample), while the same read after a read of frame index 0 delivers
picture 2. -/
theorem first_read_of_index_one_takes_fast_path :
    (prepare_video_decoding ipp_container true (zeroed_handler 3 0)).1 = 0 ∧
    (prepare_video_decoding ipp_container true (zeroed_handler 3 0)).2.last_video_sample_number
      = 1 ∧
    (read_video ipp_container simple_decoder
      (prepare_video_decoding ipp_container true (zeroed_handler 3 0)).2 1).hp.seeks = [] ∧
    (read_video ipp_container simple_decoder
      (prepare_video_decoding ipp_container true (zeroed_handler 3 0)).2 1).hp.flushes = 0 ∧
    (read_video ipp_container simple_decoder
      (prepare_video_decoding ipp_container true (zeroed_handler 3 0)).2 1).hp.fed = [2] ∧
    (read_video ipp_container simple_decoder
      (prepare_video_decoding ipp_container true (zeroed_handler 3 0)).2 0).hp.seeks
      = [⟨1, 1, false, 1⟩] ∧
    (read_video ipp_container simple_decoder
      (prepare_video_decoding ipp_container true (zeroed_handler 3 0)).2 2).hp.seeks
      = [⟨3, 1, false, 3⟩] ∧
    (read_video ipp_container simple_decoder
      (prepare_video_decoding ipp_container true (zeroed_handler 3 0)).2 2).hp.fed
      = [1, 2, 3] ∧
    (read_video ipp_container sync_first_decoder
      (prepare_video_decoding ipp_container true (zeroed_sync_handler 3 0)).2 1).ret = 0 ∧
    (read_video ipp_container sync_first_decoder
      (prepare_video_decoding ipp_container true (zeroed_sync_handler 3 0)).2 1).hp.fed = [2] ∧
    (read_video ipp_container sync_first_decoder
      (prepare_video_decoding ipp_container true (zeroed_sync_handler 3 0)).2 1).hp.seeks
      = [⟨2, 0, true, 0⟩] ∧
    (read_video ipp_container sync_first_decoder
      (read_video ipp_container sync_first_decoder
        (prepare_video_decoding ipp_container true (zeroed_sync_handler 3 0)).2 0).hp 1).ret
      = 102 := by
  simp [read_video, read_video_loop, read_video_attempt, get_picture, get_picture_loop,
    flush_at_end, settle_delay, leave_require_initial, count_delay, decode_video_sample,
    get_sample, prepare_video_decoding, create_keyframe_list, ipp_container,
    simple_decoder, zeroed_handler, sync_first_decoder, zeroed_sync_handler, seek_video,
    seek_video_start, seek_video_loop, skip_frame_default_at, find_random_accessible_point,
    flush_buffers, get_decoding_sample_number, sub32, U32, SEEK_MODE_UNSAFE, SEEK_MODE_NORMAL,
    SEEK_MODE_AGGRESSIVE, MAX_ERROR_COUNT]

/-! ## Audio engine: remainder and priming -/

/-- C2, failing input.  One byte per PCM sample, frames of four samples, frame
`n` decoding to the bytes `10 n .. 10 n + 3`.  `read_audio(2, 1)` seeks, skips
two bytes of the first chunk and delivers byte 12; it then saves a remainder of
three bytes taken from offset 1 of the chunk (11, 12, 13) where the one unread
byte 13 is what follows.  The next `read_audio(3, 1)` delivers 11, while the
single `read_audio(2, 2)` delivers 12, 13. -/
theorem split_read_after_seek_differs :
    (read_audio (four_byte_track none) (four_byte_handler 0) 2 1).out = [12] ∧
    (read_audio (four_byte_track none) (four_byte_handler 0) 2 1).hp.last_remainder_size = 3 ∧
    buf_read (read_audio (four_byte_track none) (four_byte_handler 0) 2 1).hp.audio_output_buffer
      0 3 = [11, 12, 13] ∧
    (read_audio (four_byte_track none)
      (read_audio (four_byte_track none) (four_byte_handler 0) 2 1).hp 3 1).out = [11] ∧
    (read_audio (four_byte_track none) (four_byte_handler 0) 2 2).out = [12, 13] := by
  simp [read_audio, read_audio_seek, read_audio_continue, audio_out, audio_decode_loop,
    decode_packet, consume_chunk, save_remainder, take_remainder, reset_for_seek,
    audio_seek_position, frame_walk, get_frame_length, get_priming_samples,
    seek_data_offset, sub64, U32, U64, get_audio_sample, buf_read, buf_write, four_byte_track,
    four_byte_handler, List.range, List.range.loop]

/-- With a constant frame length the loop of `get_priming_samples` adds that
length once per iteration, in `uint32_t`. -/
theorem priming_loop_constant (a : AudioTrack) (hp : AudioHandler) (frame : Nat)
    (hL : hp.audio_frame_length ≠ 0) (k i m : Nat) :
    priming_loop a hp frame k i m % U32 = (m + k * hp.audio_frame_length) % U32 := by
  induction k generalizing i m with
  | zero => simp [priming_loop]
  | succ k ih =>
    rw [priming_loop]
    simp only [get_frame_length, hL, if_false]
    rw [ih, Nat.mod_add_mod]
    congr 1
    rw [Nat.succ_mul]
    omega

/-- When nothing wraps, the `uint64_t` difference is the difference. -/
theorem sub64_eq_sub (x y : Nat) (h : y ≤ x) (hx : x < U64) : sub64 x y = x - y := by
  unfold sub64
  rw [Nat.mod_eq_of_lt hx, Nat.mod_eq_of_lt (lt_of_le_of_lt h hx)]
  have : x + U64 - y = (x - y) + U64 := by omega
  rw [this, Nat.add_mod_right, Nat.mod_eq_of_lt (by omega)]

/-- The sum of the loop of `get_priming_samples` stays a `uint32_t`. -/
theorem priming_loop_lt (a : AudioTrack) (hp : AudioHandler) (frame : Nat) (k i m : Nat)
    (hm : m < U32) : priming_loop a hp frame k i m < U32 := by
  induction k generalizing i m with
  | zero => simpa [priming_loop] using hm
  | succ k ih =>
    rw [priming_loop]
    split
    · exact hm
    · exact ih _ _ (Nat.mod_lt _ (by decide))

/-- C7, counterexample.  A track with 1024 configured priming samples whose
first frame reports the pre-roll distance 0: `get_priming_samples` is 0, less
than the configured 1024, and the seek of `read_audio(0, _)` starts at data
offset 0.  On the four-byte track with two configured priming samples,
`read_audio(0, 2)` delivers the first two decoded bytes: nothing is skipped. -/
theorem priming_ignored_without_pre_roll :
    aac_handler.priming_samples = 1024 ∧
    get_priming_samples (four_byte_track (some 0)) aac_handler 1 1024 = 0 ∧
    audio_seek_position (four_byte_track (some 0)) aac_handler 0 = (1, 0) ∧
    (read_audio (four_byte_track (some 0)) (four_byte_handler 2) 0 2).out = [10, 11] := by
  simp [read_audio, read_audio_seek, audio_out, audio_decode_loop,
    decode_packet, consume_chunk, save_remainder, reset_for_seek, audio_seek_position, frame_walk, get_frame_length, get_priming_samples,
    seek_data_offset, sub64, U32, U64, get_audio_sample, buf_read, buf_write, four_byte_track,
    four_byte_handler, aac_handler, List.range, List.range.loop]

/-! ## Audio engine: cursor and continuation -/

/-- Copying from a chunk keeps the sum of delivered and wanted samples and
does not touch the log of flushes. -/
theorem consume_chunk_invariant (chunk : List Nat) (st : AudioState) :
    (consume_chunk chunk st).output_length + (consume_chunk chunk st).wanted_length
      = st.output_length + st.wanted_length ∧
    (consume_chunk chunk st).hp.flushes = st.hp.flushes := by
  unfold consume_chunk
  dsimp only
  have hcopied : min (chunk.length - st.data_offset) (st.wanted_length * st.hp.block_align)
      / st.hp.block_align ≤ st.wanted_length :=
    Nat.div_le_of_le_mul (by rw [Nat.mul_comm]; exact Nat.min_le_right _ _)
  split
  · dsimp only
    exact ⟨by omega, rfl⟩
  · exact ⟨rfl, rfl⟩

/-- The inner loop of `read_audio` keeps the sum of delivered and wanted
samples and does not touch the log of flushes. -/
theorem decode_packet_invariant (calls : List (Option (List Nat))) (st : AudioState) :
    (decode_packet calls st).2.output_length + (decode_packet calls st).2.wanted_length
      = st.output_length + st.wanted_length ∧
    (decode_packet calls st).2.hp.flushes = st.hp.flushes := by
  induction calls generalizing st with
  | nil => exact ⟨rfl, rfl⟩
  | cons call rest ih =>
    cases call with
    | none => exact ⟨rfl, rfl⟩
    | some chunk =>
      rw [decode_packet]
      obtain ⟨c1, c2⟩ := consume_chunk_invariant chunk st
      split
      · exact ⟨c1, c2⟩
      · obtain ⟨i1, i2⟩ := ih (consume_chunk chunk st)
        exact ⟨i1.trans c1, i2.trans c2⟩

/-- The outer loop of `read_audio` keeps the sum of delivered and wanted
samples and does not touch the log of flushes. -/
theorem audio_decode_loop_invariant (a : AudioTrack) (frame : Nat) (st : AudioState) :
    (audio_decode_loop a frame st).2.output_length + (audio_decode_loop a frame st).2.wanted_length
      = st.output_length + st.wanted_length ∧
    (audio_decode_loop a frame st).2.hp.flushes = st.hp.flushes := by
  generalize hm : a.sample_count + 1 - frame = m
  induction m using Nat.strong_induction_on generalizing frame st with
  | _ m ih =>
    rw [audio_decode_loop]
    dsimp only
    split
    · rename_i hs
      obtain ⟨p1, p2⟩ := decode_packet_invariant (a.decode frame) { st with copy_size := 0 }
      split
      · exact ⟨p1, p2⟩
      · simp only [get_audio_sample, Bool.and_eq_true, decide_eq_true_eq] at hs
        obtain ⟨i1, i2⟩ := ih (a.sample_count + 1 - (frame + 1)) (by omega) (frame + 1)
          (decode_packet (a.decode frame) { st with copy_size := 0 }).2 rfl
        exact ⟨i1.trans p1, i2.trans p2⟩
    · exact ⟨rfl, rfl⟩

/-- What `audio_out` leaves behind. -/
theorem audio_out_fields (start frame : Nat) (st : AudioState) :
    (audio_out start frame st).output_length = st.output_length ∧
    (audio_out start frame st).hp.next_audio_pcm_sample_number
      = (start + st.output_length) % U32 ∧
    (audio_out start frame st).hp.last_audio_frame_number = frame ∧
    (audio_out start frame st).hp.flushes = st.hp.flushes := by
  unfold audio_out
  dsimp only
  refine ⟨rfl, rfl, rfl, ?_⟩
  split <;> rfl

/-- Taking the remainder delivers no more than is wanted. -/
theorem take_remainder_invariant (hp : AudioHandler) (wanted : Nat) :
    (take_remainder hp wanted).output_length + (take_remainder hp wanted).wanted_length = wanted ∧
    (take_remainder hp wanted).hp.flushes = hp.flushes := by
  unfold take_remainder
  have hcopied : min hp.last_remainder_size (wanted * hp.block_align) / hp.block_align ≤ wanted :=
    Nat.div_le_of_le_mul (by rw [Nat.mul_comm]; exact Nat.min_le_right _ _)
  split
  · dsimp only
    exact ⟨by omega, rfl⟩
  · exact ⟨by simp, rfl⟩

/-- The branch of `read_audio` that continues: it delivers no more than is
wanted, moves the cursor behind what it delivered, and does not flush. -/
theorem read_audio_continue_fields (a : AudioTrack) (hp : AudioHandler) (start wanted : Nat) :
    (read_audio_continue a hp start wanted).output_length ≤ wanted ∧
    (read_audio_continue a hp start wanted).hp.next_audio_pcm_sample_number
      = (start + (read_audio_continue a hp start wanted).output_length) % U32 ∧
    (read_audio_continue a hp start wanted).hp.flushes = hp.flushes := by
  obtain ⟨t1, t2⟩ := take_remainder_invariant hp wanted
  unfold read_audio_continue
  dsimp only
  split
  · obtain ⟨o1, o2, _, o4⟩ := audio_out_fields start hp.last_audio_frame_number
      (take_remainder hp wanted)
    exact ⟨by rw [o1]; omega, by rw [o2, o1], by rw [o4, t2]⟩
  · obtain ⟨l1, l2⟩ := audio_decode_loop_invariant a (hp.last_audio_frame_number + 1)
      (take_remainder hp wanted)
    obtain ⟨o1, o2, _, o4⟩ := audio_out_fields start
      (audio_decode_loop a (hp.last_audio_frame_number + 1) (take_remainder hp wanted)).1
      (audio_decode_loop a (hp.last_audio_frame_number + 1) (take_remainder hp wanted)).2
    exact ⟨by rw [o1]; omega, by rw [o2, o1], by rw [o4, l2, t2]⟩

/-- The branch of `read_audio` that seeks: it delivers no more than is wanted,
moves the cursor behind what it delivered, and flushes once. -/
theorem read_audio_seek_fields (a : AudioTrack) (hp : AudioHandler) (start wanted : Nat) :
    (read_audio_seek a hp start wanted).output_length ≤ wanted ∧
    (read_audio_seek a hp start wanted).hp.next_audio_pcm_sample_number
      = (start + (read_audio_seek a hp start wanted).output_length) % U32 ∧
    (read_audio_seek a hp start wanted).hp.flushes = hp.flushes + 1 := by
  unfold read_audio_seek
  dsimp only
  obtain ⟨l1, l2⟩ := audio_decode_loop_invariant a
    (audio_seek_position a (reset_for_seek hp) start).1
    { data_offset := (audio_seek_position a (reset_for_seek hp) start).2, copy_size := 0,
      output_length := 0, wanted_length := wanted, out := [], hp := reset_for_seek hp }
  obtain ⟨o1, o2, _, o4⟩ := audio_out_fields start
    (audio_decode_loop a (audio_seek_position a (reset_for_seek hp) start).1
      { data_offset := (audio_seek_position a (reset_for_seek hp) start).2, copy_size := 0,
        output_length := 0, wanted_length := wanted, out := [], hp := reset_for_seek hp }).1
    (audio_decode_loop a (audio_seek_position a (reset_for_seek hp) start).1
      { data_offset := (audio_seek_position a (reset_for_seek hp) start).2, copy_size := 0,
        output_length := 0, wanted_length := wanted, out := [], hp := reset_for_seek hp }).2
  dsimp only at l1 l2
  exact ⟨by rw [o1]; omega, by rw [o2, o1], by rw [o4, l2]; rfl⟩

/-! ## Resolver: bounds of the anchor -/

/-- C16.  `find_random_accessible_point` stores an anchor between 1 and `rap`
when the lookup succeeds with `rap ≥ 1`; when the lookup fails, the anchor and
`last_rap_number` are 1 whatever is left in the three variables without
initialiser; and a call with the lower bound `anchor - 1`, where `anchor > 1`
and the demuxer answers with a `rap` that is not above the bound, stores a
strictly smaller anchor. -/
theorem find_random_accessible_point_bounds {σ : Type} (c : Container) (hp : VideoHandler σ)
    (target lower : Nat) :
    (∀ r, c.rap_detail (if lower = 0 then get_decoding_sample_number hp target else lower)
        = some r → 1 ≤ r.rap →
      1 ≤ (find_random_accessible_point c hp target lower).rap_number ∧
      (find_random_accessible_point c hp target lower).rap_number ≤ r.rap) ∧
    (c.rap_detail (if lower = 0 then get_decoding_sample_number hp target else lower) = none →
      (find_random_accessible_point c hp target lower).rap_number = 1 ∧
      (find_random_accessible_point c hp target lower).hp.last_rap_number = 1) ∧
    (∀ anchor, 1 < anchor →
      (∀ r, c.rap_detail (anchor - 1) = some r → r.rap ≤ anchor - 1) →
      (find_random_accessible_point c hp target (anchor - 1)).rap_number < anchor ∧
      (find_random_accessible_point c hp target (anchor - 1)).hp.last_rap_number < anchor) := by
  have val : ∀ (b : Bool) (rap dist : Nat),
      (if (b && decide (rap > dist)) = true then rap - dist else rap) ≤ rap ∧
      (1 ≤ rap → 1 ≤ (if (b && decide (rap > dist)) = true then rap - dist else rap)) := by
    intro b rap dist
    split
    · rename_i h
      simp only [Bool.and_eq_true, decide_eq_true_eq] at h
      exact ⟨Nat.sub_le _ _, fun _ => by omega⟩
    · exact ⟨le_refl _, fun h => h⟩
  have succ : ∀ (lo : Nat) (r : RapDetail),
      c.rap_detail (if lo = 0 then get_decoding_sample_number hp target else lo) = some r →
      (find_random_accessible_point c hp target lo).rap_number ≤ r.rap ∧
      (1 ≤ r.rap → 1 ≤ (find_random_accessible_point c hp target lo).rap_number) := by
    intro lo r hr
    simp only [find_random_accessible_point, hr]
    exact val _ _ _
  have fail : ∀ (lo : Nat),
      c.rap_detail (if lo = 0 then get_decoding_sample_number hp target else lo) = none →
      (find_random_accessible_point c hp target lo).rap_number = 1 := by
    intro lo hr
    simp only [find_random_accessible_point, hr]
    have := val
      ((c.rap_unset (if lo = 0 then get_decoding_sample_number hp target else lo)).roll ||
        decide ((c.rap_unset (if lo = 0 then get_decoding_sample_number hp target else lo)).leadings
          ≠ 0) &&
        decide (sub32 (if lo = 0 then get_decoding_sample_number hp target else lo) 1 ≤
          (c.rap_unset (if lo = 0 then get_decoding_sample_number hp target else lo)).leadings))
      1 (c.rap_unset (if lo = 0 then get_decoding_sample_number hp target else lo)).distance
    have h2 := this.2 (le_refl 1)
    have h1 := this.1
    omega
  refine ⟨fun r hr h1 => ⟨(succ lower r hr).2 h1, (succ lower r hr).1⟩,
    fun hr => ⟨fail lower hr, fail lower hr⟩, ?_⟩
  intro anchor ha hle
  have hne : anchor - 1 ≠ 0 := by omega
  have key : (find_random_accessible_point c hp target (anchor - 1)).rap_number < anchor := by
    cases hr : c.rap_detail (anchor - 1) with
    | none =>
      rw [fail (anchor - 1) (by simp only [hne, if_false]; exact hr)]
      exact ha
    | some r =>
      have := (succ (anchor - 1) r (by simp only [hne, if_false]; exact hr)).1
      have := hle r hr
      omega
  exact ⟨key, key⟩

/-- Witness of `find_random_accessible_point_bounds`: backing up from anchor 3
on `ipp_container`, whose only random access point is sample 1. -/
theorem find_random_accessible_point_bounds_witness :
    (find_random_accessible_point ipp_container (zeroed_handler 3 0) 3 (3 - 1)).rap_number < 3 :=
  ((find_random_accessible_point_bounds ipp_container (zeroed_handler 3 0) 3 0).2.2 3
    (by decide) (fun r hr => by cases hr; decide)).1

/-! ## Timeline builder: constant frame rate -/

/-- On a table whose consecutive composition times differ by `d > 0`, the loop
of lines 216-227 finds no duplicate, keeps the timebase `d` and ends with the
last two composition times. -/
theorem cts_loop_constant_delta (ts : List Timestamp) (d : Nat) (hd : 0 < d) (n : Nat)
    (hstep : ∀ i, i + 1 < n → cts_at ts (i + 1) = cts_at ts i + d)
    (hlast : ∀ i, i < n → cts_at ts i < U64) (k i : Nat) (hi : 2 ≤ i) (hk : i + k = n) :
    cts_loop ts k i (d, cts_at ts (i - 1), cts_at ts (i - 2))
      = some (d, cts_at ts (n - 1), cts_at ts (n - 2)) := by
  induction k generalizing i with
  | zero =>
    simp only [Nat.add_zero] at hk
    subst hk
    rfl
  | succ k ih =>
    rw [cts_loop]
    have h1 : cts_at ts i = cts_at ts (i - 1) + d := by
      have := hstep (i - 1) (by omega)
      rwa [Nat.sub_add_cancel (by omega)] at this
    have hne : ¬ cts_at ts i = cts_at ts (i - 1) := by omega
    rw [if_neg hne]
    have hsub : sub64 (cts_at ts i) (cts_at ts (i - 1)) = d := by
      rw [sub64_eq_sub _ _ (by omega) (hlast i (by omega))]
      omega
    rw [hsub, get_gcd_eq, Nat.gcd_self]
    have := ih (i + 1) (by omega) (by omega)
    simpa using this

/-- The rounded average of a constant-rate track is the reduced timescale. -/
theorem average_framerate_num_constant (n t b : Nat) (hn : 0 < n) (hb : 0 < b) :
    average_framerate_num n t (n * b) b = t := by
  unfold average_framerate_num
  have h : 2 * (n * t * b) + n * b = n * b + t * (2 * (n * b)) := by ring
  rw [h, Nat.add_mul_div_right _ _ (by positivity), Nat.div_eq_of_lt (by nlinarith)]
  simp

/-- On a table of `n ≥ 2` entries whose consecutive composition times differ
by `d > 0`, `calculate_framerate` sets the framerate `T / d` in lowest terms. -/
theorem calculate_framerate_constant {σ : Type} (T : Nat) (ts : List Timestamp)
    (g : VideoHandler σ) (d : Nat) (hT : 0 < T) (hd : 0 < d) (hn : 2 ≤ ts.length)
    (hg : g.video_sample_count = ts.length)
    (hstep : ∀ i, i + 1 < ts.length → cts_at ts (i + 1) = cts_at ts i + d)
    (hend : cts_at ts (ts.length - 1) + d < U64) :
    calculate_framerate T ts g
      = .ret 0 { g with framerate_num := T / Nat.gcd T d, framerate_den := d / Nat.gcd T d } := by
  have hpos : ∀ i, i < ts.length → cts_at ts i = cts_at ts 0 + i * d := by
    intro i
    induction i with
    | zero => intro _; simp
    | succ i ih =>
      intro hi
      rw [hstep i hi, ih (by omega), Nat.succ_mul]
      omega
  have hlt : ∀ i, i < ts.length → cts_at ts i < U64 := by
    intro i hi
    have h1 := hpos i hi
    have h2 := hpos (ts.length - 1) (by omega)
    have : i * d ≤ (ts.length - 1) * d := Nat.mul_le_mul_right d (by omega)
    omega
  have h10 : sub64 (cts_at ts 1) (cts_at ts 0) = d := by
    have h01 : cts_at ts 1 = cts_at ts 0 + d := hstep 0 (by omega)
    rw [sub64_eq_sub _ _ (by omega) (hlt 1 (by omega))]
    omega
  have hloop := cts_loop_constant_delta ts d hd ts.length hstep hlt (ts.length - 2) 2
    (le_refl 2) (by omega)
  have hgpos : 0 < Nat.gcd T d := Nat.gcd_pos_of_pos_left d hT
  have hdvd : Nat.gcd T d ∣ d := Nat.gcd_dvd_right T d
  have hb : 0 < d / Nat.gcd T d := Nat.div_pos (Nat.le_of_dvd hd hdvd) hgpos
  have hlast := hpos (ts.length - 1) (by omega)
  have hprev := hpos (ts.length - 2) (by omega)
  have hmul : (ts.length - 1) * d = (ts.length - 2) * d + d := by
    have : ts.length - 1 = (ts.length - 2) + 1 := by omega
    rw [this, Nat.succ_mul]
  have hnd : ts.length * d = (ts.length - 1) * d + d := by
    have : ts.length = (ts.length - 1) + 1 := by omega
    conv_lhs => rw [this, Nat.succ_mul]
  have hs1 : sub64 (cts_at ts (ts.length - 1)) (cts_at ts 0) = (ts.length - 1) * d := by
    rw [sub64_eq_sub _ _ (by omega) (hlt _ (by omega))]
    omega
  have hs2 : sub64 (cts_at ts (ts.length - 1)) (cts_at ts (ts.length - 2)) = d := by
    rw [sub64_eq_sub _ _ (by omega) (hlt _ (by omega))]
    omega
  have hdur : ((ts.length - 1) * d + d) % U64 / Nat.gcd T d = ts.length * (d / Nat.gcd T d) := by
    rw [Nat.mod_eq_of_lt (by omega), ← hnd, Nat.mul_div_assoc _ hdvd]
  have hdur0 : ts.length * (d / Nat.gcd T d) ≠ 0 :=
    Nat.pos_iff_ne_zero.mp (Nat.mul_pos (by omega) hb)
  unfold calculate_framerate
  rw [if_neg (by omega), h10]
  have hloop' : cts_loop ts (ts.length - 2) 2 (d, cts_at ts 1, cts_at ts 0)
      = some (d, cts_at ts (ts.length - 1), cts_at ts (ts.length - 2)) := hloop
  rw [hloop']
  simp only [reduce_fraction, get_gcd_eq, Nat.pos_iff_ne_zero.mp hgpos, if_false, hs1, hs2, hdur,
    hdur0, hg, average_framerate_num_constant _ _ _ (show 0 < ts.length by omega) hb]

/-- C19.  For a track of `n ≥ 2` samples with media timescale `T > 0` whose
composition times, in composition order, step by the same `d > 0` (and stay
below `2 ^ 64`), `setup_timestamp_info` returns 0 and sets
`framerate_num = T / gcd(T, d)` and `framerate_den = d / gcd(T, d)`: the
fraction `T / d` in lowest terms, whatever `n` is. -/
theorem constant_rate_framerate {σ : Type} (c : Container) (h : VideoHandler σ)
    (ts0 : List Timestamp) (delay d : Nat)
    (hn : 2 ≤ h.video_sample_count) (hT : 0 < c.media_timescale) (hd : 0 < d)
    (hts : c.media_timestamps = some ts0) (hlen : ts0.length = h.video_sample_count)
    (hdel : c.max_sample_delay ts0 = some delay) (hm : delay ≠ 0 → c.malloc_ok = true)
    (hl : (if delay ≠ 0 then c.sort_composition_order (number_dts ts0) else ts0).length
      = h.video_sample_count)
    (hstep : ∀ i, i + 1 < h.video_sample_count →
      cts_at (if delay ≠ 0 then c.sort_composition_order (number_dts ts0) else ts0) (i + 1)
        = cts_at (if delay ≠ 0 then c.sort_composition_order (number_dts ts0) else ts0) i + d)
    (hend : cts_at (if delay ≠ 0 then c.sort_composition_order (number_dts ts0) else ts0)
      (h.video_sample_count - 1) + d < U64) :
    ∃ h', setup_timestamp_info c h = .ret 0 h' ∧
      h'.framerate_num = c.media_timescale / Nat.gcd c.media_timescale d ∧
      h'.framerate_den = d / Nat.gcd c.media_timescale d ∧
      Nat.gcd h'.framerate_num h'.framerate_den = 1 := by
  have hco : Nat.gcd (c.media_timescale / Nat.gcd c.media_timescale d)
      (d / Nat.gcd c.media_timescale d) = 1 :=
    Nat.coprime_div_gcd_div_gcd (Nat.gcd_pos_of_pos_left d hT)
  unfold setup_timestamp_info
  simp only [hts, hdel, hlen, ne_eq, not_true_eq_false, if_false,
    show ¬ h.video_sample_count = 1 by omega]
  by_cases hz : delay = 0
  · have htab : (if delay ≠ 0 then c.sort_composition_order (number_dts ts0) else ts0) = ts0 :=
      if_neg (not_not.mpr hz)
    rw [htab] at hl hstep hend
    rw [if_neg (not_not.mpr hz)]
    rw [calculate_framerate_constant c.media_timescale ts0 h d hT hd (by omega) hl.symm
      (by rw [hl]; exact hstep) (by rw [hl]; exact hend)]
    exact ⟨_, rfl, rfl, rfl, hco⟩
  · have htab : (if delay ≠ 0 then c.sort_composition_order (number_dts ts0) else ts0)
        = c.sort_composition_order (number_dts ts0) := if_pos hz
    rw [htab] at hl hstep hend
    rw [if_pos hz, if_pos (hm hz)]
    refine ⟨_, calculate_framerate_constant _ _ _ d hT hd ?_ ?_ ?_ ?_, rfl, rfl, hco⟩
    · omega
    · exact hl.symm
    · rw [hl]; exact hstep
    · rw [hl]; exact hend

/-- Witness of `constant_rate_framerate`: three samples at composition times
0, 1, 2 in a timescale of 30 give the framerate 30/1. -/
theorem constant_rate_framerate_witness :
    ∃ h', setup_timestamp_info ipp_container (zeroed_handler 3 0) = .ret 0 h' ∧
      h'.framerate_num = 30 / Nat.gcd 30 1 ∧ h'.framerate_den = 1 / Nat.gcd 30 1 ∧
      Nat.gcd h'.framerate_num h'.framerate_den = 1 :=
  constant_rate_framerate ipp_container (zeroed_handler 3 0) [⟨0, 0⟩, ⟨1, 1⟩, ⟨2, 2⟩] 0 1
    (by decide) (by decide) (by decide) rfl rfl rfl (fun h => absurd rfl h) rfl
    (fun i hi => by
      have : i = 0 ∨ i = 1 := by
        have : i + 1 < 3 := hi
        omega
      rcases this with rfl | rfl <;> rfl)
    (by decide)

/-! ## Video engine: priming by seek_video -/

/-- Decoding a sample that exists: the sample is logged, the delay count, the
status and the skip setting stay, and the return value is -1 exactly when the
decoder reports an error, 0 otherwise. -/
theorem decode_video_sample_present {σ : Type} (c : Container) (d : Decoder σ)
    (hp : VideoHandler σ) (picture : Option Nat) (n : Nat) (hs : get_sample c n = true) :
    (decode_video_sample c d hp picture n).hp.fed = hp.fed ++ [n] ∧
    (decode_video_sample c d hp picture n).hp.delay_count = hp.delay_count ∧
    (decode_video_sample c d hp picture n).hp.decode_status = hp.decode_status ∧
    (decode_video_sample c d hp picture n).hp.skip_nonref = hp.skip_nonref ∧
    (decode_video_sample c d hp picture n).hp.video_ctx
      = (d.decode hp.video_ctx hp.skip_nonref n).ctx ∧
    (decode_video_sample c d hp picture n).picture
      = (d.decode hp.video_ctx hp.skip_nonref n).picture ∧
    (decode_video_sample c d hp picture n).ret
      = (if (d.decode hp.video_ctx hp.skip_nonref n).error = true then -1 else 0) := by
  unfold decode_video_sample
  rw [if_pos hs]
  dsimp only
  split <;> split <;> exact ⟨rfl, rfl, rfl, rfl, rfl, rfl, rfl⟩

/-- Decoding a sample that does not exist returns 1 and leaves the handle and
the picture as they were. -/
theorem decode_video_sample_absent {σ : Type} (c : Container) (d : Decoder σ)
    (hp : VideoHandler σ) (picture : Option Nat) (n : Nat) (hs : get_sample c n = false) :
    decode_video_sample c d hp picture n = { ret := 1, picture := picture, hp := hp } := by
  unfold decode_video_sample
  rw [if_neg (by simp [hs])]

/-- Decoding a sample never changes the delay count or the status. -/
theorem decode_video_sample_status {σ : Type} (c : Container) (d : Decoder σ)
    (hp : VideoHandler σ) (picture : Option Nat) (n : Nat) :
    (decode_video_sample c d hp picture n).hp.delay_count = hp.delay_count ∧
    (decode_video_sample c d hp picture n).hp.decode_status = hp.decode_status := by
  cases hs : get_sample c n with
  | true =>
    obtain ⟨_, h2, h3, _⟩ := decode_video_sample_present c d hp picture n hs
    exact ⟨h2, h3⟩
  | false => rw [decode_video_sample_absent c d hp picture n hs]; exact ⟨rfl, rfl⟩

/-- The loop of `read_video` entered with `seek_mode` equal to
`SEEK_MODE_AGGRESSIVE` makes a single attempt: it runs no `seek_video` and
leaves `error_count` as it is. -/
theorem read_video_loop_aggressive {σ : Type} (c : Container) (d : Decoder σ) (n ec : Nat)
    (roll : Bool) (rap start : Nat) (hp : VideoHandler σ) :
    (read_video_loop c d n ec SEEK_MODE_AGGRESSIVE roll rap start hp).hp.seeks = hp.seeks ∧
    (read_video_loop c d n ec SEEK_MODE_AGGRESSIVE roll rap start hp).error_count = ec ∧
    (read_video_loop c d n ec SEEK_MODE_AGGRESSIVE roll rap start hp).seek_mode
      = SEEK_MODE_AGGRESSIVE := by
  have hg := (read_video_attempt_same c d n start hp).2.2.2.2.2.2.2.1
  rw [read_video_loop]
  dsimp only
  split
  · exact ⟨hg, rfl, rfl⟩
  · rw [dif_pos rfl]
    exact ⟨hg, rfl, rfl⟩

/-- The number of `seek_video` calls the loop of `read_video` runs, plus one
when it ends without a picture, is bounded: by 1 under
`SEEK_MODE_AGGRESSIVE`, by `MAX_ERROR_COUNT + 1 - error_count` under
`SEEK_MODE_UNSAFE`, and by `MAX_ERROR_COUNT + 2 - error_count` otherwise. -/
theorem read_video_loop_bound {σ : Type} (c : Container) (d : Decoder σ) (n ec mode : Nat)
    (roll : Bool) (rap start : Nat) (hp : VideoHandler σ) (hec : ec ≤ MAX_ERROR_COUNT) :
    (∃ new, (read_video_loop c d n ec mode roll rap start hp).hp.seeks = hp.seeks ++ new ∧
      new.length + (if (read_video_loop c d n ec mode roll rap start hp).picture = none
          then 1 else 0)
        ≤ (if mode = SEEK_MODE_AGGRESSIVE then 1
           else if mode = SEEK_MODE_UNSAFE then MAX_ERROR_COUNT + 1 - ec
           else MAX_ERROR_COUNT + 2 - ec)) ∧
    (read_video_loop c d n ec mode roll rap start hp).error_count ≤ MAX_ERROR_COUNT + 1 := by
  generalize hm : 10 - ec = m
  induction m using Nat.strong_induction_on generalizing ec roll rap start hp with
  | _ m ih =>
    have hg := (read_video_attempt_same c d n start hp).2.2.2.2.2.2.2.1
    have hone : ∀ (o : Option Nat), (if o = none then 1 else 0) ≤ 1 := by
      intro o; split <;> omega
    have hM : MAX_ERROR_COUNT = 3 := rfl
    rw [hM] at hec
    rw [read_video_loop]
    dsimp only
    split
    · refine ⟨⟨[], by simpa using hg, ?_⟩, by show ec ≤ _; omega⟩
      have h1 := hone (read_video_attempt c d n start hp).picture
      have h2 : 1 ≤ (if mode = SEEK_MODE_AGGRESSIVE then 1
          else if mode = SEEK_MODE_UNSAFE then MAX_ERROR_COUNT + 1 - ec
          else MAX_ERROR_COUNT + 2 - ec) := by
        rw [hM]; split
        · exact le_refl _
        · split <;> omega
      simp only [List.length_nil, Nat.zero_add]
      exact le_trans h1 h2
    · split
      · rename_i hagg
        refine ⟨⟨[], by simpa using hg, ?_⟩, by show ec ≤ _; omega⟩
        simp only [hagg, List.length_nil, if_true, le_refl]
      · rename_i hagg
        split
        · rename_i hex
          split
          · rename_i hun
            refine ⟨⟨[], by simpa using hg, ?_⟩, by show ec + 1 ≤ _; omega⟩
            simp only [hagg, hun, List.length_nil, if_true, if_false, hM]
            omega
          · rename_i hun
            obtain ⟨a1, a2, _⟩ := read_video_loop_aggressive c d n (ec + 1) roll rap
              (seek_video c d (read_video_attempt c d n start hp).hp n rap
                (roll || decide (SEEK_MODE_AGGRESSIVE ≠ SEEK_MODE_NORMAL))).1
              (seek_video c d (read_video_attempt c d n start hp).hp n rap
                (roll || decide (SEEK_MODE_AGGRESSIVE ≠ SEEK_MODE_NORMAL))).2
            have hs := (seek_video_logs c d (read_video_attempt c d n start hp).hp n rap
              (roll || decide (SEEK_MODE_AGGRESSIVE ≠ SEEK_MODE_NORMAL))).1
            refine ⟨⟨[_], by rw [a1, hs, hg], ?_⟩, by rw [a2]; omega⟩
            simp only [hagg, hun, List.length_singleton, if_false, hM]
            have := hone (read_video_loop c d n (ec + 1) SEEK_MODE_AGGRESSIVE roll rap
              (seek_video c d (read_video_attempt c d n start hp).hp n rap
                (roll || decide (SEEK_MODE_AGGRESSIVE ≠ SEEK_MODE_NORMAL))).1
              (seek_video c d (read_video_attempt c d n start hp).hp n rap
                (roll || decide (SEEK_MODE_AGGRESSIVE ≠ SEEK_MODE_NORMAL))).2).picture
            omega
        · rename_i hex
          rw [hM] at hex
          have hec' : ec + 1 ≤ MAX_ERROR_COUNT := by
            rw [hM]; simp only [not_or, not_lt, gt_iff_lt] at hex; omega
          have hf := (find_random_accessible_point_same c (read_video_attempt c d n start hp).hp n
            (rap - 1)).2.2.2.2.2.2.2.1
          have hs := (seek_video_logs c d
            (find_random_accessible_point c (read_video_attempt c d n start hp).hp n (rap - 1)).hp n
            (find_random_accessible_point c (read_video_attempt c d n start hp).hp n
              (rap - 1)).rap_number
            ((find_random_accessible_point c (read_video_attempt c d n start hp).hp n
              (rap - 1)).roll_recovery || decide (mode ≠ SEEK_MODE_NORMAL))).1
          obtain ⟨⟨new, i1, i2⟩, i3⟩ := ih (10 - (ec + 1)) (by omega) (ec + 1)
            (find_random_accessible_point c (read_video_attempt c d n start hp).hp n
              (rap - 1)).roll_recovery
            (find_random_accessible_point c (read_video_attempt c d n start hp).hp n
              (rap - 1)).rap_number
            (seek_video c d
              (find_random_accessible_point c (read_video_attempt c d n start hp).hp n (rap - 1)).hp
              n (find_random_accessible_point c (read_video_attempt c d n start hp).hp n
                (rap - 1)).rap_number
              ((find_random_accessible_point c (read_video_attempt c d n start hp).hp n
                (rap - 1)).roll_recovery || decide (mode ≠ SEEK_MODE_NORMAL))).1
            (seek_video c d
              (find_random_accessible_point c (read_video_attempt c d n start hp).hp n (rap - 1)).hp
              n (find_random_accessible_point c (read_video_attempt c d n start hp).hp n
                (rap - 1)).rap_number
              ((find_random_accessible_point c (read_video_attempt c d n start hp).hp n
                (rap - 1)).roll_recovery || decide (mode ≠ SEEK_MODE_NORMAL))).2
            hec' rfl
          obtain ⟨e, he1⟩ : ∃ e : SeekCall, _ = _ ++ [e] := ⟨_, hs⟩
          refine ⟨⟨e :: new, ?_, ?_⟩, i3⟩
          · rw [i1, he1, hf, hg, List.append_assoc]; rfl
          · simp only [hagg, if_false, List.length_cons, hM] at i2 ⊢
            by_cases hun : mode = SEEK_MODE_UNSAFE
            · simp only [hun, if_true] at i2 ⊢
              omega
            · simp only [hun, if_false] at i2 ⊢
              omega

/-- C15.  The loop of `read_video` ends for every demuxer and decoder, within a
bounded number of attempts.  Each failed attempt is followed by the return or
by one `seek_video` of the loop (`retries`), so the failed attempts of a call
are the `seek_video` calls of the loop, plus one when the call ends without a
picture.  On the fast path the log of seeks grows by the retries only; on the
seek path it grows by the initial seek, from the anchor that
`find_random_accessible_point` resolves for the sample, and then by the
retries.  On both paths the number of failed attempts is at most 1 under
`SEEK_MODE_AGGRESSIVE`, at most `MAX_ERROR_COUNT + 1 = 4` under
`SEEK_MODE_UNSAFE` and at most `MAX_ERROR_COUNT + 2 = 5` otherwise;
`error_count` never exceeds `MAX_ERROR_COUNT + 1`; and once the local
`seek_mode` is `SEEK_MODE_AGGRESSIVE`, the loop makes one attempt and runs no
further `seek_video`. -/
theorem read_video_attempts_bounded {σ : Type} (c : Container) (d : Decoder σ)
    (hp : VideoHandler σ) (n : Nat) :
    ((n + 1 = hp.last_video_sample_number + 1 ∧
        ∃ retries, (read_video c d hp n).hp.seeks = hp.seeks ++ retries ∧
          retries.length + (if (read_video c d hp n).picture = none then 1 else 0)
            ≤ (if hp.seek_mode = SEEK_MODE_AGGRESSIVE then 1
               else if hp.seek_mode = SEEK_MODE_UNSAFE then MAX_ERROR_COUNT + 1
               else MAX_ERROR_COUNT + 2)) ∨
      (n + 1 ≠ hp.last_video_sample_number + 1 ∧
        ∃ first retries, (read_video c d hp n).hp.seeks = hp.seeks ++ first :: retries ∧
          first.composition_sample_number = n + 1 ∧
          first.rap_number = (find_random_accessible_point c hp (n + 1) 0).rap_number ∧
          retries.length + (if (read_video c d hp n).picture = none then 1 else 0)
            ≤ (if hp.seek_mode = SEEK_MODE_AGGRESSIVE then 1
               else if hp.seek_mode = SEEK_MODE_UNSAFE then MAX_ERROR_COUNT + 1
               else MAX_ERROR_COUNT + 2))) ∧
    (read_video c d hp n).error_count ≤ MAX_ERROR_COUNT + 1 ∧
    (∀ (ec : Nat) (roll : Bool) (rap start : Nat) (h1 : VideoHandler σ),
      (read_video_loop c d (n + 1) ec SEEK_MODE_AGGRESSIVE roll rap start h1).hp.seeks
        = h1.seeks ∧
      (read_video_loop c d (n + 1) ec SEEK_MODE_AGGRESSIVE roll rap start h1).error_count
        = ec) := by
  refine ⟨?_, ?_, fun ec roll rap start h1 =>
    ⟨(read_video_loop_aggressive c d (n + 1) ec roll rap start h1).1,
     (read_video_loop_aggressive c d (n + 1) ec roll rap start h1).2.1⟩⟩
  · by_cases hfast : n + 1 = hp.last_video_sample_number + 1
    · left
      refine ⟨hfast, ?_⟩
      unfold read_video
      dsimp only
      rw [if_pos hfast]
      obtain ⟨⟨new, b1, b2⟩, _⟩ := read_video_loop_bound c d (n + 1) 0 hp.seek_mode false
        hp.last_rap_number (n + 1 + hp.delay_count) hp (Nat.zero_le _)
      exact ⟨new, b1, b2⟩
    · right
      refine ⟨hfast, ?_⟩
      unfold read_video
      dsimp only
      rw [if_neg hfast]
      obtain ⟨⟨new, b1, b2⟩, _⟩ := read_video_loop_bound c d (n + 1) 0 hp.seek_mode
        (find_random_accessible_point c hp (n + 1) 0).roll_recovery
        (find_random_accessible_point c hp (n + 1) 0).rap_number
        (seek_video c d (find_random_accessible_point c hp (n + 1) 0).hp (n + 1)
          (find_random_accessible_point c hp (n + 1) 0).rap_number
          ((find_random_accessible_point c hp (n + 1) 0).roll_recovery ||
            decide (hp.seek_mode ≠ SEEK_MODE_NORMAL))).1
        (seek_video c d (find_random_accessible_point c hp (n + 1) 0).hp (n + 1)
          (find_random_accessible_point c hp (n + 1) 0).rap_number
          ((find_random_accessible_point c hp (n + 1) 0).roll_recovery ||
            decide (hp.seek_mode ≠ SEEK_MODE_NORMAL))).2 (Nat.zero_le _)
      have hs := (seek_video_logs c d (find_random_accessible_point c hp (n + 1) 0).hp (n + 1)
        (find_random_accessible_point c hp (n + 1) 0).rap_number
        ((find_random_accessible_point c hp (n + 1) 0).roll_recovery ||
          decide (hp.seek_mode ≠ SEEK_MODE_NORMAL))).1
      obtain ⟨e, he1, he2, he3⟩ : ∃ e : SeekCall, _ = _ ++ [e] ∧
          e.composition_sample_number = n + 1 ∧
          e.rap_number = (find_random_accessible_point c hp (n + 1) 0).rap_number :=
        ⟨_, hs, rfl, rfl⟩
      refine ⟨e, new, ?_, he2, he3, b2⟩
      rw [b1, he1]
      have hf : (find_random_accessible_point c hp (n + 1) 0).hp.seeks = hp.seeks := rfl
      rw [hf]
      simp
  · unfold read_video
    dsimp only
    split
    · exact (read_video_loop_bound c d (n + 1) 0 hp.seek_mode false
        hp.last_rap_number (n + 1 + hp.delay_count) hp (Nat.zero_le _)).2
    · exact (read_video_loop_bound c d (n + 1) 0 hp.seek_mode _ _ _ _ (Nat.zero_le _)).2

/-! ## Video engine: escalation under the normal mode -/

/-- Decoding a sample hands no empty packet to the decoder. -/
theorem decode_video_sample_drained {σ : Type} (c : Container) (d : Decoder σ)
    (hp : VideoHandler σ) (picture : Option Nat) (n : Nat) :
    (decode_video_sample c d hp picture n).hp.drained = hp.drained := by
  unfold decode_video_sample
  dsimp only
  split
  · split <;> split <;> rfl
  · rfl

/-- What `count_delay` does: the status and the count of empty packets stay,
and the delay count grows by one exactly when there is no picture. -/
theorem count_delay_fields {σ : Type} (picture : Option Nat) (hp : VideoHandler σ) :
    (count_delay picture hp).decode_status = hp.decode_status ∧
    (count_delay picture hp).drained = hp.drained ∧
    (count_delay picture hp).video_ctx = hp.video_ctx ∧
    (count_delay picture hp).delay_count
      = hp.delay_count + (if picture = none then 1 else 0) := by
  unfold count_delay
  cases picture with
  | none => exact ⟨rfl, rfl, rfl, rfl⟩
  | some p => exact ⟨rfl, rfl, rfl, rfl⟩

/-- The first loop of `get_picture` with a constant decoder delay `p`: the
status and the count of empty packets stay; and when the loop is entered with
`delay_count ≤ p` under `DECODE_INITIALIZED`, it is left either with the same
bound, or without a picture with `delay_count = p + 1` under
`DECODE_INITIALIZED`. -/
theorem get_picture_loop_delay {σ : Type} (c : Container) (d : Decoder σ) (p goal : Nat)
    (hconst : ∀ s, d.delay s = p) (current : Nat) (picture : Option Nat) (hp : VideoHandler σ) :
    (get_picture_loop c d goal current picture hp).hp.decode_status = hp.decode_status ∧
    (get_picture_loop c d goal current picture hp).hp.drained = hp.drained ∧
    ((hp.decode_status = .DECODE_INITIALIZED → hp.delay_count ≤ p) →
      ((get_picture_loop c d goal current picture hp).hp.decode_status = .DECODE_INITIALIZED →
        (get_picture_loop c d goal current picture hp).hp.delay_count ≤ p) ∨
      ((get_picture_loop c d goal current picture hp).failed = false ∧
        (get_picture_loop c d goal current picture hp).picture = none ∧
        (get_picture_loop c d goal current picture hp).hp.decode_status = .DECODE_INITIALIZED ∧
        (get_picture_loop c d goal current picture hp).hp.delay_count = p + 1)) := by
  generalize hn : goal + 1 - current = n
  induction n using Nat.strong_induction_on generalizing current picture hp with
  | _ n ih =>
    obtain ⟨d1, d2⟩ := decode_video_sample_status c d hp picture current
    have d3 := decode_video_sample_drained c d hp picture current
    obtain ⟨c1, c2, c3, c4⟩ := count_delay_fields
      (decode_video_sample c d hp picture current).picture
      (decode_video_sample c d hp picture current).hp
    rw [get_picture_loop]
    dsimp only
    split
    · exact ⟨d2, d3, fun hj => Or.inl (fun hi => by
        show (decode_video_sample c d hp picture current).hp.delay_count ≤ p
        rw [d1]; exact hj (by rw [← d2]; exact hi))⟩
    · split
      · exact ⟨d2, d3, fun hj => Or.inl (fun hi => by
          show (decode_video_sample c d hp picture current).hp.delay_count ≤ p
          rw [d1]; exact hj (by rw [← d2]; exact hi))⟩
      · split
        · rename_i hex
          refine ⟨by rw [← d2]; exact c1, by rw [← d3]; exact c2, fun hj => Or.inr ?_⟩
          rw [hconst] at hex
          have hi : hp.decode_status = .DECODE_INITIALIZED := by
            rw [← d2, ← c1]; exact hex.2
          have hle := hj hi
          have hgt := hex.1
          rw [c4, d1] at hgt
          refine ⟨rfl, ?_, hex.2, ?_⟩
          · show (decode_video_sample c d hp picture current).picture = none
            by_contra hne
            rw [if_neg hne] at hgt
            omega
          · show (count_delay _ _).delay_count = p + 1
            rw [c4, d1]
            split at hgt <;> rename_i hpic
            · rw [if_pos hpic]; omega
            · omega
        · rename_i hex
          rw [hconst] at hex
          have hj1 : (hp.decode_status = .DECODE_INITIALIZED → hp.delay_count ≤ p) →
              ((count_delay (decode_video_sample c d hp picture current).picture
                (decode_video_sample c d hp picture current).hp).decode_status
                  = .DECODE_INITIALIZED →
                (count_delay (decode_video_sample c d hp picture current).picture
                  (decode_video_sample c d hp picture current).hp).delay_count ≤ p) := by
            intro _ hi
            by_contra hgt
            exact hex ⟨by omega, hi⟩
          split
          · obtain ⟨i1, i2, i3⟩ := ih (goal + 1 - (current + 1)) (by omega) (current + 1)
              (decode_video_sample c d hp picture current).picture
              (count_delay (decode_video_sample c d hp picture current).picture
                (decode_video_sample c d hp picture current).hp) rfl
            exact ⟨by rw [i1, c1, d2], by rw [i2, c2, d3], fun hj => i3 (hj1 hj)⟩
          · exact ⟨by rw [← d2]; exact c1, by rw [← d3]; exact c2,
              fun hj => Or.inl (hj1 hj)⟩

/-- The second loop of `get_picture` hands at least one empty packet to the
decoder. -/
theorem flush_last_frames_drained {σ : Type} (d : Decoder σ) (goal current : Nat)
    (hp : VideoHandler σ) :
    hp.drained < (flush_last_frames d goal current hp).hp.drained := by
  generalize hn : goal + 1 - current = n
  induction n using Nat.strong_induction_on generalizing current hp with
  | _ n ih =>
    have h0 : (after_empty_packet d hp).drained = hp.drained + 1 := rfl
    have hc := (count_delay_fields (d.drain hp.video_ctx).picture (after_empty_packet d hp)).2.1
    rw [flush_last_frames]
    dsimp only
    split
    · show hp.drained < (after_empty_packet d hp).drained
      omega
    · split
      · have := ih (goal + 1 - (current + 1)) (by omega) (current + 1)
          (count_delay (d.drain hp.video_ctx).picture (after_empty_packet d hp)) rfl
        omega
      · show hp.drained < (count_delay _ _).drained
        omega

/-- What `settle_delay` leaves: the count of empty packets stays, and the
delay count is at most the decoder delay whenever the status is
`DECODE_INITIALIZED` afterwards, provided it was so before. -/
theorem settle_delay_bound {σ : Type} (d : Decoder σ) (p : Nat) (hconst : ∀ s, d.delay s = p)
    (hp : VideoHandler σ) :
    (settle_delay d hp).drained = hp.drained ∧
    ((hp.decode_status = .DECODE_INITIALIZED → hp.delay_count ≤ p) →
      (settle_delay d hp).decode_status = .DECODE_INITIALIZED →
        (settle_delay d hp).delay_count ≤ p) := by
  unfold settle_delay
  split
  · rename_i h1
    split
    · refine ⟨rfl, fun _ hi => ?_⟩
      rw [h1] at hi
      exact decode_status_t.noConfusion hi
    · rename_i h2
      rw [hconst] at h2
      exact ⟨rfl, fun _ _ => by show hp.delay_count ≤ p; omega⟩
  · exact ⟨rfl, fun hj hi => hj hi⟩

/-- What `leave_require_initial` leaves: the delay count and the count of
empty packets stay, and the status is `DECODE_INITIALIZED` only if it was. -/
theorem leave_require_initial_fields {σ : Type} (hp : VideoHandler σ) :
    (leave_require_initial hp).drained = hp.drained ∧
    (leave_require_initial hp).delay_count = hp.delay_count ∧
    ((leave_require_initial hp).decode_status = .DECODE_INITIALIZED →
      hp.decode_status = .DECODE_INITIALIZED) := by
  unfold leave_require_initial
  split
  · exact ⟨rfl, rfl, fun hi => decode_status_t.noConfusion hi⟩
  · exact ⟨rfl, rfl, fun hi => hi⟩

/-- One call of `get_picture` with a constant decoder delay `p`: the count of
empty packets never goes down; and when the call is entered with
`delay_count ≤ p` under `DECODE_INITIALIZED` and hands no empty packet to the
decoder, it returns with the same bound, or it returns -1 with
`delay_count = p + 1` under `DECODE_INITIALIZED`. -/
theorem get_picture_delay {σ : Type} (c : Container) (d : Decoder σ) (p : Nat)
    (hconst : ∀ s, d.delay s = p) (hp : VideoHandler σ) (current goal count : Nat) :
    hp.drained ≤ (get_picture c d hp current goal count).hp.drained ∧
    ((hp.decode_status = .DECODE_INITIALIZED → hp.delay_count ≤ p) →
      (get_picture c d hp current goal count).hp.drained = hp.drained →
      (((get_picture c d hp current goal count).hp.decode_status = .DECODE_INITIALIZED →
          (get_picture c d hp current goal count).hp.delay_count ≤ p) ∨
        ((get_picture c d hp current goal count).ret = -1 ∧
          (get_picture c d hp current goal count).hp.decode_status = .DECODE_INITIALIZED ∧
          (get_picture c d hp current goal count).hp.delay_count = p + 1))) := by
  obtain ⟨s1, s2⟩ := settle_delay_bound d p hconst hp
  obtain ⟨l1, l2, l3⟩ := get_picture_loop_delay c d p goal hconst current none (settle_delay d hp)
  have hf := flush_last_frames_drained d goal
    (get_picture_loop c d goal current none (settle_delay d hp)).current
    (get_picture_loop c d goal current none (settle_delay d hp)).hp
  unfold get_picture
  dsimp only
  by_cases hfl : (get_picture_loop c d goal current none (settle_delay d hp)).failed = true
  · rw [if_pos hfl]
    refine ⟨by show hp.drained ≤ (get_picture_loop _ _ _ _ _ _).hp.drained; omega, ?_⟩
    intro hj _
    rcases l3 (s2 hj) with h | h
    · exact Or.inl h
    · rw [h.1] at hfl
      exact Bool.noConfusion hfl
  · rw [if_neg hfl]
    unfold flush_at_end
    split
    · -- the second loop ran
      split
      · refine ⟨by show hp.drained ≤ (flush_last_frames _ _ _ _).hp.drained; omega, ?_⟩
        intro _ hdr
        have hdr' : (flush_last_frames d goal
          (get_picture_loop c d goal current none (settle_delay d hp)).current
          (get_picture_loop c d goal current none (settle_delay d hp)).hp).hp.drained
            = hp.drained := hdr
        omega
      · obtain ⟨e1, _, _⟩ := leave_require_initial_fields (flush_last_frames d goal
          (get_picture_loop c d goal current none (settle_delay d hp)).current
          (get_picture_loop c d goal current none (settle_delay d hp)).hp).hp
        split
        · refine ⟨by show hp.drained ≤ (leave_require_initial _).drained; omega, ?_⟩
          intro _ hdr
          have hdr' : (leave_require_initial (flush_last_frames d goal
            (get_picture_loop c d goal current none (settle_delay d hp)).current
            (get_picture_loop c d goal current none (settle_delay d hp)).hp).hp).drained
              = hp.drained := hdr
          omega
        · refine ⟨by show hp.drained ≤ (leave_require_initial _).drained; omega, ?_⟩
          intro _ hdr
          have hdr' : (leave_require_initial (flush_last_frames d goal
            (get_picture_loop c d goal current none (settle_delay d hp)).current
            (get_picture_loop c d goal current none (settle_delay d hp)).hp).hp).drained
              = hp.drained := hdr
          omega
    · -- the second loop did not run
      obtain ⟨e1, e2, e3⟩ := leave_require_initial_fields
        (get_picture_loop c d goal current none (settle_delay d hp)).hp
      split
      · rename_i q hq
        refine ⟨by show hp.drained ≤ (leave_require_initial _).drained; omega, ?_⟩
        intro hj _
        refine Or.inl (fun hi => ?_)
        show (leave_require_initial _).delay_count ≤ p
        rw [e2]
        rcases l3 (s2 hj) with h | h
        · exact h (e3 hi)
        · rw [h.2.1] at hq
          exact Option.noConfusion hq
      · refine ⟨by show hp.drained ≤ (leave_require_initial _).drained; omega, ?_⟩
        intro hj _
        rcases l3 (s2 hj) with h | h
        · refine Or.inl (fun hi => ?_)
          show (leave_require_initial _).delay_count ≤ p
          rw [e2]
          exact h (e3 hi)
        · refine Or.inr ⟨rfl, ?_, ?_⟩
          · show (leave_require_initial _).decode_status = .DECODE_INITIALIZED
            unfold leave_require_initial
            rw [if_neg (by rw [h.2.2.1]; decide)]
            exact h.2.2.1
          · show (leave_require_initial _).delay_count = p + 1
            rw [e2]; exact h.2.2.2

/-- The loop of `seek_video` changes neither the delay count, nor the status,
nor the count of empty packets. -/
theorem seek_video_loop_status {σ : Type} (c : Container) (d : Decoder σ) (n : Nat)
    (ignore : Bool) (i : Nat) (hp : VideoHandler σ) :
    (seek_video_loop c d n ignore i hp).hp.delay_count = hp.delay_count ∧
    (seek_video_loop c d n ignore i hp).hp.decode_status = hp.decode_status ∧
    (seek_video_loop c d n ignore i hp).hp.drained = hp.drained := by
  generalize hn : c.sample_count + 1 - i = m
  induction m using Nat.strong_induction_on generalizing i hp with
  | _ m ih =>
    have hs : (skip_frame_default_at d n i hp).delay_count = hp.delay_count ∧
        (skip_frame_default_at d n i hp).decode_status = hp.decode_status ∧
        (skip_frame_default_at d n i hp).drained = hp.drained := by
      unfold skip_frame_default_at
      split <;> exact ⟨rfl, rfl, rfl⟩
    obtain ⟨d1, d2⟩ := decode_video_sample_status c d (skip_frame_default_at d n i hp) none i
    have d3 := decode_video_sample_drained c d (skip_frame_default_at d n i hp) none i
    have hd : (decode_video_sample c d (skip_frame_default_at d n i hp) none i).hp.delay_count
          = hp.delay_count ∧
        (decode_video_sample c d (skip_frame_default_at d n i hp) none i).hp.decode_status
          = hp.decode_status ∧
        (decode_video_sample c d (skip_frame_default_at d n i hp) none i).hp.drained
          = hp.drained :=
      ⟨by rw [d1, hs.1], by rw [d2, hs.2.1], by rw [d3, hs.2.2]⟩
    rw [seek_video_loop]
    split
    · dsimp only
      split
      · exact hd
      · split
        · exact hd
        · rename_i hne
          have hg : get_sample c i = true := by
            by_contra hg
            exact hne (by simp [decode_video_sample, hg])
          simp only [get_sample, Bool.and_eq_true, decide_eq_true_eq] at hg
          obtain ⟨i1, i2, i3⟩ := ih (c.sample_count + 1 - (i + 1)) (by omega) (i + 1)
            (decode_video_sample c d (skip_frame_default_at d n i hp) none i).hp rfl
          exact ⟨by rw [i1, hd.1], by rw [i2, hd.2.1], by rw [i3, hd.2.2]⟩
    · exact ⟨rfl, rfl, rfl⟩

/-- The state `seek_video` returns in, with a constant decoder delay `p`: the
status is `DECODE_REQUIRE_INITIAL`, the delay count is at most `p`, and no
empty packet went to the decoder. -/
theorem seek_video_state {σ : Type} (c : Container) (d : Decoder σ) (p : Nat)
    (hconst : ∀ s, d.delay s = p) (hp : VideoHandler σ) (n rap : Nat) (ignore : Bool) :
    (seek_video c d hp n rap ignore).2.decode_status = .DECODE_REQUIRE_INITIAL ∧
    (seek_video c d hp n rap ignore).2.delay_count ≤ p ∧
    (seek_video c d hp n rap ignore).2.drained = hp.drained := by
  have h0 : (seek_video_start d hp n rap).delay_count = 0 ∧
      (seek_video_start d hp n rap).decode_status = .DECODE_REQUIRE_INITIAL ∧
      (seek_video_start d hp n rap).drained = hp.drained := by
    unfold seek_video_start flush_buffers
    dsimp only
    split <;> exact ⟨rfl, rfl, rfl⟩
  obtain ⟨a1, a2, a3⟩ := seek_video_loop_status c d n ignore rap (seek_video_start d hp n rap)
  unfold seek_video
  dsimp only
  split
  · exact ⟨by rw [← h0.2.1]; exact a2,
      by show (seek_video_loop _ _ _ _ _ _).hp.delay_count ≤ p; rw [a1, h0.1]; omega,
      by rw [← h0.2.2]; exact a3⟩
  · exact ⟨by rw [← h0.2.1]; exact a2,
      by show d.delay _ ≤ p; rw [hconst],
      by rw [← h0.2.2]; exact a3⟩

/-- One attempt of `read_video` with a constant decoder delay `p`: the count
of empty packets never goes down, and a successful attempt that hands no empty
packet to the decoder keeps `delay_count ≤ p` under `DECODE_INITIALIZED`. -/
theorem read_video_attempt_delay {σ : Type} (c : Container) (d : Decoder σ) (p : Nat)
    (hconst : ∀ s, d.delay s = p) (n start : Nat) (hp : VideoHandler σ) :
    hp.drained ≤ (read_video_attempt c d n start hp).hp.drained ∧
    ((hp.decode_status = .DECODE_INITIALIZED → hp.delay_count ≤ p) →
      (read_video_attempt c d n start hp).hp.drained = hp.drained →
      (read_video_attempt c d n start hp).ret = 0 →
      (read_video_attempt c d n start hp).hp.decode_status = .DECODE_INITIALIZED →
      (read_video_attempt c d n start hp).hp.delay_count ≤ p) := by
  unfold read_video_attempt
  split
  · exact ⟨le_refl _, fun hj _ _ hi => hj hi⟩
  · obtain ⟨g1, g2⟩ := get_picture_delay c d p hconst hp start (n + hp.delay_count)
      hp.video_sample_count
    refine ⟨g1, fun hj hdr hret => ?_⟩
    rcases g2 hj hdr with h | h
    · exact h
    · rw [h.1] at hret
      exact absurd hret (by decide)

/-- The loop of `read_video` entered with `SEEK_MODE_AGGRESSIVE`, with a
constant decoder delay `p`: the count of empty packets never goes down, and a
read that delivers a picture and hands no empty packet to the decoder keeps
`delay_count ≤ p` under `DECODE_INITIALIZED`. -/
theorem read_video_loop_aggressive_delay {σ : Type} (c : Container) (d : Decoder σ) (p : Nat)
    (hconst : ∀ s, d.delay s = p) (n ec : Nat) (roll : Bool) (rap start : Nat)
    (hp : VideoHandler σ) :
    hp.drained ≤ (read_video_loop c d n ec SEEK_MODE_AGGRESSIVE roll rap start hp).hp.drained ∧
    ((hp.decode_status = .DECODE_INITIALIZED → hp.delay_count ≤ p) →
      (read_video_loop c d n ec SEEK_MODE_AGGRESSIVE roll rap start hp).hp.drained = hp.drained →
      (read_video_loop c d n ec SEEK_MODE_AGGRESSIVE roll rap start hp).picture ≠ none →
      (read_video_loop c d n ec SEEK_MODE_AGGRESSIVE roll rap start hp).hp.decode_status
        = .DECODE_INITIALIZED →
      (read_video_loop c d n ec SEEK_MODE_AGGRESSIVE roll rap start hp).hp.delay_count ≤ p) := by
  obtain ⟨g1, g2⟩ := read_video_attempt_delay c d p hconst n start hp
  rw [read_video_loop]
  dsimp only
  split
  · rename_i hret
    exact ⟨g1, fun hj hdr _ hi => g2 hj hdr hret hi⟩
  · rw [dif_pos rfl]
    exact ⟨g1, fun _ _ hpic => absurd rfl hpic⟩

/-- The loop of `read_video` with a constant decoder delay `p`: the count of
empty packets never goes down, and a read that delivers a picture and hands no
empty packet to the decoder keeps `delay_count ≤ p` under
`DECODE_INITIALIZED`. -/
theorem read_video_loop_delay {σ : Type} (c : Container) (d : Decoder σ) (p : Nat)
    (hconst : ∀ s, d.delay s = p) (n ec mode : Nat) (roll : Bool) (rap start : Nat)
    (hp : VideoHandler σ) (hec : ec ≤ MAX_ERROR_COUNT) :
    hp.drained ≤ (read_video_loop c d n ec mode roll rap start hp).hp.drained ∧
    ((hp.decode_status = .DECODE_INITIALIZED → hp.delay_count ≤ p) →
      (read_video_loop c d n ec mode roll rap start hp).hp.drained = hp.drained →
      (read_video_loop c d n ec mode roll rap start hp).picture ≠ none →
      (read_video_loop c d n ec mode roll rap start hp).hp.decode_status = .DECODE_INITIALIZED →
      (read_video_loop c d n ec mode roll rap start hp).hp.delay_count ≤ p) := by
  generalize hm : 10 - ec = m
  induction m using Nat.strong_induction_on generalizing ec roll rap start hp with
  | _ m ih =>
    obtain ⟨g1, g2⟩ := read_video_attempt_delay c d p hconst n start hp
    have hM : MAX_ERROR_COUNT = 3 := rfl
    rw [hM] at hec
    rw [read_video_loop]
    dsimp only
    split
    · rename_i hret
      exact ⟨g1, fun hj hdr _ hi => g2 hj hdr hret hi⟩
    · split
      · exact ⟨g1, fun _ _ hpic => absurd rfl hpic⟩
      · split
        · split
          · exact ⟨g1, fun _ _ hpic => absurd rfl hpic⟩
          · obtain ⟨s1, s2, s3⟩ := seek_video_state c d p hconst
              (read_video_attempt c d n start hp).hp n rap
              (roll || decide (SEEK_MODE_AGGRESSIVE ≠ SEEK_MODE_NORMAL))
            obtain ⟨a1, a2⟩ := read_video_loop_aggressive_delay c d p hconst n (ec + 1) roll rap
              (seek_video c d (read_video_attempt c d n start hp).hp n rap
                (roll || decide (SEEK_MODE_AGGRESSIVE ≠ SEEK_MODE_NORMAL))).1
              (seek_video c d (read_video_attempt c d n start hp).hp n rap
                (roll || decide (SEEK_MODE_AGGRESSIVE ≠ SEEK_MODE_NORMAL))).2
            refine ⟨by omega, fun _ hdr hpic hi => a2 (fun _ => s2) (by omega) hpic hi⟩
        · rename_i hex
          rw [hM] at hex
          have hec' : ec + 1 ≤ MAX_ERROR_COUNT := by
            rw [hM]; simp only [not_or, not_lt, gt_iff_lt] at hex; omega
          have hf : (find_random_accessible_point c (read_video_attempt c d n start hp).hp n
            (rap - 1)).hp.drained = (read_video_attempt c d n start hp).hp.drained := rfl
          obtain ⟨s1, s2, s3⟩ := seek_video_state c d p hconst
            (find_random_accessible_point c (read_video_attempt c d n start hp).hp n (rap - 1)).hp
            n (find_random_accessible_point c (read_video_attempt c d n start hp).hp n
              (rap - 1)).rap_number
            ((find_random_accessible_point c (read_video_attempt c d n start hp).hp n
              (rap - 1)).roll_recovery || decide (mode ≠ SEEK_MODE_NORMAL))
          obtain ⟨a1, a2⟩ := ih (10 - (ec + 1)) (by omega) (ec + 1)
            (find_random_accessible_point c (read_video_attempt c d n start hp).hp n
              (rap - 1)).roll_recovery
            (find_random_accessible_point c (read_video_attempt c d n start hp).hp n
              (rap - 1)).rap_number
            (seek_video c d
              (find_random_accessible_point c (read_video_attempt c d n start hp).hp n
                (rap - 1)).hp
              n (find_random_accessible_point c (read_video_attempt c d n start hp).hp n
                (rap - 1)).rap_number
              ((find_random_accessible_point c (read_video_attempt c d n start hp).hp n
                (rap - 1)).roll_recovery || decide (mode ≠ SEEK_MODE_NORMAL))).1
            (seek_video c d
              (find_random_accessible_point c (read_video_attempt c d n start hp).hp n
                (rap - 1)).hp
              n (find_random_accessible_point c (read_video_attempt c d n start hp).hp n
                (rap - 1)).rap_number
              ((find_random_accessible_point c (read_video_attempt c d n start hp).hp n
                (rap - 1)).roll_recovery || decide (mode ≠ SEEK_MODE_NORMAL))).2
            hec' rfl
          refine ⟨by omega, fun _ hdr hpic hi => a2 (fun _ => s2) (by omega) hpic hi⟩

/-- C13, amended. With a constant decoder delay `p`, from a state with
`delay_count ≤ p` whenever the status is `DECODE_INITIALIZED`: `seek_video`
returns with the status `DECODE_REQUIRE_INITIAL` and `delay_count ≤ p`; a call
of `get_picture` that hands no empty packet to the decoder returns with
`delay_count ≤ p` whenever the status is `DECODE_INITIALIZED`, or returns -1
with the status `DECODE_INITIALIZED` and `delay_count = p + 1`; and a call of
`read_video` that delivers a picture and hands no empty packet to the decoder
returns with `delay_count ≤ p` whenever the status is `DECODE_INITIALIZED`. -/
theorem delay_count_bounded_on_success {σ : Type} (c : Container) (d : Decoder σ) (p : Nat)
    (hp : VideoHandler σ) (hconst : ∀ s, d.delay s = p)
    (hj : hp.decode_status = .DECODE_INITIALIZED → hp.delay_count ≤ p) :
    (∀ n rap ignore,
      (seek_video c d hp n rap ignore).2.decode_status = .DECODE_REQUIRE_INITIAL ∧
      (seek_video c d hp n rap ignore).2.delay_count ≤ p) ∧
    (∀ current goal count,
      (get_picture c d hp current goal count).hp.drained = hp.drained →
      (((get_picture c d hp current goal count).hp.decode_status = .DECODE_INITIALIZED →
          (get_picture c d hp current goal count).hp.delay_count ≤ p) ∨
        ((get_picture c d hp current goal count).ret = -1 ∧
          (get_picture c d hp current goal count).hp.decode_status = .DECODE_INITIALIZED ∧
          (get_picture c d hp current goal count).hp.delay_count = p + 1))) ∧
    (∀ n,
      (read_video c d hp n).hp.drained = hp.drained →
      (read_video c d hp n).picture ≠ none →
      (read_video c d hp n).hp.decode_status = .DECODE_INITIALIZED →
      (read_video c d hp n).hp.delay_count ≤ p) := by
  refine ⟨fun n rap ignore => ?_, fun current goal count hdr => ?_, fun n => ?_⟩
  · obtain ⟨s1, s2, _⟩ := seek_video_state c d p hconst hp n rap ignore
    exact ⟨s1, s2⟩
  · exact (get_picture_delay c d p hconst hp current goal count).2 hj hdr
  · unfold read_video
    dsimp only
    split
    · exact (read_video_loop_delay c d p hconst (n + 1) 0 hp.seek_mode false hp.last_rap_number
        (n + 1 + hp.delay_count) hp (by decide)).2 hj
    · obtain ⟨s1, s2, s3⟩ := seek_video_state c d p hconst
        (find_random_accessible_point c hp (n + 1) 0).hp (n + 1)
        (find_random_accessible_point c hp (n + 1) 0).rap_number
        ((find_random_accessible_point c hp (n + 1) 0).roll_recovery ||
          decide (hp.seek_mode ≠ SEEK_MODE_NORMAL))
      have hf : (find_random_accessible_point c hp (n + 1) 0).hp.drained = hp.drained := rfl
      intro hdr
      exact (read_video_loop_delay c d p hconst (n + 1) 0 hp.seek_mode
        (find_random_accessible_point c hp (n + 1) 0).roll_recovery
        (find_random_accessible_point c hp (n + 1) 0).rap_number
        (seek_video c d (find_random_accessible_point c hp (n + 1) 0).hp (n + 1)
          (find_random_accessible_point c hp (n + 1) 0).rap_number
          ((find_random_accessible_point c hp (n + 1) 0).roll_recovery ||
            decide (hp.seek_mode ≠ SEEK_MODE_NORMAL))).1
        (seek_video c d (find_random_accessible_point c hp (n + 1) 0).hp (n + 1)
          (find_random_accessible_point c hp (n + 1) 0).rap_number
          ((find_random_accessible_point c hp (n + 1) 0).roll_recovery ||
            decide (hp.seek_mode ≠ SEEK_MODE_NORMAL))).2
        (by decide)).2 (fun _ => s2) (by rw [hdr, s3, hf])

/-- Witness for C13 (amended): the decoder with a delay of one packet, in the
state two reads leave on the three-sample track. -/
theorem delay_count_bounded_on_success_witness :
    (∀ s, delayed_decoder.delay s = 1) ∧
    ((read_video ipp_container delayed_decoder
        (read_video ipp_container delayed_decoder
          (prepare_video_decoding ipp_container true (zeroed_delayed_handler 3 0)).2 0).hp 1
      ).hp.decode_status = .DECODE_INITIALIZED ∧
     (read_video ipp_container delayed_decoder
        (read_video ipp_container delayed_decoder
          (prepare_video_decoding ipp_container true (zeroed_delayed_handler 3 0)).2 0).hp 1
      ).hp.delay_count = 1) ∧
    ((∀ n rap ignore,
      (seek_video ipp_container delayed_decoder
        (read_video ipp_container delayed_decoder
          (read_video ipp_container delayed_decoder
            (prepare_video_decoding ipp_container true (zeroed_delayed_handler 3 0)).2 0).hp 1
        ).hp n rap ignore).2.decode_status = .DECODE_REQUIRE_INITIAL ∧
      (seek_video ipp_container delayed_decoder
        (read_video ipp_container delayed_decoder
          (read_video ipp_container delayed_decoder
            (prepare_video_decoding ipp_container true (zeroed_delayed_handler 3 0)).2 0).hp 1
        ).hp n rap ignore).2.delay_count ≤ 1) ∧
    (∀ current goal count,
      (get_picture ipp_container delayed_decoder
        (read_video ipp_container delayed_decoder
          (read_video ipp_container delayed_decoder
            (prepare_video_decoding ipp_container true (zeroed_delayed_handler 3 0)).2 0).hp 1
        ).hp current goal count).hp.drained
        = (read_video ipp_container delayed_decoder
          (read_video ipp_container delayed_decoder
            (prepare_video_decoding ipp_container true (zeroed_delayed_handler 3 0)).2 0).hp 1
        ).hp.drained →
      (((get_picture ipp_container delayed_decoder
        (read_video ipp_container delayed_decoder
          (read_video ipp_container delayed_decoder
            (prepare_video_decoding ipp_container true (zeroed_delayed_handler 3 0)).2 0).hp 1
        ).hp current goal count).hp.decode_status = .DECODE_INITIALIZED →
          (get_picture ipp_container delayed_decoder
        (read_video ipp_container delayed_decoder
          (read_video ipp_container delayed_decoder
            (prepare_video_decoding ipp_container true (zeroed_delayed_handler 3 0)).2 0).hp 1
        ).hp current goal count).hp.delay_count ≤ 1) ∨
        ((get_picture ipp_container delayed_decoder
        (read_video ipp_container delayed_decoder
          (read_video ipp_container delayed_decoder
            (prepare_video_decoding ipp_container true (zeroed_delayed_handler 3 0)).2 0).hp 1
        ).hp current goal count).ret = -1 ∧
          (get_picture ipp_container delayed_decoder
        (read_video ipp_container delayed_decoder
          (read_video ipp_container delayed_decoder
            (prepare_video_decoding ipp_container true (zeroed_delayed_handler 3 0)).2 0).hp 1
        ).hp current goal count).hp.decode_status = .DECODE_INITIALIZED ∧
          (get_picture ipp_container delayed_decoder
        (read_video ipp_container delayed_decoder
          (read_video ipp_container delayed_decoder
            (prepare_video_decoding ipp_container true (zeroed_delayed_handler 3 0)).2 0).hp 1
        ).hp current goal count).hp.delay_count = 1 + 1))) ∧
    (∀ n,
      (read_video ipp_container delayed_decoder
        (read_video ipp_container delayed_decoder
          (read_video ipp_container delayed_decoder
            (prepare_video_decoding ipp_container true (zeroed_delayed_handler 3 0)).2 0).hp 1
        ).hp n).hp.drained
        = (read_video ipp_container delayed_decoder
          (read_video ipp_container delayed_decoder
            (prepare_video_decoding ipp_container true (zeroed_delayed_handler 3 0)).2 0).hp 1
        ).hp.drained →
      (read_video ipp_container delayed_decoder
        (read_video ipp_container delayed_decoder
          (read_video ipp_container delayed_decoder
            (prepare_video_decoding ipp_container true (zeroed_delayed_handler 3 0)).2 0).hp 1
        ).hp n).picture ≠ none →
      (read_video ipp_container delayed_decoder
        (read_video ipp_container delayed_decoder
          (read_video ipp_container delayed_decoder
            (prepare_video_decoding ipp_container true (zeroed_delayed_handler 3 0)).2 0).hp 1
        ).hp n).hp.decode_status = .DECODE_INITIALIZED →
      (read_video ipp_container delayed_decoder
        (read_video ipp_container delayed_decoder
          (read_video ipp_container delayed_decoder
            (prepare_video_decoding ipp_container true (zeroed_delayed_handler 3 0)).2 0).hp 1
        ).hp n).hp.delay_count ≤ 1)) := by
  have hst : (read_video ipp_container delayed_decoder
        (read_video ipp_container delayed_decoder
          (prepare_video_decoding ipp_container true (zeroed_delayed_handler 3 0)).2 0).hp 1
      ).hp.decode_status = .DECODE_INITIALIZED ∧
     (read_video ipp_container delayed_decoder
        (read_video ipp_container delayed_decoder
          (prepare_video_decoding ipp_container true (zeroed_delayed_handler 3 0)).2 0).hp 1
      ).hp.delay_count = 1 := by
    simp [read_video, read_video_loop, read_video_attempt, get_picture, get_picture_loop,
      flush_at_end, settle_delay, leave_require_initial, count_delay, decode_video_sample,
      get_sample, ipp_container, delayed_decoder, zeroed_delayed_handler, seek_video,
      seek_video_start, seek_video_loop, skip_frame_default_at, find_random_accessible_point,
      flush_buffers, get_decoding_sample_number, sub32, U32, prepare_video_decoding,
      create_keyframe_list, keyframe_step, SEEK_MODE_UNSAFE, SEEK_MODE_NORMAL,
      SEEK_MODE_AGGRESSIVE, MAX_ERROR_COUNT]
  exact ⟨fun _ => rfl, hst,
    delay_count_bounded_on_success ipp_container delayed_decoder 1 _ (fun _ => rfl)
      (fun _ => le_of_eq hst.2)⟩

/-- C13, counterexample. A decoder without delay consumes the packet of sample
3 without an error and without a picture.  After reads of the frames 0 and 1
the status is `DECODE_INITIALIZED` with `delay_count = 0`; the read of frame 2
then fails, and `get_picture` returns -1, and under `SEEK_MODE_AGGRESSIVE`
`read_video` returns 0, in the status `DECODE_INITIALIZED` with
`delay_count = 1`, above the decoder delay 0. -/
theorem failing_return_leaves_delay_count_above_depth :
    (∀ s, mute_third_decoder.delay s = 0) ∧
    (read_video ipp_container mute_third_decoder
      (read_video ipp_container mute_third_decoder
        (prepare_video_decoding ipp_container true (zeroed_handler 3 2)).2 0).hp 1
      ).hp.decode_status = .DECODE_INITIALIZED ∧
    (read_video ipp_container mute_third_decoder
      (read_video ipp_container mute_third_decoder
        (prepare_video_decoding ipp_container true (zeroed_handler 3 2)).2 0).hp 1
      ).hp.delay_count = 0 ∧
    (get_picture ipp_container mute_third_decoder
      (read_video ipp_container mute_third_decoder
        (read_video ipp_container mute_third_decoder
          (prepare_video_decoding ipp_container true (zeroed_handler 3 2)).2 0).hp 1).hp
      3 3 3).ret = -1 ∧
    (get_picture ipp_container mute_third_decoder
      (read_video ipp_container mute_third_decoder
        (read_video ipp_container mute_third_decoder
          (prepare_video_decoding ipp_container true (zeroed_handler 3 2)).2 0).hp 1).hp
      3 3 3).hp.decode_status = .DECODE_INITIALIZED ∧
    (get_picture ipp_container mute_third_decoder
      (read_video ipp_container mute_third_decoder
        (read_video ipp_container mute_third_decoder
          (prepare_video_decoding ipp_container true (zeroed_handler 3 2)).2 0).hp 1).hp
      3 3 3).hp.delay_count = 1 ∧
    (read_video ipp_container mute_third_decoder
      (read_video ipp_container mute_third_decoder
        (read_video ipp_container mute_third_decoder
          (prepare_video_decoding ipp_container true (zeroed_handler 3 2)).2 0).hp 1).hp
      2).ret = 0 ∧
    (read_video ipp_container mute_third_decoder
      (read_video ipp_container mute_third_decoder
        (read_video ipp_container mute_third_decoder
          (prepare_video_decoding ipp_container true (zeroed_handler 3 2)).2 0).hp 1).hp
      2).hp.decode_status = .DECODE_INITIALIZED ∧
    (read_video ipp_container mute_third_decoder
      (read_video ipp_container mute_third_decoder
        (read_video ipp_container mute_third_decoder
          (prepare_video_decoding ipp_container true (zeroed_handler 3 2)).2 0).hp 1).hp
      2).hp.delay_count = 1 ∧
    (read_video ipp_container mute_third_decoder
      (read_video ipp_container mute_third_decoder
        (read_video ipp_container mute_third_decoder
          (prepare_video_decoding ipp_container true (zeroed_handler 3 2)).2 0).hp 1).hp
      2).hp.drained = 0 := by
  simp [read_video, read_video_loop, read_video_attempt, get_picture, get_picture_loop,
    flush_at_end, settle_delay, leave_require_initial, count_delay, decode_video_sample,
    get_sample, ipp_container, mute_third_decoder, simple_decoder, zeroed_handler, seek_video,
    seek_video_start, seek_video_loop, skip_frame_default_at, find_random_accessible_point,
    flush_buffers, get_decoding_sample_number, sub32, U32, prepare_video_decoding,
    create_keyframe_list, keyframe_step, SEEK_MODE_UNSAFE, SEEK_MODE_NORMAL,
    SEEK_MODE_AGGRESSIVE, MAX_ERROR_COUNT]

/-! ## Audio track binding: priming from the edit list -/

/-- The loop over the explicit edits, entered at edit number `e` with `n`
edits left, when the first `t` of them have a duration and a negative start
time: if the next edit has a duration and a start time of at least 0, the loop
leaves the low 32 bits of that start time; if there is no next edit, or its
lookup fails, or its duration is 0, the loop leaves the value it was entered
with. -/
theorem edit_loop_scan (m : Movie) (id p : Nat) (n e t : Nat) (ht : t ≤ n)
    (hskip : ∀ j, j < t → ∃ ed, m.explicit_timeline_map id (e + j) = some ed ∧
      ed.duration ≠ 0 ∧ ed.start_time < 0) :
    (t < n → ∀ ed, m.explicit_timeline_map id (e + t) = some ed → ed.duration ≠ 0 →
      0 ≤ ed.start_time → edit_loop m id p e n = (ed.start_time % (U32 : Int)).toNat) ∧
    ((t = n ∨ m.explicit_timeline_map id (e + t) = none ∨
        ∃ ed, m.explicit_timeline_map id (e + t) = some ed ∧ ed.duration = 0) →
      edit_loop m id p e n = p) := by
  induction n generalizing e t with
  | zero => exact ⟨fun h => absurd h (by omega), fun _ => rfl⟩
  | succ n ih =>
    cases t with
    | zero =>
      refine ⟨fun _ ed hed hdur hst => ?_, fun h => ?_⟩
      · rw [Nat.add_zero] at hed
        unfold edit_loop
        simp only [hed, if_neg hdur, ge_iff_le, if_pos hst]
      · simp only [Nat.add_zero] at h
        unfold edit_loop
        rcases h with h | h | ⟨ed, hed, hdur⟩
        · omega
        · simp only [h]
        · simp only [hed, if_pos hdur]
    | succ t =>
      obtain ⟨ed0, h0, hd0, hs0⟩ := hskip 0 (by omega)
      rw [Nat.add_zero] at h0
      have hstep : edit_loop m id p e (n + 1) = edit_loop m id p (e + 1) n := by
        conv => lhs; unfold edit_loop
        simp only [h0, if_neg hd0, ge_iff_le, if_neg (not_le.mpr hs0)]
      have hadd : ∀ j, e + 1 + j = e + (j + 1) := fun j => by omega
      obtain ⟨i1, i2⟩ := ih (e + 1) t (by omega) (fun j hj => by
        rw [hadd]; exact hskip (j + 1) (by omega))
      rw [hadd] at i1 i2
      rw [hstep]
      exact ⟨fun h => i1 (by omega), fun h => i2 (by
        rcases h with h | h
        · exact Or.inl (by omega)
        · exact Or.inr h)⟩

/-- C12, amended. When `get_first_track_of_type` binds the audio track (the
track is found and its timeline is constructed): without roll grouping in the
media parameters `priming_samples` is left as it was, whatever the edit list
is; with roll grouping, after skipping the leading edits that have a duration
and a negative start time, `priming_samples` is the low 32 bits of the start
time of the next edit when that edit has a duration and a start time of at
least 0 (the start time itself when it is below `2 ^ 32`), and is left as it
was when there is no next edit, its lookup fails or its duration is 0. -/
theorem priming_samples_from_edit_list (m : Movie) (type n id0 : Nat) (hp : AudioHandler)
    (track_ID : Nat) (media_param : MediaParameters) (t : Nat)
    (hfind : track_loop m type 1 n = some (track_ID, media_param))
    (hct : m.construct_timeline_ok track_ID = true)
    (ht : t ≤ m.explicit_timeline_map_count track_ID)
    (hskip : ∀ j, j < t → ∃ ed, m.explicit_timeline_map track_ID (1 + j) = some ed ∧
      ed.duration ≠ 0 ∧ ed.start_time < 0) :
    (get_first_track_of_type m type n id0 hp).audio_track_ID = track_ID ∧
    (media_param.roll_grouping = false →
      (get_first_track_of_type m type n id0 hp).hp.priming_samples = hp.priming_samples) ∧
    (media_param.roll_grouping = true →
      (t < m.explicit_timeline_map_count track_ID →
        ∀ ed, m.explicit_timeline_map track_ID (1 + t) = some ed → ed.duration ≠ 0 →
          0 ≤ ed.start_time →
          (get_first_track_of_type m type n id0 hp).hp.priming_samples
            = (ed.start_time % (U32 : Int)).toNat ∧
          (ed.start_time < (U32 : Int) →
            ((get_first_track_of_type m type n id0 hp).hp.priming_samples : Int)
              = ed.start_time)) ∧
      ((t = m.explicit_timeline_map_count track_ID ∨
          m.explicit_timeline_map track_ID (1 + t) = none ∨
          ∃ ed, m.explicit_timeline_map track_ID (1 + t) = some ed ∧ ed.duration = 0) →
        (get_first_track_of_type m type n id0 hp).hp.priming_samples = hp.priming_samples)) := by
  obtain ⟨s1, s2⟩ := edit_loop_scan m track_ID hp.priming_samples
    (m.explicit_timeline_map_count track_ID) 1 t ht hskip
  have hid : (get_first_track_of_type m type n id0 hp).audio_track_ID = track_ID := by
    unfold get_first_track_of_type
    simp only [hfind, hct, Bool.not_true, Bool.false_eq_true, if_false]
    split_ifs <;> rfl
  have hpr : (get_first_track_of_type m type n id0 hp).hp.priming_samples
      = if media_param.roll_grouping = true then
          edit_loop m track_ID hp.priming_samples 1 (m.explicit_timeline_map_count track_ID)
        else hp.priming_samples := by
    unfold get_first_track_of_type
    simp only [hfind, hct, Bool.not_true, Bool.false_eq_true, if_false]
    split_ifs <;> rfl
  refine ⟨hid, fun hr => ?_, fun hr => ⟨fun hlt ed hed hdur hst => ?_, fun h => ?_⟩⟩
  · rw [hpr, hr]; rfl
  · rw [hpr, if_pos hr, s1 hlt ed hed hdur hst]
    refine ⟨rfl, fun hlt32 => ?_⟩
    rw [Int.emod_eq_of_lt hst hlt32]
    exact Int.toNat_of_nonneg hst
  · rw [hpr, if_pos hr, s2 h]

/-- Witness for C12 (amended): a track with roll grouping whose edit list is a
negative edit followed by an edit that starts at 1024. -/
theorem priming_samples_from_edit_list_witness :
    track_loop (one_track_movie true [⟨100, -1⟩, ⟨3072, 1024⟩]) 7 1 1 = some (1, ⟨7, true⟩) ∧
    (get_first_track_of_type (one_track_movie true [⟨100, -1⟩, ⟨3072, 1024⟩]) 7 1 0
      zeroed_audio_handler).ret = 0 ∧
    (get_first_track_of_type (one_track_movie true [⟨100, -1⟩, ⟨3072, 1024⟩]) 7 1 0
      zeroed_audio_handler).hp.priming_samples = 1024 :=
  ⟨rfl, rfl,
    ((priming_samples_from_edit_list (one_track_movie true [⟨100, -1⟩, ⟨3072, 1024⟩]) 7 1 0
      zeroed_audio_handler 1 ⟨7, true⟩ 1 rfl rfl (by decide)
      (fun j hj => match j, hj with
        | 0, _ => ⟨⟨100, -1⟩, rfl, by decide, by decide⟩)).2.2 rfl).1 (by decide)
      ⟨3072, 1024⟩ rfl (by decide) (by decide) |>.1⟩

/-- C12, counterexample. An audio track without roll grouping whose edit list
has one edit, with a duration and the start time 1024: the track is bound and
`priming_samples` stays 0. -/
theorem edit_list_ignored_without_roll_grouping :
    (one_track_movie false [⟨3072, 1024⟩]).explicit_timeline_map_count 1 = 1 ∧
    (one_track_movie false [⟨3072, 1024⟩]).explicit_timeline_map 1 1 = some ⟨3072, 1024⟩ ∧
    (get_first_track_of_type (one_track_movie false [⟨3072, 1024⟩]) 7 1 0
      zeroed_audio_handler).ret = 0 ∧
    (get_first_track_of_type (one_track_movie false [⟨3072, 1024⟩]) 7 1 0
      zeroed_audio_handler).audio_track_ID = 1 ∧
    (get_first_track_of_type (one_track_movie false [⟨3072, 1024⟩]) 7 1 0
      zeroed_audio_handler).hp.priming_samples = 0 ∧
    (get_first_track_of_type (one_track_movie true [⟨3072, 1024⟩]) 7 1 0
      zeroed_audio_handler).hp.priming_samples = 1024 :=
  ⟨rfl, rfl, rfl, rfl, rfl, by decide⟩

/-! ## Audio engine: frame walk and data offset -/

/-- The frame walk of the seek path, entered at frame `k` with the position
`acc` not past `start`, when frame lengths and the frame count are `uint32_t`
values: at every exit `next_frame_pos ≤ start + frame_length`. -/
theorem frame_walk_position (a : AudioTrack) (hp : AudioHandler) (start : Nat)
    (hcount : hp.audio_frame_count < U32)
    (hlen : ∀ k l, get_frame_length a hp k = some l → l < U32)
    (k acc fl : Nat) (hk : 1 ≤ k) (hk2 : k ≤ hp.audio_frame_count + 1) (hacc : acc ≤ start)
    (hsum : acc ≤ (k - 1) * (U32 - 1)) :
    (frame_walk a hp start k acc fl).2.1 ≤ start + (frame_walk a hp start k acc fl).2.2 := by
  generalize hm : hp.audio_frame_count + 1 - k = m
  induction m using Nat.strong_induction_on generalizing k acc fl with
  | _ m ih =>
    rw [frame_walk]
    cases hg : get_frame_length a hp k with
    | none => exact Nat.le_add_right_of_le hacc
    | some l =>
      have hl := hlen k l hg
      have hU32 : U32 = 4294967296 := by decide
      have hU64 : U64 = 18446744073709551616 := by decide
      rw [hU32] at hl hcount hsum
      have hmul : (k - 1) * (4294967296 - 1) + 4294967295 = k * (4294967296 - 1) := by
        have : k = (k - 1) + 1 := by omega
        conv => rhs; rw [this, Nat.succ_mul]
      have hno : (acc + l) % U64 = acc + l := by
        apply Nat.mod_eq_of_lt
        rw [hU64]
        have h1 : k * (4294967296 - 1) ≤ 4294967296 * (4294967296 - 1) :=
          Nat.mul_le_mul_right _ (by omega)
        omega
      dsimp only
      rw [hno]
      split
      · show acc + l ≤ start + l
        omega
      · rename_i hlt
        split
        · refine ih (hp.audio_frame_count + 1 - (k + 1)) (by omega) (k + 1) (acc + l) l
            (by omega) (by omega) (by omega) ?_ rfl
          rw [hU32, Nat.add_sub_cancel]
          omega
        · show acc + l ≤ start + l
          omega

/-- The frame walk of the seek path with a constant frame length `L > 0`,
entered at frame `k` with the position `(k - 1) * L` not past `start`, for a
`start` below `audio_frame_count * L`: the walk stops at frame
`start / L + 1` with the position `(start / L + 1) * L`. -/
theorem frame_walk_constant (a : AudioTrack) (hp : AudioHandler) (start L : Nat)
    (hL : hp.audio_frame_length = L) (hpos : 0 < L)
    (hstart : start < hp.audio_frame_count * L) (hno : start + L < U64)
    (k fl : Nat) (hk : 1 ≤ k) (hacc : (k - 1) * L ≤ start) :
    frame_walk a hp start k ((k - 1) * L) fl = (start / L + 1, (start / L + 1) * L, L) := by
  generalize hm : hp.audio_frame_count + 1 - k = m
  induction m using Nat.strong_induction_on generalizing k fl with
  | _ m ih =>
    have hkL : (k - 1) * L + L = k * L := by
      have : k = (k - 1) + 1 := by omega
      conv => rhs; rw [this, Nat.succ_mul]
    have hg : get_frame_length a hp k = some L := by
      unfold get_frame_length
      rw [if_neg (by omega), hL]
    rw [frame_walk, hg]
    dsimp only
    rw [hkL, Nat.mod_eq_of_lt (by omega)]
    by_cases hlt : start < k * L
    · rw [if_pos hlt]
      have hdiv : start / L = k - 1 :=
        Nat.div_eq_of_lt_le hacc (by rw [Nat.sub_add_cancel hk]; exact hlt)
      rw [hdiv, Nat.sub_add_cancel hk]
    · rw [if_neg hlt]
      have hkc : k < hp.audio_frame_count := by
        by_contra hc
        have := Nat.mul_le_mul_right L (not_lt.mp hc)
        omega
      rw [if_pos (by omega)]
      have := ih (hp.audio_frame_count + 1 - (k + 1)) (by omega) (k + 1) L (by omega)
        (by rw [Nat.add_sub_cancel]; omega) rfl
      rw [Nat.add_sub_cancel] at this
      exact this

/-- C18, amended. On the audio seek path, with frame lengths and the frame
count in the range of `uint32_t`: at every exit of the frame walk
`next_frame_pos ≤ start + frame_length`, so that
`priming + start + frame_length - next_frame_pos` is not negative, and
`data_offset` is that quantity times `block_align` (in `uint64_t`) whenever the
`uint32_t` sum `priming + start + frame_length` does not wrap.  With a constant
frame length `L > 0` and `start < audio_frame_count * L` the located frame is
`start / L + 1`, and `data_offset = (priming + start % L) * block_align`
whenever `priming + start + L < 2 ^ 32` and the product is below `2 ^ 64`. -/
theorem seek_position_of_frame_walk (a : AudioTrack) (hp : AudioHandler) (start : Nat)
    (hcount : hp.audio_frame_count < U32)
    (hlen : ∀ k l, get_frame_length a hp k = some l → l < U32) :
    (frame_walk a hp start 1 0 0).2.1 ≤ start + (frame_walk a hp start 1 0 0).2.2 ∧
    (∀ priming block_align, priming + start + (frame_walk a hp start 1 0 0).2.2 < U32 →
      seek_data_offset priming start (frame_walk a hp start 1 0 0).2.2
          (frame_walk a hp start 1 0 0).2.1 block_align
        = ((priming + start + (frame_walk a hp start 1 0 0).2.2
            - (frame_walk a hp start 1 0 0).2.1) * block_align) % U64) ∧
    (∀ L, hp.audio_frame_length = L → 0 < L → start < hp.audio_frame_count * L →
      (audio_seek_position a hp start).1 = start / L + 1 ∧
      (get_priming_samples a hp (start / L + 1) L + start + L < U32 →
        (get_priming_samples a hp (start / L + 1) L + start % L) * hp.block_align < U64 →
        (audio_seek_position a hp start).2
          = (get_priming_samples a hp (start / L + 1) L + start % L) * hp.block_align)) := by
  have hU : U32 < U64 := by decide
  have hinv := frame_walk_position a hp start hcount hlen 1 0 0 (le_refl _) (by omega)
    (Nat.zero_le _) (by simp)
  refine ⟨hinv, fun priming block_align hsum => ?_, fun L hL hpos hstart => ?_⟩
  · unfold seek_data_offset
    rw [Nat.mod_eq_of_lt hsum, sub64_eq_sub _ _ (by omega) (by omega)]
  · have hLlt : L < U32 := hlen 1 L (by
      unfold get_frame_length
      rw [if_neg (by omega), hL])
    have hno : start + L < U64 := by
      have h1 : hp.audio_frame_count * L ≤ 4294967295 * 4294967295 :=
        Nat.mul_le_mul (by rw [show U32 = 4294967296 by decide] at hcount; omega)
          (by rw [show U32 = 4294967296 by decide] at hLlt; omega)
      rw [show U32 = 4294967296 by decide] at hLlt
      rw [show U64 = 18446744073709551616 by decide]
      omega
    have hw := frame_walk_constant a hp start L hL hpos hstart hno 1 0 (le_refl _) (by simp)
    rw [Nat.sub_self, Nat.zero_mul] at hw
    unfold audio_seek_position
    dsimp only
    rw [hw]
    refine ⟨rfl, fun h1 h2 => ?_⟩
    show seek_data_offset _ start L ((start / L + 1) * L) hp.block_align = _
    unfold seek_data_offset
    have hdm := Nat.div_add_mod start L
    have hmul : (start / L + 1) * L = L * (start / L) + L := by
      rw [Nat.succ_mul, Nat.mul_comm]
    rw [Nat.mod_eq_of_lt h1, sub64_eq_sub _ _ (by omega) (by omega)]
    have hq : get_priming_samples a hp (start / L + 1) L + start + L - (start / L + 1) * L
        = get_priming_samples a hp (start / L + 1) L + start % L := by omega
    rw [hq, Nat.mod_eq_of_lt h2]

/-- Witness for C18 (amended): the track of constant frame length 1024 with
1024 priming samples, sought at PCM sample 1500. -/
theorem seek_position_of_frame_walk_witness :
    aac_handler.audio_frame_count < U32 ∧
    (audio_seek_position (four_byte_track (some 1)) aac_handler 1500).1 = 1500 / 1024 + 1 ∧
    (audio_seek_position (four_byte_track (some 1)) aac_handler 1500).2
      = (get_priming_samples (four_byte_track (some 1)) aac_handler (1500 / 1024 + 1) 1024
          + 1500 % 1024) * aac_handler.block_align ∧
    get_priming_samples (four_byte_track (some 1)) aac_handler (1500 / 1024 + 1) 1024 = 1024 := by
  have hg : get_priming_samples (four_byte_track (some 1)) aac_handler (1500 / 1024 + 1) 1024
      = 1024 := by
    simp [get_priming_samples, four_byte_track, aac_handler, priming_loop]
  have h := (seek_position_of_frame_walk (four_byte_track (some 1)) aac_handler 1500 (by decide)
    (fun k l hk => by
      simp only [get_frame_length, aac_handler] at hk
      rw [if_neg (by decide)] at hk
      cases hk
      decide)).2.2 1024 rfl (by decide) (by decide)
  exact ⟨by decide, h.1, h.2 (by rw [hg]; decide) (by rw [hg]; decide), hg⟩

/-- C18, counterexample. Constant frame length 4, three frames, one byte per
sample, `priming_samples = 2 ^ 32 - 1` and a pre-roll distance of 1: the seek
to PCM sample 0 locates frame 1, but the `uint32_t` sum
`priming + start + frame_length` wraps to 3, below `next_frame_pos = 4`, and
`data_offset` is `2 ^ 64 - 1`, not `(priming + start % L) * block_align`. -/
theorem seek_data_offset_wraps :
    (0 : Nat) < (four_byte_handler 4294967295).audio_frame_count
      * (four_byte_handler 4294967295).audio_frame_length ∧
    get_priming_samples (four_byte_track (some 1)) (four_byte_handler 4294967295) 1 4
      = 4294967295 ∧
    frame_walk (four_byte_track (some 1)) (four_byte_handler 4294967295) 0 1 0 0 = (1, 4, 4) ∧
    (4294967295 + 0 + 4) % U32 = 3 ∧
    audio_seek_position (four_byte_track (some 1)) (four_byte_handler 4294967295) 0
      = (1, 18446744073709551615) ∧
    (4294967295 + 0 % 4) * (four_byte_handler 4294967295).block_align ≠ 18446744073709551615 := by
  have hw : frame_walk (four_byte_track (some 1)) (four_byte_handler 4294967295) 0 1 0 0
      = (1, 4, 4) := by
    rw [frame_walk]
    simp [get_frame_length, four_byte_handler, U64]
  have hg : get_priming_samples (four_byte_track (some 1)) (four_byte_handler 4294967295) 1 4
      = 4294967295 := by
    simp [get_priming_samples, four_byte_track, four_byte_handler, priming_loop]
  refine ⟨by decide, hg, hw, by decide, ?_, by decide⟩
  unfold audio_seek_position
  dsimp only
  rw [hw]
  show (1, seek_data_offset (get_priming_samples (four_byte_track (some 1))
    (four_byte_handler 4294967295) 1 4) 0 4 4 (four_byte_handler 4294967295).block_align) = _
  rw [hg]
  decide

/-! ## Audio engine: the end of the decoded frames -/

/-- Copying from a chunk of `c` bytes: what is delivered, counted in bytes,
plus the data offset consumed is at most `c`; the data offset does not grow;
nothing is delivered while a data offset remains; `block_align` stays. -/
theorem consume_chunk_budget (chunk : List Nat) (st : AudioState) :
    (consume_chunk chunk st).output_length * st.hp.block_align + st.data_offset
      ≤ st.output_length * st.hp.block_align + chunk.length
        + (consume_chunk chunk st).data_offset ∧
    (consume_chunk chunk st).data_offset ≤ st.data_offset ∧
    (0 < (consume_chunk chunk st).data_offset →
      (consume_chunk chunk st).output_length = st.output_length) ∧
    (consume_chunk chunk st).hp.block_align = st.hp.block_align := by
  unfold consume_chunk
  dsimp only
  have hdiv : min (chunk.length - st.data_offset) (st.wanted_length * st.hp.block_align)
      / st.hp.block_align * st.hp.block_align
      ≤ chunk.length - st.data_offset :=
    le_trans (Nat.div_mul_le_self _ _) (Nat.min_le_left _ _)
  split
  · dsimp only
    refine ⟨?_, Nat.zero_le _, fun h => absurd h (by omega), rfl⟩
    rw [Nat.add_mul]
    omega
  · dsimp only
    exact ⟨by omega, by omega, fun _ => rfl, rfl⟩

/-- The inner loop of `read_audio` over the decode calls of one packet, with
the bound of `consume_chunk_budget` for all the bytes the calls decode. -/
theorem decode_packet_budget (calls : List (Option (List Nat))) (st : AudioState) :
    (decode_packet calls st).2.output_length * st.hp.block_align + st.data_offset
      ≤ st.output_length * st.hp.block_align + decoded_bytes calls
        + (decode_packet calls st).2.data_offset ∧
    (decode_packet calls st).2.data_offset ≤ st.data_offset ∧
    (0 < (decode_packet calls st).2.data_offset →
      (decode_packet calls st).2.output_length = st.output_length) ∧
    (decode_packet calls st).2.hp.block_align = st.hp.block_align := by
  induction calls generalizing st with
  | nil => exact ⟨by simp [decode_packet], le_refl _, fun _ => rfl, rfl⟩
  | cons call rest ih =>
    cases call with
    | none => exact ⟨by simp [decode_packet], le_refl _, fun _ => rfl, rfl⟩
    | some chunk =>
      obtain ⟨c1, c2, c3, c4⟩ := consume_chunk_budget chunk st
      rw [decode_packet, decoded_bytes]
      split
      · exact ⟨by
          show (consume_chunk chunk st).output_length * _ + _ ≤ _ + (consume_chunk chunk st).data_offset
          omega, c2, c3, c4⟩
      · obtain ⟨i1, i2, i3, i4⟩ := ih (consume_chunk chunk st)
        rw [c4] at i1
        refine ⟨by omega, by omega, fun h => ?_, by rw [i4, c4]⟩
        rw [i3 h, c3 (by omega)]

/-- The outer loop of `read_audio` from frame `frame`, when no packet decodes
to more than `M` bytes: what is delivered, counted in bytes, plus the data
offset consumed is at most `M` times the number of frames left. -/
theorem audio_decode_loop_budget (a : AudioTrack) (M : Nat)
    (hM : ∀ k, decoded_bytes (a.decode k) ≤ M) (frame : Nat) (st : AudioState) :
    (audio_decode_loop a frame st).2.output_length * st.hp.block_align + st.data_offset
      ≤ st.output_length * st.hp.block_align + (a.sample_count + 1 - frame) * M
        + (audio_decode_loop a frame st).2.data_offset ∧
    (audio_decode_loop a frame st).2.data_offset ≤ st.data_offset ∧
    (0 < (audio_decode_loop a frame st).2.data_offset →
      (audio_decode_loop a frame st).2.output_length = st.output_length) ∧
    (audio_decode_loop a frame st).2.hp.block_align = st.hp.block_align := by
  generalize hm : a.sample_count + 1 - frame = m
  induction m using Nat.strong_induction_on generalizing frame st with
  | _ m ih =>
    rw [audio_decode_loop]
    dsimp only
    split
    · rename_i hs
      obtain ⟨p1, p2, p3, p4⟩ := decode_packet_budget (a.decode frame) { st with copy_size := 0 }
      have hMf := hM frame
      simp only [get_audio_sample, Bool.and_eq_true, decide_eq_true_eq] at hs
      have hmul : m * M = (a.sample_count + 1 - (frame + 1)) * M + M := by
        have : m = (a.sample_count + 1 - (frame + 1)) + 1 := by omega
        conv => lhs; rw [this, Nat.succ_mul]
      dsimp only at p1 p2 p3 p4
      split
      · exact ⟨by rw [hmul]; dsimp only; omega, p2, p3, p4⟩
      · obtain ⟨i1, i2, i3, i4⟩ := ih (a.sample_count + 1 - (frame + 1)) (by omega) (frame + 1)
          (decode_packet (a.decode frame) { st with copy_size := 0 }).2 rfl
        rw [p4] at i1
        refine ⟨by rw [hmul]; omega, by omega, fun h => ?_, by rw [i4, p4]⟩
        rw [i3 h, p3 (by omega)]
    · exact ⟨by
        show st.output_length * _ + _ ≤ _ + st.data_offset
        omega, le_refl _, fun _ => rfl, rfl⟩

/-- The seek of `read_audio` resets no field that `get_priming_samples`
reads. -/
theorem get_priming_samples_reset (a : AudioTrack) (hp : AudioHandler) (frame fl : Nat) :
    get_priming_samples a (reset_for_seek hp) frame fl = get_priming_samples a hp frame fl := by
  have hloop : ∀ k i m, priming_loop a (reset_for_seek hp) frame k i m
      = priming_loop a hp frame k i m := by
    intro k
    induction k with
    | zero => intro i m; rfl
    | succ k ih =>
      intro i m
      rw [priming_loop, priming_loop]
      have hg : get_frame_length a (reset_for_seek hp) ((frame + i) % U32)
          = get_frame_length a hp ((frame + i) % U32) := rfl
      rw [hg]
      split
      · rfl
      · exact ih _ _
  unfold get_priming_samples
  split
  · rfl
  · rw [hloop]
    rfl

/-- The position the seek path starts from, with a constant frame length
`L > 0` and a `start` below `audio_frame_count * L`, when the `uint32_t` sum
and the `uint64_t` product do not wrap. -/
theorem audio_seek_position_constant (a : AudioTrack) (hp : AudioHandler) (start L : Nat)
    (hL : hp.audio_frame_length = L) (hpos : 0 < L)
    (hstart : start < hp.audio_frame_count * L)
    (hw1 : get_priming_samples a hp (start / L + 1) L + start + L < U32)
    (hw2 : (get_priming_samples a hp (start / L + 1) L + start % L) * hp.block_align < U64) :
    audio_seek_position a hp start
      = (start / L + 1,
          (get_priming_samples a hp (start / L + 1) L + start % L) * hp.block_align) := by
  have hU : U32 < U64 := by decide
  have hw := frame_walk_constant a hp start L hL hpos hstart (by omega) 1 0 (le_refl _) (by simp)
  rw [Nat.sub_self, Nat.zero_mul] at hw
  unfold audio_seek_position
  dsimp only
  rw [hw]
  show (start / L + 1, seek_data_offset _ start L ((start / L + 1) * L) hp.block_align) = _
  unfold seek_data_offset
  have hdm := Nat.div_add_mod start L
  have hmul : (start / L + 1) * L = L * (start / L) + L := by
    rw [Nat.succ_mul, Nat.mul_comm]
  rw [Nat.mod_eq_of_lt hw1, sub64_eq_sub _ _ (by omega) (by omega)]
  have hq : get_priming_samples a hp (start / L + 1) L + start + L - (start / L + 1) * L
      = get_priming_samples a hp (start / L + 1) L + start % L := by omega
  rw [hq, Nat.mod_eq_of_lt hw2]

/-- C11, amended. A `read_audio(start, w)` that seeks, on a track of constant
frame length `L > 0` whose packets decode to at most `L * block_align` bytes
each, with `start < audio_frame_count * L` (and no wrap in the data offset):
the returned count `d` is at most `w`, and `start + d` is at most
`audio_frame_count * L`, the PCM length of the decoded frames; when something
is delivered, `start + d + priming ≤ audio_frame_count * L`, where `priming` is
the value of `get_priming_samples` for the located frame.  The field
`audio_pcm_sample_count` does not occur in the bound. -/
theorem read_audio_seek_within_frames (a : AudioTrack) (hp : AudioHandler)
    (start w L : Nat)
    (hseek : start % U32 ≠ hp.next_audio_pcm_sample_number)
    (hL : hp.audio_frame_length = L) (hpos : 0 < L)
    (hsc : a.sample_count = hp.audio_frame_count)
    (hstart : start < hp.audio_frame_count * L)
    (hba : 0 < hp.block_align)
    (hM : ∀ k, decoded_bytes (a.decode k) ≤ L * hp.block_align)
    (hw1 : get_priming_samples a hp (start / L + 1) L + start + L < U32)
    (hw2 : (get_priming_samples a hp (start / L + 1) L + start % L) * hp.block_align < U64) :
    (read_audio a hp start w).output_length ≤ w ∧
    start + (read_audio a hp start w).output_length ≤ hp.audio_frame_count * L ∧
    ((read_audio a hp start w).output_length = 0 ∨
      start + (read_audio a hp start w).output_length
        + get_priming_samples a hp (start / L + 1) L ≤ hp.audio_frame_count * L) := by
  have hr : read_audio a hp start w = read_audio_seek a hp start w := by
    unfold read_audio
    rw [if_neg hseek]
  have hpos' := audio_seek_position_constant a (reset_for_seek hp) start L hL hpos hstart
    (by rw [get_priming_samples_reset]; exact hw1)
    (by rw [get_priming_samples_reset]; exact hw2)
  rw [get_priming_samples_reset] at hpos'
  have hba' : (reset_for_seek hp).block_align = hp.block_align := rfl
  rw [hba'] at hpos'
  obtain ⟨b1, b2, b3, _⟩ := audio_decode_loop_budget a (L * hp.block_align) hM (start / L + 1)
    { data_offset := (get_priming_samples a hp (start / L + 1) L + start % L) * hp.block_align,
      copy_size := 0, output_length := 0, wanted_length := w, out := [],
      hp := reset_for_seek hp }
  have hout : (read_audio_seek a hp start w).output_length
      = (audio_decode_loop a (start / L + 1)
          { data_offset :=
              (get_priming_samples a hp (start / L + 1) L + start % L) * hp.block_align,
            copy_size := 0, output_length := 0, wanted_length := w, out := [],
            hp := reset_for_seek hp }).2.output_length := by
    unfold read_audio_seek
    dsimp only
    rw [hpos']
    exact (audio_out_fields _ _ _).1
  have hq : start / L < hp.audio_frame_count := by
    by_contra hc
    have h1 := Nat.mul_le_mul_right L (not_lt.mp hc)
    have h2 := Nat.div_mul_le_self start L
    omega
  have hdm := Nat.div_add_mod start L
  have hmain : (read_audio_seek a hp start w).output_length = 0 ∨
      start + (read_audio_seek a hp start w).output_length
        + get_priming_samples a hp (start / L + 1) L ≤ hp.audio_frame_count * L := by
    rw [hout]
    by_cases hd : 0 < (audio_decode_loop a (start / L + 1)
          { data_offset :=
              (get_priming_samples a hp (start / L + 1) L + start % L) * hp.block_align,
            copy_size := 0, output_length := 0, wanted_length := w, out := [],
            hp := reset_for_seek hp }).2.data_offset
    · exact Or.inl (b3 hd)
    · right
      dsimp only at b1
      rw [hba', hsc, Nat.zero_mul, Nat.zero_add] at b1
      have hcnt : hp.audio_frame_count + 1 - (start / L + 1)
          = hp.audio_frame_count - start / L := by omega
      rw [hcnt] at b1
      have b1' : ((audio_decode_loop a (start / L + 1)
          { data_offset :=
              (get_priming_samples a hp (start / L + 1) L + start % L) * hp.block_align,
            copy_size := 0, output_length := 0, wanted_length := w, out := [],
            hp := reset_for_seek hp }).2.output_length
            + (get_priming_samples a hp (start / L + 1) L + start % L)) * hp.block_align
          ≤ ((hp.audio_frame_count - start / L) * L) * hp.block_align := by
        rw [Nat.add_mul, Nat.mul_assoc]
        omega
      have b2' := Nat.le_of_mul_le_mul_right b1' hba
      rw [Nat.sub_mul] at b2'
      have h3 : start / L * L ≤ hp.audio_frame_count * L :=
        Nat.mul_le_mul_right L (le_of_lt hq)
      have h4 : start / L * L = L * (start / L) := Nat.mul_comm _ _
      omega
  rw [hr]
  refine ⟨(read_audio_seek_fields a hp start w).1, ?_, hmain⟩
  rcases hmain with h | h
  · rw [h]; omega
  · omega

/-- Witness for C11 (amended): the last PCM sample of the three frames of
`four_byte_track`, ten samples wanted. -/
theorem read_audio_seek_within_frames_witness :
    (read_audio (four_byte_track none) (four_byte_handler 0) 11 10).output_length ≤ 10 ∧
    11 + (read_audio (four_byte_track none) (four_byte_handler 0) 11 10).output_length
      ≤ (four_byte_handler 0).audio_frame_count * 4 ∧
    ((read_audio (four_byte_track none) (four_byte_handler 0) 11 10).output_length = 0 ∨
      11 + (read_audio (four_byte_track none) (four_byte_handler 0) 11 10).output_length
        + get_priming_samples (four_byte_track none) (four_byte_handler 0) (11 / 4 + 1) 4
        ≤ (four_byte_handler 0).audio_frame_count * 4) :=
  read_audio_seek_within_frames (four_byte_track none) (four_byte_handler 0) 11 10 4
    (by decide) rfl (by decide) rfl (by decide) (by decide)
    (fun k => by simp [four_byte_track, four_byte_handler, decoded_bytes])
    (by simp [get_priming_samples, four_byte_track, U32])
    (by simp [get_priming_samples, four_byte_track, four_byte_handler, U64])

/-- C11, counterexample. The three frames of `four_byte_track` decode to 12
PCM samples and the media duration `audio_pcm_sample_count` is 10:
`read_audio(9, 10)` returns 3 samples, the last two of them past the end of
the track, and `read_audio` of the same frames with a duration of 12 returns
the same. -/
theorem read_audio_ignores_pcm_sample_count :
    short_pcm_handler.audio_pcm_sample_count = 10 ∧
    (read_audio (four_byte_track none) short_pcm_handler 9 10).output_length = 3 ∧
    (read_audio (four_byte_track none) short_pcm_handler 9 10).out = [31, 32, 33] ∧
    (read_audio (four_byte_track none) (four_byte_handler 0) 9 10).out = [31, 32, 33] := by
  simp [read_audio, read_audio_seek, read_audio_continue, audio_out, audio_decode_loop,
    decode_packet, consume_chunk, save_remainder, take_remainder, reset_for_seek,
    audio_seek_position, frame_walk, get_frame_length, get_priming_samples,
    seek_data_offset, sub64, U32, U64, get_audio_sample, buf_read, buf_write, four_byte_track,
    four_byte_handler, short_pcm_handler, List.range, List.range.loop]

/-! ## Audio engine: what a read delivers -/

/-- Reading from a buffer that a chunk was just written to, inside the chunk,
gives the bytes of the chunk. -/
theorem buf_read_buf_write (buffer c : List Nat) (d n : Nat) (h : d + n ≤ c.length) :
    buf_read (buf_write buffer c) d n = (c.drop d).take n := by
  unfold buf_read buf_write
  apply List.ext_getElem
  · simp only [List.length_map, List.length_range, List.length_take, List.length_drop]
    omega
  · intro k h1 h2
    simp only [List.length_map, List.length_range] at h1
    simp only [List.getElem_map, List.getElem_range, List.getElem_take, List.getElem_drop]
    rw [List.getD_eq_getElem _ _ (by simp only [List.length_append]; omega)]
    exact List.getElem_append_left (by omega)

/-- Reading the first bytes of a buffer, as far as the buffer is filled. -/
theorem buf_read_zero (buffer : List Nat) (n : Nat) (h : n ≤ buffer.length) :
    buf_read buffer 0 n = buffer.take n := by
  unfold buf_read
  apply List.ext_getElem
  · simp only [List.length_map, List.length_range, List.length_take]
    omega
  · intro k h1 h2
    simp only [List.length_map, List.length_range] at h1
    simp only [List.getElem_map, List.getElem_range, List.getElem_take, Nat.zero_add]
    exact List.getD_eq_getElem _ _ (by omega)


theorem buf_read_take (buffer : List Nat) (off n m : Nat) (h : m ≤ n) :
    (buf_read buffer off n).take m = buf_read buffer off m := by
  unfold buf_read
  rw [← List.map_take, List.take_range, Nat.min_eq_left h]

theorem buf_read_length (buffer : List Nat) (off n : Nat) :
    (buf_read buffer off n).length = n := by
  unfold buf_read
  simp

/-- What one decoded chunk adds to the delivery, when the chunk length and the
data offset are multiples of `block_align`: the bytes delivered so far,
followed by what is still wanted of the bytes `X` to come, are the bytes
delivered before, followed by what was wanted of the chunk and `X`. -/
theorem consume_chunk_stream (chunk : List Nat) (st : AudioState) (ba : Nat)
    (hb : st.hp.block_align = ba) (hd : ba ∣ st.data_offset) (hc : ba ∣ chunk.length) :
    (∀ X : List Nat,
      (consume_chunk chunk st).out
          ++ (X.drop (consume_chunk chunk st).data_offset).take
              ((consume_chunk chunk st).wanted_length * ba)
        = st.out ++ ((chunk ++ X).drop st.data_offset).take (st.wanted_length * ba)) ∧
    ba ∣ (consume_chunk chunk st).data_offset ∧
    (consume_chunk chunk st).hp.block_align = ba ∧
    ba ∣ chunk.length - (consume_chunk chunk st).copy_size ∧
    (consume_chunk chunk st).output_length * ba + st.out.length
      = st.output_length * ba + (consume_chunk chunk st).out.length ∧
    (consume_chunk chunk st).hp.last_remainder_size = st.hp.last_remainder_size := by
  unfold consume_chunk
  dsimp only
  rw [hb]
  by_cases hlt : chunk.length > st.data_offset
  · rw [if_pos hlt]
    dsimp only
    have hcopy : ba ∣ min (chunk.length - st.data_offset) (st.wanted_length * ba) := by
      rcases Nat.le_total (chunk.length - st.data_offset) (st.wanted_length * ba) with h | h
      · rw [Nat.min_eq_left h]; exact Nat.dvd_sub' hc hd
      · rw [Nat.min_eq_right h]; exact Nat.dvd_mul_left _ _
    have hmul : min (chunk.length - st.data_offset) (st.wanted_length * ba) / ba * ba
        = min (chunk.length - st.data_offset) (st.wanted_length * ba) :=
      Nat.div_mul_cancel hcopy
    have hread := buf_read_buf_write st.hp.audio_output_buffer chunk st.data_offset
      (min (chunk.length - st.data_offset) (st.wanted_length * ba)) (by omega)
    refine ⟨fun X => ?_, Nat.dvd_zero _, rfl, ?_, ?_, rfl⟩
    · rw [hread, Nat.sub_mul, hmul, List.drop_zero, List.drop_append_eq_append_drop,
        List.take_append_eq_append_take, List.length_drop,
        show st.data_offset - chunk.length = 0 by omega, List.drop_zero, List.append_assoc]
      rcases Nat.le_total (chunk.length - st.data_offset) (st.wanted_length * ba) with h | h
      · have t1 : List.take (chunk.length - st.data_offset) (List.drop st.data_offset chunk)
            = List.drop st.data_offset chunk :=
          List.take_of_length_le (by rw [List.length_drop])
        have t2 : List.take (st.wanted_length * ba) (List.drop st.data_offset chunk)
            = List.drop st.data_offset chunk :=
          List.take_of_length_le (by rw [List.length_drop]; exact h)
        rw [Nat.min_eq_left h, t1, t2]
      · rw [Nat.min_eq_right h, Nat.sub_self, show st.wanted_length * ba
          - (chunk.length - st.data_offset) = 0 by omega]
    · exact Nat.dvd_sub' hc hcopy
    · rw [hread, List.length_append, List.length_take, List.length_drop, Nat.add_mul, hmul]
      omega
  · rw [if_neg hlt]
    dsimp only
    have hdc : List.drop st.data_offset chunk = [] := List.drop_of_length_le (by omega)
    refine ⟨fun X => ?_, Nat.dvd_sub' hd hc, rfl, by simpa using hc, rfl, rfl⟩
    rw [List.drop_append_eq_append_drop, hdc, List.nil_append]

/-- The decode calls of one packet, when the chunk lengths and the data
offset are multiples of `block_align`.  If the loop runs through all calls, no
call failed, and what is delivered and still wanted afterwards continues what
was wanted before.  If the loop leaves through `audio_out`, the delivery is
complete: it is what was wanted of the bytes of the packet, followed by `X`
unless a decode call failed. -/
theorem decode_packet_stream (ba : Nat) (calls : List (Option (List Nat))) (st : AudioState)
    (hb : st.hp.block_align = ba) (hd : ba ∣ st.data_offset)
    (hc : ∀ chunk, some chunk ∈ calls → ba ∣ chunk.length) :
    ((decode_packet calls st).1 = false →
      (packet_bytes calls).2 = false ∧
      (decode_packet calls st).2.hp.last_remainder_size = st.hp.last_remainder_size ∧
      ∀ X : List Nat,
        (decode_packet calls st).2.out
            ++ (X.drop (decode_packet calls st).2.data_offset).take
                ((decode_packet calls st).2.wanted_length * ba)
          = st.out ++ (((packet_bytes calls).1 ++ X).drop st.data_offset).take
              (st.wanted_length * ba)) ∧
    ((decode_packet calls st).1 = true →
      ∀ X : List Nat, ((packet_bytes calls).2 = true → X = []) →
        (decode_packet calls st).2.out
          = st.out ++ (((packet_bytes calls).1 ++ X).drop st.data_offset).take
              (st.wanted_length * ba)) ∧
    ba ∣ (decode_packet calls st).2.data_offset ∧
    (decode_packet calls st).2.hp.block_align = ba ∧
    (decode_packet calls st).2.output_length * ba + st.out.length
      = st.output_length * ba + (decode_packet calls st).2.out.length ∧
    (ba ∣ st.hp.last_remainder_size → ba ∣ (decode_packet calls st).2.hp.last_remainder_size) := by
  induction calls generalizing st with
  | nil =>
    refine ⟨fun _ => ⟨rfl, rfl, fun X => rfl⟩, fun h => Bool.noConfusion h, hd, hb, rfl,
      fun h => h⟩
  | cons call rest ih =>
    cases call with
    | none =>
      refine ⟨fun h => Bool.noConfusion h, fun _ X hX => ?_, hd, hb, rfl, fun h => h⟩
      rw [hX rfl]
      show st.out = st.out ++ _
      simp [packet_bytes]
    | some chunk =>
      obtain ⟨c1, c2, c3, c4, c5, c6⟩ := consume_chunk_stream chunk st ba hb hd
        (hc chunk (List.mem_cons_self _ _))
      obtain ⟨i1, i2, i3, i4, i5, i6⟩ := ih (consume_chunk chunk st) c3 c2
        (fun ch hch => hc ch (List.mem_cons_of_mem _ hch))
      rw [decode_packet, packet_bytes]
      dsimp only
      by_cases hw : (consume_chunk chunk st).wanted_length = 0
      · rw [if_pos hw]
        dsimp only
        refine ⟨fun h => Bool.noConfusion h, fun _ X _ => ?_, c2, c3, c5, fun _ => c4⟩
        have := c1 ((packet_bytes rest).1 ++ X)
        rw [hw, Nat.zero_mul, List.take_zero, List.append_nil] at this
        rw [List.append_assoc]
        exact this
      · rw [if_neg hw]
        refine ⟨fun h => ?_, fun h X hX => ?_, i3, i4, by omega, fun h => i6 (by rw [c6]; exact h)⟩
        · obtain ⟨j1, j2, j3⟩ := i1 h
          refine ⟨j1, by rw [j2, c6], fun X => ?_⟩
          rw [j3 X, c1, List.append_assoc]
        · rw [i2 h X hX, c1, List.append_assoc]

/-- The stream of a frame that can be fetched. -/
theorem decoded_stream_present (a : AudioTrack) (f N : Nat)
    (hs : get_audio_sample a f = true) :
    decoded_stream a f (N + 1)
      = (packet_bytes (a.decode f)).1 ++
          (if (packet_bytes (a.decode f)).2 = true then [] else decoded_stream a (f + 1) N) := by
  rw [decoded_stream, if_pos hs]
  split
  · rw [List.append_nil]
  · rfl

/-- The outer loop of `read_audio` from frame `f`, when the chunk lengths and
the data offset are multiples of `block_align`: the bytes delivered are those
delivered before the loop, followed by the bytes of the decoded stream from
frame `f` on behind the data offset, as far as they are wanted; the returned
count grows by that number of bytes divided by `block_align`; the saved
remainder stays a multiple of `block_align`; the frame number does not go
down. -/
theorem audio_decode_loop_stream (a : AudioTrack) (ba : Nat)
    (hc : ∀ k chunk, some chunk ∈ a.decode k → ba ∣ chunk.length)
    (f : Nat) (st : AudioState) (hb : st.hp.block_align = ba) (hd : ba ∣ st.data_offset) :
    (audio_decode_loop a f st).2.out
      = st.out ++ ((decoded_stream a f (a.sample_count + 1 - f)).drop st.data_offset).take
          (st.wanted_length * ba) ∧
    (audio_decode_loop a f st).2.output_length * ba + st.out.length
      = st.output_length * ba + (audio_decode_loop a f st).2.out.length ∧
    (ba ∣ st.hp.last_remainder_size →
      ba ∣ (audio_decode_loop a f st).2.hp.last_remainder_size) ∧
    f ≤ (audio_decode_loop a f st).1 ∧
    (audio_decode_loop a f st).2.hp.block_align = ba := by
  generalize hm : a.sample_count + 1 - f = m
  induction m using Nat.strong_induction_on generalizing f st with
  | _ m ih =>
    rw [audio_decode_loop]
    dsimp only
    by_cases hs : get_audio_sample a f = true
    · rw [dif_pos hs]
      obtain ⟨p1, p2, p3, p4, p5, p6⟩ := decode_packet_stream ba (a.decode f)
        { st with copy_size := 0 } hb hd (hc f)
      dsimp only at p1 p2 p3 p4 p5 p6
      have hs' := hs
      simp only [get_audio_sample, Bool.and_eq_true, decide_eq_true_eq] at hs'
      obtain ⟨m', rfl⟩ : ∃ m', m = m' + 1 := ⟨m - 1, by omega⟩
      rw [decoded_stream_present a f m' hs]
      by_cases hstop : (decode_packet (a.decode f) { st with copy_size := 0 }).1 = true
      · rw [if_pos hstop]
        refine ⟨?_, p5, p6, le_refl _, p4⟩
        exact p2 hstop _ (fun hf => by rw [if_pos hf])
      · rw [if_neg hstop]
        have hstop' : (decode_packet (a.decode f) { st with copy_size := 0 }).1 = false := by
          cases h : (decode_packet (a.decode f) { st with copy_size := 0 }).1 with
          | true => exact absurd h hstop
          | false => rfl
        obtain ⟨q1, q2, q3⟩ := p1 hstop'
        obtain ⟨i1, i2, i3, i4, i5⟩ := ih m' (by omega) (f + 1)
          (decode_packet (a.decode f) { st with copy_size := 0 }).2 p4 p3 (by omega)
        refine ⟨?_, by omega, fun h => i3 (by rw [q2]; exact h), by omega, i5⟩
        rw [i1, q3, q1, if_neg (by decide)]
    · rw [dif_neg hs]
      refine ⟨?_, rfl, fun h => h, le_refl _, hb⟩
      have hnil : decoded_stream a f m = [] := by
        cases m with
        | zero => rfl
        | succ m' => rw [decoded_stream, if_neg hs]
      rw [hnil]
      simp

/-- The seek of `read_audio` resets no field that the frame walk reads. -/
theorem frame_walk_reset (a : AudioTrack) (hp : AudioHandler) (start k acc fl : Nat) :
    frame_walk a (reset_for_seek hp) start k acc fl = frame_walk a hp start k acc fl := by
  generalize hm : hp.audio_frame_count + 1 - k = m
  induction m using Nat.strong_induction_on generalizing k acc fl with
  | _ m ih =>
    have hg : get_frame_length a (reset_for_seek hp) k = get_frame_length a hp k := rfl
    have hcnt : (reset_for_seek hp).audio_frame_count = hp.audio_frame_count := rfl
    rw [frame_walk]
    conv => rhs; rw [frame_walk]
    rw [hg, hcnt]
    split
    · rfl
    · dsimp only
      split
      · rfl
      · split
        · exact ih (hp.audio_frame_count + 1 - (k + 1)) (by omega) _ _ _ rfl
        · rfl

/-- The position the seek path starts from does not depend on the fields
that the seek resets. -/
theorem audio_seek_position_reset (a : AudioTrack) (hp : AudioHandler) (start : Nat) :
    audio_seek_position a (reset_for_seek hp) start = audio_seek_position a hp start := by
  unfold audio_seek_position
  dsimp only
  rw [frame_walk_reset, get_priming_samples_reset]
  rfl

/-- What a `read_audio` that seeks delivers, when the chunk lengths and the
data offset are multiples of `block_align`: the bytes of the decoded stream
from the located frame on, behind the data offset, as far as they are wanted.
The returned count is the number of these bytes divided by `block_align`, and
the saved remainder is a multiple of `block_align`. -/
theorem read_audio_seek_stream (a : AudioTrack) (hp : AudioHandler) (start w ba : Nat)
    (hb : hp.block_align = ba)
    (hc : ∀ k chunk, some chunk ∈ a.decode k → ba ∣ chunk.length)
    (hoff : ba ∣ (audio_seek_position a hp start).2) :
    (read_audio_seek a hp start w).out
      = ((decoded_stream a (audio_seek_position a hp start).1
            (a.sample_count + 1 - (audio_seek_position a hp start).1)).drop
          (audio_seek_position a hp start).2).take (w * ba) ∧
    (read_audio_seek a hp start w).output_length * ba
      = (read_audio_seek a hp start w).out.length ∧
    ba ∣ (read_audio_seek a hp start w).hp.last_remainder_size ∧
    (audio_seek_position a hp start).1
      ≤ (read_audio_seek a hp start w).hp.last_audio_frame_number ∧
    (read_audio_seek a hp start w).hp.block_align = ba := by
  obtain ⟨l1, l2, l3, l4, l5⟩ := audio_decode_loop_stream a ba hc
    (audio_seek_position a hp start).1
    { data_offset := (audio_seek_position a hp start).2, copy_size := 0, output_length := 0,
      wanted_length := w, out := [], hp := reset_for_seek hp } hb hoff
  dsimp only at l1 l2 l3
  have hrem : ∀ (s f : Nat) (st : AudioState),
      (audio_out s f st).hp.last_remainder_size = st.hp.last_remainder_size ∧
      (audio_out s f st).hp.block_align = st.hp.block_align := by
    intro s f st
    unfold audio_out
    dsimp only
    split <;> exact ⟨rfl, rfl⟩
  unfold read_audio_seek
  dsimp only
  rw [audio_seek_position_reset]
  refine ⟨?_, ?_, ?_, ?_, by rw [(hrem _ _ _).2]; exact l5⟩
  · show (audio_decode_loop _ _ _).2.out = _
    rw [l1, List.nil_append]
  · show (audio_decode_loop _ _ _).2.output_length * ba = (audio_decode_loop _ _ _).2.out.length
    simp only [List.length_nil, Nat.zero_mul, Nat.add_zero, Nat.zero_add] at l2
    exact l2
  · rw [(hrem _ _ _).1]
    exact l3 (Nat.dvd_zero _)
  · exact l4

/-- What a continued `read_audio` delivers, when the chunk lengths and the
saved remainder are multiples of `block_align`: the bytes of the saved
remainder followed by the decoded stream from the frame after
`last_audio_frame_number` on, as far as they are wanted.  The frame cursor does
not go down, and it stays where it is when the saved remainder covers the
request. -/
theorem read_audio_continue_stream (a : AudioTrack) (hp : AudioHandler) (start w ba : Nat)
    (hba : 0 < ba) (hb : hp.block_align = ba)
    (hc : ∀ k chunk, some chunk ∈ a.decode k → ba ∣ chunk.length)
    (hrem : ba ∣ hp.last_remainder_size) :
    (read_audio_continue a hp start w).out
      = (buf_read hp.audio_output_buffer 0 hp.last_remainder_size
          ++ decoded_stream a (hp.last_audio_frame_number + 1)
              (a.sample_count + 1 - (hp.last_audio_frame_number + 1))).take (w * ba) ∧
    (read_audio_continue a hp start w).output_length * ba
      = (read_audio_continue a hp start w).out.length ∧
    ba ∣ (read_audio_continue a hp start w).hp.last_remainder_size ∧
    hp.last_audio_frame_number
      ≤ (read_audio_continue a hp start w).hp.last_audio_frame_number ∧
    (hp.last_remainder_size ≠ 0 → w * ba ≤ hp.last_remainder_size →
      (read_audio_continue a hp start w).hp.last_audio_frame_number
          = hp.last_audio_frame_number ∧
      (read_audio_continue a hp start w).hp.last_remainder_size
          = hp.last_remainder_size - w * ba) ∧
    (read_audio_continue a hp start w).hp.block_align = ba := by
  have hremout : ∀ (s f : Nat) (st : AudioState),
      (audio_out s f st).hp.last_remainder_size = st.hp.last_remainder_size := by
    intro s f st
    unfold audio_out
    dsimp only
    split <;> rfl
  have hbaout : ∀ (s f : Nat) (st : AudioState),
      (audio_out s f st).hp.block_align = st.hp.block_align := by
    intro s f st
    unfold audio_out
    dsimp only
    split <;> rfl
  have hcopy : ba ∣ min hp.last_remainder_size (w * ba) := by
    rcases Nat.le_total hp.last_remainder_size (w * ba) with h | h
    · rw [Nat.min_eq_left h]; exact hrem
    · rw [Nat.min_eq_right h]; exact Nat.dvd_mul_left _ _
  have hmul : min hp.last_remainder_size (w * ba) / ba * ba
      = min hp.last_remainder_size (w * ba) := Nat.div_mul_cancel hcopy
  have hRlen := buf_read_length hp.audio_output_buffer 0 hp.last_remainder_size
  unfold read_audio_continue
  dsimp only
  by_cases hz : hp.last_remainder_size = 0
  · -- no remainder
    have ht : take_remainder hp w = ⟨0, 0, 0, w, [], hp⟩ := by
      unfold take_remainder
      rw [if_neg (not_not.mpr hz)]
    rw [ht, if_neg (fun h => h.1 hz)]
    obtain ⟨l1, l2, l3, l4, l5⟩ := audio_decode_loop_stream a ba hc
      (hp.last_audio_frame_number + 1)
      { data_offset := 0, copy_size := 0, output_length := 0, wanted_length := w, out := [],
        hp := hp } hb (Nat.dvd_zero _)
    dsimp only at l1 l2 l3
    refine ⟨?_, ?_, ?_, ?_, fun h => absurd hz h, by rw [hbaout]; exact l5⟩
    · show (audio_decode_loop _ _ _).2.out = _
      rw [l1, hz]
      simp [buf_read]
    · show (audio_decode_loop _ _ _).2.output_length * ba
        = (audio_decode_loop _ _ _).2.out.length
      simp only [List.length_nil, Nat.zero_mul, Nat.add_zero, Nat.zero_add] at l2
      exact l2
    · rw [hremout]
      exact l3 hrem
    · show _ ≤ (audio_decode_loop _ _ _).1
      omega
  · have ht : take_remainder hp w = ⟨0, min hp.last_remainder_size (w * ba),
        min hp.last_remainder_size (w * ba) / ba,
        w - min hp.last_remainder_size (w * ba) / ba,
        buf_read hp.audio_output_buffer 0 (min hp.last_remainder_size (w * ba)),
        { hp with last_remainder_size := hp.last_remainder_size - min hp.last_remainder_size (w * ba) }⟩ := by
      unfold take_remainder
      rw [if_pos hz, hb]
    have hwant : (w - min hp.last_remainder_size (w * ba) / ba) * ba
        = w * ba - min hp.last_remainder_size (w * ba) := by
      rw [Nat.sub_mul, hmul]
    rw [ht]
    dsimp only
    by_cases hw0 : w - min hp.last_remainder_size (w * ba) / ba = 0
    · -- the remainder covers the request
      rw [if_pos ⟨hz, hw0⟩]
      have hle : w * ba ≤ hp.last_remainder_size := by
        rw [hw0, Nat.zero_mul] at hwant
        have := Nat.min_le_right hp.last_remainder_size (w * ba)
        have := Nat.min_le_left hp.last_remainder_size (w * ba)
        omega
      have hmin : min hp.last_remainder_size (w * ba) = w * ba := Nat.min_eq_right hle
      refine ⟨?_, ?_, ?_, le_refl _, fun _ _ => ⟨rfl, ?_⟩, by rw [hbaout]; exact hb⟩
      · show buf_read hp.audio_output_buffer 0 (min hp.last_remainder_size (w * ba)) = _
        rw [hmin, List.take_append_of_le_length (by rw [hRlen]; exact hle),
          buf_read_take _ _ _ _ hle]
      · show min hp.last_remainder_size (w * ba) / ba * ba
          = (buf_read hp.audio_output_buffer 0 (min hp.last_remainder_size (w * ba))).length
        rw [hmul, buf_read_length]
      · rw [hremout]
        exact Nat.dvd_sub' hrem hcopy
      · rw [hremout]
        show hp.last_remainder_size - min hp.last_remainder_size (w * ba) = _
        rw [hmin]
    · rw [if_neg (fun h => hw0 h.2)]
      have hlt : hp.last_remainder_size < w * ba := by
        by_contra hge
        have hmin : min hp.last_remainder_size (w * ba) = w * ba :=
          Nat.min_eq_right (not_lt.mp hge)
        rw [hmin, Nat.mul_div_cancel _ hba, Nat.sub_self] at hw0
        exact hw0 rfl
      have hmin : min hp.last_remainder_size (w * ba) = hp.last_remainder_size :=
        Nat.min_eq_left (le_of_lt hlt)
      obtain ⟨l1, l2, l3, l4, l5⟩ := audio_decode_loop_stream a ba hc
        (hp.last_audio_frame_number + 1)
        { data_offset := 0, copy_size := min hp.last_remainder_size (w * ba),
          output_length := min hp.last_remainder_size (w * ba) / ba,
          wanted_length := w - min hp.last_remainder_size (w * ba) / ba,
          out := buf_read hp.audio_output_buffer 0 (min hp.last_remainder_size (w * ba)),
          hp := { hp with last_remainder_size :=
            hp.last_remainder_size - min hp.last_remainder_size (w * ba) } } hb (Nat.dvd_zero _)
      dsimp only at l1 l2 l3
      refine ⟨?_, ?_, ?_, ?_, fun _ h => absurd h (by omega), by rw [hbaout]; exact l5⟩
      · show (audio_decode_loop _ _ _).2.out = _
        have t : List.take (w * ba) (buf_read hp.audio_output_buffer 0 hp.last_remainder_size)
            = buf_read hp.audio_output_buffer 0 hp.last_remainder_size :=
          List.take_of_length_le (by rw [hRlen]; exact le_of_lt hlt)
        rw [l1, hwant, hmin, List.drop_zero, List.take_append_eq_append_take, hRlen, t]
      · show (audio_decode_loop _ _ _).2.output_length * ba
          = (audio_decode_loop _ _ _).2.out.length
        rw [hmul, buf_read_length] at l2
        omega
      · rw [hremout]
        exact l3 (Nat.dvd_sub' hrem hcopy)
      · show _ ≤ (audio_decode_loop _ _ _).1
        omega

/-- The decode calls of one packet only append to what was delivered. -/
theorem decode_packet_appends (calls : List (Option (List Nat))) (st : AudioState) :
    ∃ t, (decode_packet calls st).2.out = st.out ++ t := by
  induction calls generalizing st with
  | nil => exact ⟨[], by simp [decode_packet]⟩
  | cons call rest ih =>
    cases call with
    | none => exact ⟨[], by simp [decode_packet]⟩
    | some chunk =>
      have hc : ∃ t, (consume_chunk chunk st).out = st.out ++ t := by
        unfold consume_chunk
        dsimp only
        split
        · exact ⟨_, rfl⟩
        · exact ⟨[], by simp⟩
      obtain ⟨t1, h1⟩ := hc
      rw [decode_packet]
      split
      · exact ⟨t1, h1⟩
      · obtain ⟨t2, h2⟩ := ih (consume_chunk chunk st)
        exact ⟨t1 ++ t2, by rw [h2, h1, List.append_assoc]⟩

/-- The outer loop of `read_audio` only appends to what was delivered, and its
frame number does not go down. -/
theorem audio_decode_loop_appends (a : AudioTrack) (f : Nat) (st : AudioState) :
    (∃ t, (audio_decode_loop a f st).2.out = st.out ++ t) ∧
    f ≤ (audio_decode_loop a f st).1 := by
  generalize hm : a.sample_count + 1 - f = m
  induction m using Nat.strong_induction_on generalizing f st with
  | _ m ih =>
    rw [audio_decode_loop]
    dsimp only
    split
    · rename_i hs
      obtain ⟨t1, h1⟩ := decode_packet_appends (a.decode f) { st with copy_size := 0 }
      simp only [get_audio_sample, Bool.and_eq_true, decide_eq_true_eq] at hs
      split
      · exact ⟨⟨t1, h1⟩, le_refl _⟩
      · obtain ⟨⟨t2, h2⟩, h3⟩ := ih (a.sample_count + 1 - (f + 1)) (by omega) (f + 1)
          (decode_packet (a.decode f) { st with copy_size := 0 }).2 rfl
        exact ⟨⟨t1 ++ t2, by rw [h2, h1, List.append_assoc]⟩, by omega⟩
    · exact ⟨⟨[], by simp⟩, le_refl _⟩

/-- A continued `read_audio` delivers the saved remainder first, as far as it
is wanted, and does not move the frame cursor down. -/
theorem read_audio_continue_remainder_first (a : AudioTrack) (hp : AudioHandler)
    (start w : Nat) :
    (∃ t, (read_audio_continue a hp start w).out
      = buf_read hp.audio_output_buffer 0 (min hp.last_remainder_size (w * hp.block_align))
          ++ t) ∧
    hp.last_audio_frame_number
      ≤ (read_audio_continue a hp start w).hp.last_audio_frame_number := by
  have ht : (take_remainder hp w).out
      = buf_read hp.audio_output_buffer 0 (min hp.last_remainder_size (w * hp.block_align)) := by
    unfold take_remainder
    split
    · rfl
    · rename_i hz
      rw [not_not.mp hz]
      simp [buf_read]
  unfold read_audio_continue
  dsimp only
  split
  · exact ⟨⟨[], by rw [List.append_nil]; exact ht⟩, le_refl _⟩
  · obtain ⟨⟨t, h1⟩, h2⟩ := audio_decode_loop_appends a (hp.last_audio_frame_number + 1)
      (take_remainder hp w)
    refine ⟨⟨t, ?_⟩, ?_⟩
    · show (audio_decode_loop _ _ _).2.out = _
      rw [h1, ht]
    · show _ ≤ (audio_decode_loop _ _ _).1
      omega

/-- C6.  For every `read_audio(start, w)` with `start + w` below `2 ^ 32` (the
sum of two non-negative `int` values always is) and a `block_align` that is
not 0, whichever way it ends, the returned count `d` is at most `w` and
`next_audio_pcm_sample_number` is `start + d` afterwards.  An immediately
following `read_audio(start + d, w2)` takes the branch for a continued read,
does not flush the decoder and keeps the remainder and the frame cursor of the
first read: it delivers the saved remainder first, as far as it is wanted, and
its frame cursor is not below that of the first read; and when the decoded
chunks, the remainder the first read started with and the data offset of its
seek are whole PCM samples, the second read delivers the saved remainder of
the first,
followed by the decoded stream from frame `last_audio_frame_number + 1` on, up
to `w2` samples; the frame cursor does not go down, and while the saved
remainder covers the request the cursor stays and the remainder shrinks by
what was delivered. -/
theorem read_audio_cursor_continuation (a : AudioTrack) (hp : AudioHandler)
    (start w w2 : Nat) (hw : start + w < U32) (hba : 0 < hp.block_align) :
    ∀ r, r = read_audio a hp start w →
      r.output_length ≤ w ∧
      r.hp.next_audio_pcm_sample_number = start + r.output_length ∧
      read_audio a r.hp (start + r.output_length) w2
        = read_audio_continue a r.hp (start + r.output_length) w2 ∧
      (read_audio a r.hp (start + r.output_length) w2).hp.flushes = r.hp.flushes ∧
      (∃ t, (read_audio a r.hp (start + r.output_length) w2).out
        = buf_read r.hp.audio_output_buffer 0
            (min r.hp.last_remainder_size (w2 * r.hp.block_align)) ++ t) ∧
      r.hp.last_audio_frame_number
        ≤ (read_audio a r.hp (start + r.output_length) w2).hp.last_audio_frame_number ∧
      ((∀ k chunk, some chunk ∈ a.decode k → hp.block_align ∣ chunk.length) →
        hp.block_align ∣ hp.last_remainder_size →
        (start % U32 ≠ hp.next_audio_pcm_sample_number →
          hp.block_align ∣ (audio_seek_position a hp start).2) →
        (read_audio a r.hp (start + r.output_length) w2).out
          = (buf_read r.hp.audio_output_buffer 0 r.hp.last_remainder_size
              ++ decoded_stream a (r.hp.last_audio_frame_number + 1)
                  (a.sample_count + 1 - (r.hp.last_audio_frame_number + 1))).take
              (w2 * hp.block_align) ∧
        (read_audio a r.hp (start + r.output_length) w2).output_length * hp.block_align
          = (read_audio a r.hp (start + r.output_length) w2).out.length ∧
        r.hp.last_audio_frame_number
          ≤ (read_audio a r.hp (start + r.output_length) w2).hp.last_audio_frame_number ∧
        (r.hp.last_remainder_size ≠ 0 → w2 * hp.block_align ≤ r.hp.last_remainder_size →
          (read_audio a r.hp (start + r.output_length) w2).hp.last_audio_frame_number
            = r.hp.last_audio_frame_number ∧
          (read_audio a r.hp (start + r.output_length) w2).hp.last_remainder_size
            = r.hp.last_remainder_size - w2 * hp.block_align)) := by
  intro r hr
  have h1 : r.output_length ≤ w ∧
      r.hp.next_audio_pcm_sample_number = (start + r.output_length) % U32 := by
    rw [hr]
    unfold read_audio
    split
    · exact ⟨(read_audio_continue_fields a hp start w).1,
        (read_audio_continue_fields a hp start w).2.1⟩
    · exact ⟨(read_audio_seek_fields a hp start w).1, (read_audio_seek_fields a hp start w).2.1⟩
  obtain ⟨hle, hnext⟩ := h1
  have hlt : start + r.output_length < U32 := by omega
  rw [Nat.mod_eq_of_lt hlt] at hnext
  have hbranch : read_audio a r.hp (start + r.output_length) w2
      = read_audio_continue a r.hp (start + r.output_length) w2 := by
    unfold read_audio
    rw [if_pos (by rw [Nat.mod_eq_of_lt hlt, hnext])]
  refine ⟨hle, hnext, hbranch, ?_, ?_, ?_, fun hc hrem hoff => ?_⟩
  · rw [hbranch]
    exact (read_audio_continue_fields a _ _ _).2.2
  · rw [hbranch]
    exact (read_audio_continue_remainder_first a _ _ _).1
  · rw [hbranch]
    exact (read_audio_continue_remainder_first a _ _ _).2
  · have hstate : hp.block_align ∣ r.hp.last_remainder_size ∧
        r.hp.block_align = hp.block_align := by
      rw [hr]
      unfold read_audio
      split
      · obtain ⟨_, _, c3, _, _, c6⟩ := read_audio_continue_stream a hp start w hp.block_align
          hba rfl hc hrem
        exact ⟨c3, c6⟩
      · rename_i hseek
        obtain ⟨_, _, s3, _, s5⟩ := read_audio_seek_stream a hp start w hp.block_align rfl hc
          (hoff hseek)
        exact ⟨s3, s5⟩
    obtain ⟨c1, c2, _, c4, c5, _⟩ := read_audio_continue_stream a r.hp
      (start + r.output_length) w2 hp.block_align hba hstate.2 hc hstate.1
    rw [hbranch]
    exact ⟨c1, c2, c4, c5⟩

/-- Witness of `read_audio_cursor_continuation`: `read_audio(2, 1)` followed by
a read of one sample on the four-byte track.  The first read leaves the cursor
at 3 and a remainder of three bytes; the second read delivers the first byte
of that remainder. -/
theorem read_audio_cursor_continuation_witness :
    (read_audio (four_byte_track none) (four_byte_handler 0) 2 1).hp.next_audio_pcm_sample_number
      = 2 + (read_audio (four_byte_track none) (four_byte_handler 0) 2 1).output_length ∧
    (read_audio (four_byte_track none)
      (read_audio (four_byte_track none) (four_byte_handler 0) 2 1).hp
      (2 + (read_audio (four_byte_track none) (four_byte_handler 0) 2 1).output_length) 1).out
      = (buf_read (read_audio (four_byte_track none) (four_byte_handler 0) 2 1).hp.audio_output_buffer
            0 (read_audio (four_byte_track none) (four_byte_handler 0) 2 1).hp.last_remainder_size
          ++ decoded_stream (four_byte_track none)
              ((read_audio (four_byte_track none)
                (four_byte_handler 0) 2 1).hp.last_audio_frame_number + 1)
              ((four_byte_track none).sample_count + 1
                - ((read_audio (four_byte_track none)
                    (four_byte_handler 0) 2 1).hp.last_audio_frame_number + 1))).take
          (1 * (four_byte_handler 0).block_align) :=
  ⟨(read_audio_cursor_continuation (four_byte_track none) (four_byte_handler 0) 2 1 1
      (by decide) (by decide) _ rfl).2.1,
   ((read_audio_cursor_continuation (four_byte_track none) (four_byte_handler 0) 2 1 1
      (by decide) (by decide) _ rfl).2.2.2.2.2.2
      (fun _ _ _ => Nat.one_dvd _) (Nat.one_dvd _) (fun _ => Nat.one_dvd _)).1⟩

/-- The loop of `get_priming_samples` when every frame length it asks for is
found and the frame numbers stay below `2 ^ 32`: it adds the lengths of the
frames `frame + i, ..., frame + i + k - 1` to the sum, in `uint32_t`. -/
theorem priming_loop_sum (a : AudioTrack) (hp : AudioHandler) (frame : Nat) (k i m : Nat)
    (hm : m < U32) (hidx : frame + i + k ≤ U32)
    (hfound : ∀ j, j < k → ∃ l, get_frame_length a hp (frame + i + j) = some l) :
    priming_loop a hp frame k i m
      = (m + ((List.range k).map
          (fun j => (get_frame_length a hp (frame + i + j)).getD 0)).sum) % U32 := by
  induction k generalizing i m with
  | zero => simp [priming_loop, Nat.mod_eq_of_lt hm]
  | succ k ih =>
    obtain ⟨l, hl⟩ := hfound 0 (by omega)
    rw [Nat.add_zero] at hl
    rw [priming_loop, Nat.mod_eq_of_lt (by omega), hl]
    dsimp only
    rw [ih (i + 1) ((m + l) % U32) (Nat.mod_lt _ (by decide)) (by omega)
      (fun j hj => by
        obtain ⟨l', hl'⟩ := hfound (j + 1) (by omega)
        exact ⟨l', by rw [← hl']; congr 1; omega⟩)]
    rw [List.range_succ_eq_map, List.map_cons, List.sum_cons, List.map_map]
    show _ = (m + ((get_frame_length a hp (frame + i)).getD 0 + _)) % U32
    rw [hl, Option.getD_some, Nat.mod_add_mod, Nat.add_assoc]
    congr 4
    apply List.map_congr_left
    intro j _
    show (get_frame_length a hp (frame + (i + 1) + j)).getD 0
      = (get_frame_length a hp (frame + i + (j + 1))).getD 0
    congr 2
    omega

/-- C7, as amended.  `get_priming_samples` is 0 when the property lookup of
the located frame fails or its pre-roll distance is 0, whatever the configured
`priming_samples`.  With a pre-roll distance `k` that is not 0 it is never less
than the configured `priming_samples`, and it is the maximum of the configured
`priming_samples` and the pre-roll sum: the length of the frame plus the
lengths of the `k - 1` frames that follow, in `uint32_t`.  A `read_audio` that
seeks delivers the decoded stream of the located frame and the frames after it
from the data offset on, as far as wanted (chunks and offset being whole PCM
samples).  With a constant frame length `L` the seek to `start` locates frame
`start / L + 1` with the data offset `(priming + start % L) * block_align`,
where `priming` is the value of `get_priming_samples`; so on a track whose
first frame has the pre-roll distance `k ≠ 0`, `read_audio(0, w)` discards
exactly `max(priming_samples, k * L)` decoded samples before the first
delivered sample. -/
theorem priming_added_on_seek (a : AudioTrack) (hp : AudioHandler) :
    (∀ frame frame_length,
      a.pre_roll_distance frame = none ∨ a.pre_roll_distance frame = some 0 →
      get_priming_samples a hp frame frame_length = 0) ∧
    (∀ frame frame_length k, a.pre_roll_distance frame = some k → k ≠ 0 →
      hp.priming_samples ≤ get_priming_samples a hp frame frame_length ∧
      (frame_length < U32 → frame + k ≤ U32 →
        (∀ j, j < k - 1 → ∃ l, get_frame_length a hp (frame + 1 + j) = some l) →
        get_priming_samples a hp frame frame_length
          = max hp.priming_samples
              ((frame_length + ((List.range (k - 1)).map
                (fun j => (get_frame_length a hp (frame + 1 + j)).getD 0)).sum) % U32))) ∧
    (∀ start w, start % U32 ≠ hp.next_audio_pcm_sample_number →
      (∀ k chunk, some chunk ∈ a.decode k → hp.block_align ∣ chunk.length) →
      hp.block_align ∣ (audio_seek_position a hp start).2 →
      (read_audio a hp start w).out
        = ((decoded_stream a (audio_seek_position a hp start).1
              (a.sample_count + 1 - (audio_seek_position a hp start).1)).drop
            (audio_seek_position a hp start).2).take (w * hp.block_align) ∧
      (read_audio a hp start w).output_length * hp.block_align
        = (read_audio a hp start w).out.length) ∧
    (∀ L start, hp.audio_frame_length = L → 0 < L → start < hp.audio_frame_count * L →
      get_priming_samples a hp (start / L + 1) L + start + L < U32 →
      (get_priming_samples a hp (start / L + 1) L + start % L) * hp.block_align < U64 →
      audio_seek_position a hp start
        = (start / L + 1,
            (get_priming_samples a hp (start / L + 1) L + start % L) * hp.block_align)) ∧
    (∀ L k w, hp.audio_frame_length = L → 0 < L → 0 < hp.audio_frame_count →
      a.pre_roll_distance 1 = some k → k ≠ 0 →
      0 % U32 ≠ hp.next_audio_pcm_sample_number →
      (∀ f chunk, some chunk ∈ a.decode f → hp.block_align ∣ chunk.length) →
      max hp.priming_samples (k * L) + L < U32 →
      max hp.priming_samples (k * L) * hp.block_align < U64 →
      get_priming_samples a hp 1 L = max hp.priming_samples (k * L) ∧
      (read_audio a hp 0 w).out
        = ((decoded_stream a 1 a.sample_count).drop
            (max hp.priming_samples (k * L) * hp.block_align)).take (w * hp.block_align)) := by
  have hread : ∀ start w, start % U32 ≠ hp.next_audio_pcm_sample_number →
      (∀ k chunk, some chunk ∈ a.decode k → hp.block_align ∣ chunk.length) →
      hp.block_align ∣ (audio_seek_position a hp start).2 →
      (read_audio a hp start w).out
        = ((decoded_stream a (audio_seek_position a hp start).1
              (a.sample_count + 1 - (audio_seek_position a hp start).1)).drop
            (audio_seek_position a hp start).2).take (w * hp.block_align) ∧
      (read_audio a hp start w).output_length * hp.block_align
        = (read_audio a hp start w).out.length := by
    intro start w hseek hc hoff
    have hr : read_audio a hp start w = read_audio_seek a hp start w := by
      unfold read_audio
      rw [if_neg hseek]
    obtain ⟨s1, s2, _⟩ := read_audio_seek_stream a hp start w hp.block_align rfl hc hoff
    rw [hr]
    exact ⟨s1, s2⟩
  refine ⟨?_, ?_, hread, ?_, ?_⟩
  · intro frame frame_length h
    rcases h with h | h
    · simp only [get_priming_samples, h]
    · simp only [get_priming_samples, h, if_true]
  · intro frame frame_length k hk hk0
    have hg : get_priming_samples a hp frame frame_length
        = max hp.priming_samples (priming_loop a hp frame (k - 1) 1 frame_length) := by
      simp only [get_priming_samples, hk, hk0, if_false]
    refine ⟨hg ▸ le_max_left _ _, fun hfl hidx hfound => ?_⟩
    rw [hg, priming_loop_sum a hp frame (k - 1) 1 frame_length hfl (by omega) hfound]
  · intro L start hL hpos hstart hw1 hw2
    exact audio_seek_position_constant a hp start L hL hpos hstart hw1 hw2
  · intro L k w hL hpos hcount hk hk0 hseek hc hb1 hb2
    have hL0 : hp.audio_frame_length ≠ 0 := by omega
    have hkL : k * L < U32 := by
      have := le_max_right hp.priming_samples (k * L)
      omega
    have hLlt : L < U32 := by omega
    have hloop : priming_loop a hp 1 (k - 1) 1 L = k * L := by
      have h1 := priming_loop_constant a hp 1 hL0 (k - 1) 1 L
      have h2 : L + (k - 1) * hp.audio_frame_length = k * L := by
        rw [hL]
        obtain ⟨j, rfl⟩ : ∃ j, k = j + 1 := ⟨k - 1, by omega⟩
        rw [Nat.add_sub_cancel, Nat.succ_mul]; omega
      rw [h2, Nat.mod_eq_of_lt hkL,
        Nat.mod_eq_of_lt (priming_loop_lt a hp 1 (k - 1) 1 _ hLlt)] at h1
      exact h1
    have hprim : get_priming_samples a hp 1 L = max hp.priming_samples (k * L) := by
      simp only [get_priming_samples, hk, hk0, if_false, hloop]
    have h0 : (0 : Nat) / L + 1 = 1 := by rw [Nat.zero_div]
    have hposn := audio_seek_position_constant a hp 0 L hL hpos
      (Nat.mul_pos hcount hpos)
      (by rw [h0, hprim]; omega)
      (by rw [h0, hprim, Nat.zero_mod, Nat.add_zero]; exact hb2)
    rw [h0, hprim, Nat.zero_mod, Nat.add_zero] at hposn
    obtain ⟨r1, _⟩ := hread 0 w hseek hc (by rw [hposn]; exact Nat.dvd_mul_left _ _)
    rw [hposn] at r1
    exact ⟨hprim, by rw [r1]; rfl⟩

/-- Witness of `priming_added_on_seek`: frames of four one-byte samples, the
pre-roll distance 1 and six configured priming samples; `read_audio(0, 2)`
discards six decoded samples and delivers the samples 22 and 23 of the second
frame. -/
theorem priming_added_on_seek_witness :
    get_priming_samples (four_byte_track (some 1)) (four_byte_handler 6) 1 4 = max 6 (1 * 4) ∧
    (read_audio (four_byte_track (some 1)) (four_byte_handler 6) 0 2).out
      = ((decoded_stream (four_byte_track (some 1)) 1 3).drop (max 6 (1 * 4) * 1)).take (2 * 1) ∧
    ((decoded_stream (four_byte_track (some 1)) 1 3).drop (max 6 (1 * 4) * 1)).take (2 * 1)
      = [22, 23] :=
  ⟨((priming_added_on_seek (four_byte_track (some 1)) (four_byte_handler 6)).2.2.2.2 4 1 2 rfl
      (by decide) (by decide) rfl (by decide) (by decide) (fun _ _ _ => Nat.one_dvd _)
      (by decide) (by decide)).1,
   ((priming_added_on_seek (four_byte_track (some 1)) (four_byte_handler 6)).2.2.2.2 4 1 2 rfl
      (by decide) (by decide) rfl (by decide) (by decide) (fun _ _ _ => Nat.one_dvd _)
      (by decide) (by decide)).2,
   by decide⟩

end LSmashWorks
